import Mathlib

/-!
Verification development for the pixi-browse package browser.

The Python source is shallowly embedded: strings are lists of characters,
Python `str.casefold` is modelled character-wise by `Char.toLower` (exact on
ASCII package/platform names), Python `dict` is modelled by an association
list with insert-or-replace semantics, Python `set` by `Finset`, and the
stable `sorted` builtin by an insertion sort (at every call site the sort
keys of distinct elements are distinct, so any sorted permutation is the
unique result and stability is immaterial).
-/

namespace PixiBrowse

/-! ## Character and string helpers -/

/-- Character-wise model of Python `str.casefold`. -/
def foldChars (s : List Char) : List Char := s.map Char.toLower

/-- Model of Python `str.strip`: drop whitespace from both ends. -/
def stripChars (s : List Char) : List Char :=
  ((s.dropWhile Char.isWhitespace).reverse.dropWhile Char.isWhitespace).reverse

/-! ## SearchRanker: `search.fuzzy_score`

`candidate.find(char, start)` returns the least index `≥ start` holding
`char`, or `-1`; we return `Option Nat` instead of `-1`. -/

/-- Index of the first occurrence of `ch` in a list, if any. -/
def findIdxFrom (ch : Char) : List Char → Option Nat
  | [] => none
  | c :: cs => if c = ch then some 0 else (findIdxFrom ch cs).map (· + 1)

/-- Model of Python `candidate.find(ch, start)` (with `none` for `-1`). -/
def findFrom (cand : List Char) (start : Nat) (ch : Char) : Option Nat :=
  (findIdxFrom ch (cand.drop start)).map (· + start)

/-- The loop of `fuzzy_score`: walks the query, tracking the next search
position (`start`, with `first = true` while the Python cursor is `-1`),
the accumulated gap penalty, the current run length and the longest run.
Returns `(longest_run, gap_penalty)` on success. -/
def scanQuery (cand : List Char) :
    List Char → Nat → Bool → Nat → Nat → Nat → Option (Nat × Nat)
  | [], _, _, gap, _, longest => some (longest, gap)
  | ch :: rest, start, first, gap, run, longest =>
    match findFrom cand start ch with
    | none => none
    | some idx =>
      scanQuery cand rest (idx + 1) false
        (if first then gap else gap + (idx - start))
        (if idx = start then run + 1 else 1)
        (max longest (if idx = start then run + 1 else 1))

/-- Shallow embedding of `search.fuzzy_score`. -/
def fuzzyScore (query cand : List Char) : Option Int :=
  let q := stripChars (foldChars query)
  let c := foldChars cand
  if q = [] then some 0
  else
    match scanQuery c q 0 true 0 0 0 with
    | none => none
    | some lg =>
      let bonus : Int := if c.take q.length = q then 120 else 0
      some (bonus + 20 * (lg.1 : Int) - 2 * (lg.2 : Int)
        - ((c.length : Int) - (q.length : Int)))

/-! ### Specification-side notions for the score formula -/

/-- The positions matched by leftmost-greedy subsequence matching,
starting the search at index `start`. -/
def greedyPositions (cand : List Char) : List Char → Nat → Option (List Nat)
  | [], _ => some []
  | ch :: rest, start =>
    match findFrom cand start ch with
    | none => none
    | some idx => (greedyPositions cand rest (idx + 1)).map (idx :: ·)

/-- Total gap length contributed by positions `ps` when the previous
matched position was `cursor`. -/
def gapsFrom (cursor : Nat) : List Nat → Nat
  | [] => 0
  | p :: ps => (p - cursor - 1) + gapsFrom p ps

/-- Total gap length between consecutive matched positions. -/
def gapsOf : List Nat → Nat
  | [] => 0
  | p :: ps => gapsFrom p ps

/-- Longest run of consecutive positions, given the current run length
`run` ending at position `cursor`. -/
def maxRunAux (run cursor : Nat) : List Nat → Nat
  | [] => run
  | p :: ps => max run (maxRunAux (if p = cursor + 1 then run + 1 else 1) p ps)

/-- Longest run of consecutive matched positions. -/
def longestRunOf : List Nat → Nat
  | [] => 0
  | p :: ps => maxRunAux 1 p ps

/-- The score value the specification describes, computed from the greedy
match positions `ps` of the processed query `q` against the processed
candidate `c`. -/
def specScoreValue (q c : List Char) (ps : List Nat) : Int :=
  (if c.take q.length = q then (120 : Int) else 0)
    + 20 * (longestRunOf ps : Int) - 2 * (gapsOf ps : Int)
    - ((c.length : Int) - (q.length : Int))

/-! ### Lemmas about greedy matching -/

theorem findIdxFrom_eq_none_iff (ch : Char) (l : List Char) :
    findIdxFrom ch l = none ↔ ch ∉ l := by
  induction l with
  | nil => simp [findIdxFrom]
  | cons c cs ih =>
    rcases eq_or_ne c ch with h | h
    · simp [findIdxFrom, h]
    · simp [findIdxFrom, h, ih, Ne.symm h]

theorem findIdxFrom_eq_some (ch : Char) (l : List Char) (j : Nat)
    (h : findIdxFrom ch l = some j) :
    j < l.length ∧ l.drop j = ch :: l.drop (j + 1) ∧
      ∀ k, k < j → ∀ hk : k < l.length, l.get ⟨k, hk⟩ ≠ ch := by
  induction l generalizing j with
  | nil => simp [findIdxFrom] at h
  | cons c cs ih =>
    rcases eq_or_ne c ch with hc | hc
    · simp [findIdxFrom, hc] at h
      subst h
      exact ⟨by simp, by simp [hc], by omega⟩
    · simp only [findIdxFrom, if_neg hc, Option.map_eq_some'] at h
      obtain ⟨j', hj', rfl⟩ := h
      obtain ⟨h1, h2, h3⟩ := ih j' hj'
      refine ⟨by simpa using h1, by simpa using h2, ?_⟩
      intro k hk hkl
      match k with
      | 0 => simpa using hc
      | k' + 1 => exact h3 k' (by omega) (by simpa using hkl)

theorem drop_sublist_drop (l : List Char) {m n : Nat} (h : m ≤ n) :
    List.Sublist (l.drop n) (l.drop m) := by
  have he : l.drop n = (l.drop m).drop (n - m) := by
    rw [List.drop_drop]
    congr 1
    omega
  rw [he]
  exact List.drop_sublist _ _

theorem sublist_cons_exists (ch : Char) (rest l : List Char)
    (h : List.Sublist (ch :: rest) l) :
    ∃ i, ∃ hi : i < l.length, l.get ⟨i, hi⟩ = ch ∧
      List.Sublist rest (l.drop (i + 1)) := by
  induction l with
  | nil => simp at h
  | cons x xs ih =>
    cases h with
    | cons _ h' =>
      obtain ⟨i, hi, hget, hrest⟩ := ih h'
      exact ⟨i + 1, by simpa using hi, by simpa using hget, by simpa using hrest⟩
    | cons₂ _ h' =>
      exact ⟨0, by simp, by simp, by simpa using h'⟩

theorem findFrom_ge (cand : List Char) (start : Nat) (ch : Char) (idx : Nat)
    (h : findFrom cand start ch = some idx) : start ≤ idx := by
  simp only [findFrom, Option.map_eq_some'] at h
  obtain ⟨j, _, rfl⟩ := h
  omega

theorem greedyPositions_isSome_iff (cand : List Char) (q : List Char) (start : Nat) :
    (greedyPositions cand q start).isSome ↔ List.Sublist q (cand.drop start) := by
  induction q generalizing start with
  | nil => simp [greedyPositions]
  | cons ch rest ih =>
    cases hf : findFrom cand start ch with
    | none =>
      simp only [greedyPositions, hf, Option.isSome_none, Bool.false_eq_true,
        false_iff]
      intro hs
      have hmem : ch ∈ cand.drop start := hs.subset (by simp)
      have h2 : findIdxFrom ch (cand.drop start) = none := by
        simpa [findFrom, Option.map_eq_none'] using hf
      rw [findIdxFrom_eq_none_iff] at h2
      exact h2 hmem
    | some idx =>
      obtain ⟨j, hj, rfl⟩ : ∃ j, findIdxFrom ch (cand.drop start) = some j ∧
          j + start = idx := by
        simpa [findFrom, Option.map_eq_some'] using hf
      obtain ⟨hlen, hdrop, hmin⟩ := findIdxFrom_eq_some ch _ j hj
      have hdd : (cand.drop start).drop (j + 1) = cand.drop (j + start + 1) := by
        rw [List.drop_drop]
        congr 1
        omega
      have hmap : ∀ (x : Option (List Nat)) (f : List Nat → List Nat),
          (x.map f).isSome = x.isSome := by
        intro x f
        cases x <;> rfl
      simp only [greedyPositions, hf, hmap, ih]
      constructor
      · intro hrest
        have h1 : List.Sublist (ch :: rest) ((cand.drop start).drop j) := by
          rw [hdrop, hdd]
          exact hrest.cons₂ ch
        exact h1.trans (List.drop_sublist _ _)
      · intro hs
        obtain ⟨i, hi, hget, hrest⟩ := sublist_cons_exists ch rest _ hs
        have hji : j ≤ i := by
          by_contra hlt
          exact hmin i (by omega) hi hget
        rw [← hdd]
        exact hrest.trans (drop_sublist_drop _ (by omega))

theorem maxRunAux_ge (run cursor : Nat) (ps : List Nat) :
    run ≤ maxRunAux run cursor ps := by
  cases ps with
  | nil => simp [maxRunAux]
  | cons p ps => exact le_max_left _ _

theorem scanQuery_eq_greedy (cand : List Char) (q : List Char) :
    ∀ start gap run longest, 1 ≤ start → run ≤ longest →
    scanQuery cand q start false gap run longest =
      (greedyPositions cand q start).map
        (fun ps => (max longest (maxRunAux run (start - 1) ps),
          gap + gapsFrom (start - 1) ps)) := by
  induction q with
  | nil =>
    intro start gap run longest _ h2
    simp [scanQuery, greedyPositions, maxRunAux, gapsFrom, Nat.max_eq_left h2]
  | cons ch rest ih =>
    intro start gap run longest h1 h2
    cases hf : findFrom cand start ch with
    | none => simp [scanQuery, greedyPositions, hf]
    | some idx =>
      have hidx : start ≤ idx := findFrom_ge cand start ch idx hf
      simp only [scanQuery, greedyPositions, hf, Bool.false_eq_true, if_false]
      rw [ih (idx + 1) _ _ _ (by omega) (le_max_right _ _)]
      cases hg : greedyPositions cand rest (idx + 1) with
      | none => simp
      | some ps =>
        simp only [Option.map_some', Option.map_map, Function.comp]
        congr 1
        have hstart : start - 1 + 1 = start := by omega
        have hs1 : idx + 1 - 1 = idx := by rfl
        have hM : (if idx = start then run + 1 else 1) ≤
            maxRunAux (if idx = start then run + 1 else 1) idx ps :=
          maxRunAux_ge _ _ _
        refine Prod.ext ?_ ?_
        · show max (max longest (if idx = start then run + 1 else 1))
              (maxRunAux (if idx = start then run + 1 else 1) (idx + 1 - 1) ps)
            = max longest (maxRunAux run (start - 1) (idx :: ps))
          rw [hs1, maxRunAux, hstart, Nat.max_assoc,
            Nat.max_eq_right hM, ← Nat.max_assoc, Nat.max_eq_left h2]
        · show gap + (idx - start) + gapsFrom (idx + 1 - 1) ps
            = gap + gapsFrom (start - 1) (idx :: ps)
          rw [hs1, gapsFrom]
          omega

theorem scanQuery_start (cand : List Char) (q : List Char) (hq : q ≠ []) :
    scanQuery cand q 0 true 0 0 0 =
      (greedyPositions cand q 0).map (fun ps => (longestRunOf ps, gapsOf ps)) := by
  match q, hq with
  | ch :: rest, _ =>
    cases hf : findFrom cand 0 ch with
    | none => simp [scanQuery, greedyPositions, hf]
    | some idx =>
      have hstep : scanQuery cand (ch :: rest) 0 true 0 0 0 =
          scanQuery cand rest (idx + 1) false 0 1 1 := by
        rcases eq_or_ne idx 0 with h | h <;> simp [scanQuery, hf, h]
      rw [hstep, scanQuery_eq_greedy cand rest (idx + 1) 0 1 1 (by omega) le_rfl]
      simp only [greedyPositions, hf]
      cases hg : greedyPositions cand rest (idx + 1) with
      | none => simp
      | some ps =>
        simp only [Option.map_some', Option.map_map, Function.comp]
        congr 1
        refine Prod.ext ?_ ?_
        · show max 1 (maxRunAux 1 (idx + 1 - 1) ps) = longestRunOf (idx :: ps)
          have he : idx + 1 - 1 = idx := rfl
          rw [he, longestRunOf, Nat.max_eq_right (maxRunAux_ge 1 idx ps)]
        · show 0 + gapsFrom (idx + 1 - 1) ps = gapsOf (idx :: ps)
          have he : idx + 1 - 1 = idx := rfl
          rw [he, gapsOf]
          omega

/-- C2 (counterexample): as stated, the claim is false, because
`fuzzy_score` strips leading and trailing whitespace from the query before
matching.  For query `" a"` and candidate `"a"`, the query's characters
(a space, then `a`) do not all appear in the candidate in order, yet the
code returns a score (140), not none. -/
theorem fuzzy_score_claim_counterexample :
    ¬ (fuzzyScore " a".data "a".data = none ↔
        ¬ List.Sublist (foldChars " a".data) (foldChars "a".data)) := by
  decide

/-- C2 (amended): for every query string q and candidate string c, with
q' the whitespace-stripped casefold of q and c' the casefold of c:
`fuzzy_score(q, c)` is none iff q' is not a subsequence of c'; an
empty q' scores 0; otherwise, with `ps` the greedily matched positions,
the score is a 120 bonus if c' starts with q', plus 20 times the longest
run of consecutive matched characters, minus 2 times the total gap
between consecutive matched characters, minus `len(c') - len(q')`. -/
theorem fuzzy_score_char_spec (query cand : List Char) :
    (fuzzyScore query cand = none ↔
      ¬ List.Sublist (stripChars (foldChars query)) (foldChars cand))
    ∧ (stripChars (foldChars query) = [] → fuzzyScore query cand = some 0)
    ∧ (∀ ps, stripChars (foldChars query) ≠ [] →
        greedyPositions (foldChars cand) (stripChars (foldChars query)) 0 = some ps →
        fuzzyScore query cand =
          some (specScoreValue (stripChars (foldChars query)) (foldChars cand) ps)) := by
  by_cases hq : stripChars (foldChars query) = []
  · refine ⟨?_, fun _ => by simp [fuzzyScore, hq], fun ps h _ => absurd hq h⟩
    simp [fuzzyScore, hq, List.nil_sublist]
  · have hscan := scanQuery_start (foldChars cand) _ hq
    refine ⟨?_, fun h => absurd h hq, fun ps _ hg => ?_⟩
    · rw [← List.drop_zero (foldChars cand), ← greedyPositions_isSome_iff]
      cases hg : greedyPositions (foldChars cand) (stripChars (foldChars query)) 0 with
      | none => simp [fuzzyScore, hq, hscan, hg]
      | some ps => simp [fuzzyScore, hq, hscan, hg]
    · simp [fuzzyScore, hq, hscan, hg, specScoreValue]

/-- C2 witness: the amended theorem applied at a concrete input:
query "pan" on candidate "pandas" scores 120 + 20*3 - 2*0 - 3 = 177. -/
theorem fuzzy_score_char_spec_witness :
    fuzzyScore "pan".data "pandas".data = some 177 := by
  rw [(fuzzy_score_char_spec "pan".data "pandas".data).2.2 [0, 1, 2]
    (by decide) (by decide)]
  decide

/-! ## Sorting

Python's stable `sorted(xs, key=k)` is modelled by an insertion sort; at
every call site the keys of distinct inputs are distinct, so any sorted
permutation of them (the unique one) equals the Python result. -/

def insertSorted {α : Type} (le : α → α → Bool) (x : α) : List α → List α
  | [] => [x]
  | y :: l => if le x y then x :: y :: l else y :: insertSorted le x l

def sortBy {α : Type} (le : α → α → Bool) : List α → List α
  | [] => []
  | x :: l => insertSorted le x (sortBy le l)

theorem perm_insertSorted {α : Type} (le : α → α → Bool) (x : α) (l : List α) :
    (insertSorted le x l).Perm (x :: l) := by
  induction l with
  | nil => exact List.Perm.refl _
  | cons y l ih =>
    by_cases h : le x y
    · simp [insertSorted, h]
    · simp only [insertSorted, if_neg h]
      exact (ih.cons y).trans (List.Perm.swap x y l)

theorem perm_sortBy {α : Type} (le : α → α → Bool) (l : List α) :
    (sortBy le l).Perm l := by
  induction l with
  | nil => exact List.Perm.refl _
  | cons x l ih => exact (perm_insertSorted le x (sortBy le l)).trans (ih.cons x)

theorem mem_insertSorted {α : Type} {le : α → α → Bool} {x a : α} {l : List α} :
    a ∈ insertSorted le x l ↔ a = x ∨ a ∈ l := by
  induction l with
  | nil => simp [insertSorted]
  | cons y l ih =>
    by_cases h : le x y
    · simp [insertSorted, h]
    · simp only [insertSorted, if_neg h, List.mem_cons, ih]
      tauto

theorem mem_sortBy {α : Type} {le : α → α → Bool} {l : List α} {a : α} :
    a ∈ sortBy le l ↔ a ∈ l := (perm_sortBy le l).mem_iff

theorem pairwise_insertSorted {α : Type} (le : α → α → Bool)
    (htrans : ∀ a b c, le a b = true → le b c = true → le a c = true)
    (htot : ∀ a b, le a b = true ∨ le b a = true)
    (x : α) (l : List α) (h : l.Pairwise (fun a b => le a b = true)) :
    (insertSorted le x l).Pairwise (fun a b => le a b = true) := by
  induction l with
  | nil => simp [insertSorted]
  | cons y l ih =>
    rcases List.pairwise_cons.mp h with ⟨hy, hl⟩
    by_cases hxy : le x y
    · simp only [insertSorted, if_pos hxy]
      refine List.pairwise_cons.mpr ⟨?_, h⟩
      intro z hz
      rcases List.mem_cons.mp hz with rfl | hz
      · exact hxy
      · exact htrans x y z hxy (hy z hz)
    · simp only [insertSorted, if_neg hxy]
      refine List.pairwise_cons.mpr ⟨?_, ih hl⟩
      intro z hz
      rcases mem_insertSorted.mp hz with rfl | hz
      · rcases htot z y with h1 | h1
        · exact absurd h1 hxy
        · exact h1
      · exact hy z hz

theorem pairwise_sortBy {α : Type} (le : α → α → Bool)
    (htrans : ∀ a b c, le a b = true → le b c = true → le a c = true)
    (htot : ∀ a b, le a b = true ∨ le b a = true) (l : List α) :
    (sortBy le l).Pairwise (fun a b => le a b = true) := by
  induction l with
  | nil => simp [sortBy]
  | cons x l ih => exact pairwise_insertSorted le htrans htot x _ ih

/-- Sorting by an order-valued key, ascending. -/
theorem pairwise_sortByKey {α κ : Type} [LinearOrder κ] (key : α → κ) (l : List α) :
    (sortBy (fun a b => decide (key a ≤ key b)) l).Pairwise
      (fun a b => key a ≤ key b) := by
  have h := pairwise_sortBy (fun a b => decide (key a ≤ key b))
    (fun a b c h1 h2 =>
      decide_eq_true (le_trans (of_decide_eq_true h1) (of_decide_eq_true h2)))
    (fun a b => by
      rcases le_total (key a) (key b) with h | h
      · exact Or.inl (decide_eq_true h)
      · exact Or.inr (decide_eq_true h)) l
  exact h.imp (fun h => of_decide_eq_true h)

/-- Sorting by an order-valued key, descending (Python `reverse=True`). -/
theorem pairwise_sortByKeyDesc {α κ : Type} [LinearOrder κ] (key : α → κ) (l : List α) :
    (sortBy (fun a b => decide (key b ≤ key a)) l).Pairwise
      (fun a b => key b ≤ key a) := by
  have h := pairwise_sortBy (fun a b => decide (key b ≤ key a))
    (fun a b c h1 h2 =>
      decide_eq_true (le_trans (of_decide_eq_true h2) (of_decide_eq_true h1)))
    (fun a b => by
      rcases le_total (key b) (key a) with h | h
      · exact Or.inl (decide_eq_true h)
      · exact Or.inr (decide_eq_true h)) l
  exact h.imp (fun h => of_decide_eq_true h)

/-! ## Association lists: the model of Python `dict`

Insertion of an existing key replaces its value in place; a new key is
appended, matching Python dict insertion-order semantics. -/

def alInsert {κ ν : Type} [DecidableEq κ] : List (κ × ν) → κ → ν → List (κ × ν)
  | [], k, v => [(k, v)]
  | (k', v') :: rest, k, v =>
    if k' = k then (k, v) :: rest else (k', v') :: alInsert rest k v

def alLookup {κ ν : Type} [DecidableEq κ] (k : κ) : List (κ × ν) → Option ν
  | [] => none
  | (k', v) :: rest => if k' = k then some v else alLookup k rest

def alKeys {κ ν : Type} (m : List (κ × ν)) : List κ := m.map Prod.fst

def alValues {κ ν : Type} (m : List (κ × ν)) : List ν := m.map Prod.snd

/-- `defaultdict(list)` append: extend the list at `k`, creating it at the
end if missing. -/
def alAppend {κ ν : Type} [DecidableEq κ] : List (κ × List ν) → κ → ν → List (κ × List ν)
  | [], k, v => [(k, [v])]
  | (k', vs) :: rest, k, v =>
    if k' = k then (k', vs ++ [v]) :: rest else (k', vs) :: alAppend rest k v

theorem alKeys_alInsert {κ ν : Type} [DecidableEq κ] (m : List (κ × ν)) (k : κ) (v : ν) :
    alKeys (alInsert m k v) = if k ∈ alKeys m then alKeys m else alKeys m ++ [k] := by
  induction m with
  | nil => simp [alInsert, alKeys]
  | cons p rest ih =>
    obtain ⟨k', v'⟩ := p
    rcases eq_or_ne k' k with h | h
    · simp [alInsert, alKeys, h]
    · have hk : alKeys ((k', v') :: alInsert rest k v) = k' :: alKeys (alInsert rest k v) := rfl
      have hk2 : alKeys ((k', v') :: rest) = k' :: alKeys rest := rfl
      simp only [alInsert, if_neg h]
      rw [hk, hk2, ih]
      by_cases hm : k ∈ alKeys rest
      · simp [hm, Ne.symm h]
      · simp [hm, Ne.symm h]

theorem alLookup_alInsert {κ ν : Type} [DecidableEq κ] (m : List (κ × ν))
    (k k' : κ) (v : ν) :
    alLookup k' (alInsert m k v) = if k = k' then some v else alLookup k' m := by
  induction m with
  | nil => simp [alInsert, alLookup]
  | cons p rest ih =>
    obtain ⟨k0, v0⟩ := p
    rcases eq_or_ne k0 k with h | h
    · subst h
      rcases eq_or_ne k0 k' with h2 | h2 <;> simp [alInsert, alLookup, h2]
    · rcases eq_or_ne k0 k' with h2 | h2
      · subst h2
        simp [alInsert, alLookup, if_neg h, Ne.symm h]
      · simp [alInsert, alLookup, if_neg h, h2, ih]

theorem nodup_alKeys_alInsert {κ ν : Type} [DecidableEq κ] (m : List (κ × ν))
    (k : κ) (v : ν) (h : (alKeys m).Nodup) : (alKeys (alInsert m k v)).Nodup := by
  rw [alKeys_alInsert]
  by_cases hm : k ∈ alKeys m
  · simpa [hm] using h
  · simp only [hm, if_false]
    exact List.nodup_append.mpr ⟨h, List.nodup_singleton k, by simpa using hm⟩

theorem mem_alKeys_alInsert {κ ν : Type} [DecidableEq κ] (m : List (κ × ν))
    (k k' : κ) (v : ν) :
    k' ∈ alKeys (alInsert m k v) ↔ k' = k ∨ k' ∈ alKeys m := by
  rw [alKeys_alInsert]
  by_cases hm : k ∈ alKeys m
  · simp only [hm, if_true]
    constructor
    · exact Or.inr
    · rintro (rfl | h)
      · exact hm
      · exact h
  · simp only [hm, if_false, List.mem_append, List.mem_singleton]
    tauto

/-! ## Data model

Versions are an abstract linearly ordered type `V`: the code orders
versions through the collaborator's `rattler.Version` semantic-version
comparison and is otherwise agnostic to their structure, and `str` on
`rattler.Version` round-trips, so identity keys built from `str(version)`
are modelled with the `V` value itself.  Strings are compared by code
point, as Python does: `strKey` maps a string to its list of code points,
ordered lexicographically. -/

/-- A string's list of code points; Python string comparison is the
lexicographic order on these. -/
def strKey (s : String) : List ℕ := s.data.map Char.toNat

/-- Model of `rattler` `PackageName.normalized` (the lowercased name). -/
def normalizedName (s : String) : String := ⟨s.data.map Char.toLower⟩

/-- The Python sort key `platform_sort_key`: `(name == "noarch", name)`,
compared lexicographically with `False < True`. -/
def platform_sort_key (s : String) : Bool ×ₗ List ℕ :=
  toLex (decide (s = "noarch"), strKey s)

/-- A repodata record, restricted to the fields the core reads, plus the
opaque download URL payload. -/
structure RawRecord (V : Type) where
  version : V
  build : String
  build_number : ℕ
  subdir : String
  file_name : String
  url : String
deriving DecidableEq

/-- `repodata.record_identity_key`: `(str(version), build, build_number,
subdir, file_name)`. -/
def record_identity_key {V : Type} (r : RawRecord V) :
    V × String × ℕ × String × String :=
  (r.version, r.build, r.build_number, r.subdir, r.file_name)

/-- `models.VersionEntry`. -/
structure VersionEntry (V : Type) where
  version : V
  build : String
  build_number : ℕ
  subdir : String
  file_name : String
deriving DecidableEq

/-- The identity key of a version entry (same five fields). -/
def entryKey {V : Type} (e : VersionEntry V) : V × String × ℕ × String × String :=
  (e.version, e.build, e.build_number, e.subdir, e.file_name)

/-- `tui._record_sort_key`: `(version, build, subdir, build_number)`,
compared lexicographically (tuple comparison in Python). -/
def record_sort_key {V : Type} [LinearOrder V] (r : RawRecord V) :
    V ×ₗ (List ℕ ×ₗ (List ℕ ×ₗ ℕ)) :=
  toLex (r.version, toLex (strKey r.build, toLex (strKey r.subdir, r.build_number)))

/-- The sort key of `tui._build_version_entries`: `(version, build,
subdir, build_number, file_name)`, compared lexicographically. -/
def entry_sort_key {V : Type} [LinearOrder V] (e : VersionEntry V) :
    V ×ₗ (List ℕ ×ₗ (List ℕ ×ₗ (ℕ ×ₗ List ℕ))) :=
  toLex (e.version, toLex (strKey e.build,
    toLex (strKey e.subdir, toLex (e.build_number, strKey e.file_name))))

/-- The deduplicating dict of `repodata.query_package_records`: iterate
the per-source record lists, keyed by `record_identity_key`, later
records overwriting earlier ones. -/
def uniqueRecordsDict {V : Type} [DecidableEq V]
    (by_source : List (List (RawRecord V))) :
    List ((V × String × ℕ × String × String) × RawRecord V) :=
  by_source.foldl
    (fun m src => src.foldl (fun m r => alInsert m (record_identity_key r) r) m) []

/-- `repodata.query_package_records` (with the gateway response
`by_source` as input and `tui._record_sort_key` as the sort key, as the
controller passes it): dedup by identity key, then sort descending. -/
def query_package_records {V : Type} [LinearOrder V]
    (by_source : List (List (RawRecord V))) : List (RawRecord V) :=
  sortBy (fun a b => decide (record_sort_key b ≤ record_sort_key a))
    (alValues (uniqueRecordsDict by_source))

/-- The dict built by `tui._build_version_entries`: keyed by the identity
tuple, valued by the projected `VersionEntry`. -/
def versionsByKeyDict {V : Type} [DecidableEq V] (records : List (RawRecord V)) :
    List ((V × String × ℕ × String × String) × VersionEntry V) :=
  records.foldl
    (fun m r => alInsert m (record_identity_key r)
      (VersionEntry.mk r.version r.build r.build_number r.subdir r.file_name)) []

/-- `tui._build_version_entries`: dedup by identity key, then sort
descending by `(version, build, subdir, build_number, file_name)`. -/
def build_version_entries {V : Type} [LinearOrder V]
    (records : List (RawRecord V)) : List (VersionEntry V) :=
  sortBy (fun a b => decide (entry_sort_key b ≤ entry_sort_key a))
    (alValues (versionsByKeyDict records))

/-- The `defaultdict(list)` grouping of `tui._open_versions`: entries
grouped by subdir in order of first appearance. -/
def groupBySubdir {V : Type} (entries : List (VersionEntry V)) :
    List (String × List (VersionEntry V)) :=
  entries.foldl (fun m e => alAppend m e.subdir e) []

/-- The subdir list of `tui._open_versions`: group keys sorted by
`(subdir == "noarch", subdir)` ascending. -/
def version_subdirs {V : Type} (entries : List (VersionEntry V)) : List String :=
  sortBy (fun a b => decide (platform_sort_key a ≤ platform_sort_key b))
    (alKeys (groupBySubdir entries))

/-- `repodata.fetch_package_names`, with the gateway's name response as
input: returns the deduplicated selected platforms sorted by
`platform_sort_key`, and the sorted set of normalized package names. -/
def fetch_package_names (selected_platforms : List String)
    (names : List String) : List String × List String :=
  (sortBy (fun a b => decide (platform_sort_key a ≤ platform_sort_key b))
      selected_platforms.dedup,
   sortBy (fun a b => decide (strKey a ≤ strKey b))
      ((names.map normalizedName).dedup))

/-! ### Folding records into the dedup dict -/

theorem mem_alInsert {κ ν : Type} [DecidableEq κ] {m : List (κ × ν)} {k : κ}
    {v : ν} {p : κ × ν} (h : p ∈ alInsert m k v) : p = (k, v) ∨ p ∈ m := by
  induction m with
  | nil => simpa [alInsert] using h
  | cons q rest ih =>
    obtain ⟨k0, v0⟩ := q
    by_cases hk : k0 = k
    · rcases List.mem_cons.mp (by simpa [alInsert, hk] using h) with h1 | h1 <;> tauto
    · rcases List.mem_cons.mp (by simpa [alInsert, hk] using h) with h1 | h1
      · exact Or.inr (List.mem_cons.mpr (Or.inl h1))
      · rcases ih h1 with h2 | h2
        · exact Or.inl h2
        · exact Or.inr (List.mem_cons.mpr (Or.inr h2))

theorem nodup_alKeys_foldl {κ ν ρ : Type} [DecidableEq κ] (f : ρ → κ) (g : ρ → ν)
    (rs : List ρ) (m : List (κ × ν)) (h : (alKeys m).Nodup) :
    (alKeys (rs.foldl (fun m r => alInsert m (f r) (g r)) m)).Nodup := by
  induction rs generalizing m with
  | nil => simpa using h
  | cons r rs ih => exact ih _ (nodup_alKeys_alInsert _ _ _ h)

theorem mem_alKeys_foldl {κ ν ρ : Type} [DecidableEq κ] (f : ρ → κ) (g : ρ → ν)
    (rs : List ρ) (m : List (κ × ν)) (k : κ) :
    k ∈ alKeys (rs.foldl (fun m r => alInsert m (f r) (g r)) m) ↔
      k ∈ alKeys m ∨ k ∈ rs.map f := by
  induction rs generalizing m with
  | nil => simp
  | cons r rs ih =>
    simp only [List.foldl_cons, ih, mem_alKeys_alInsert, List.map_cons, List.mem_cons]
    tauto

theorem alLookup_foldl {κ ν ρ : Type} [DecidableEq κ] (f : ρ → κ) (g : ρ → ν)
    (rs : List ρ) (k : κ) :
    alLookup k (rs.foldl (fun m r => alInsert m (f r) (g r)) []) =
      (rs.reverse.find? (fun r => decide (f r = k))).map g := by
  induction rs using List.reverseRecOn with
  | nil => simp [alLookup]
  | append_singleton rs r ih =>
    rw [List.foldl_append]
    simp only [List.foldl_cons, List.foldl_nil]
    rw [alLookup_alInsert]
    rcases eq_or_ne (f r) k with h | h
    · simp [h, List.find?]
    · simp [h, ih, List.find?]

theorem foldl_foldl_flatten {α ρ : Type} (step : α → ρ → α)
    (bs : List (List ρ)) (init : α) :
    bs.foldl (fun m src => src.foldl step m) init = bs.flatten.foldl step init := by
  induction bs generalizing init with
  | nil => rfl
  | cons src bs ih => simp [List.flatten_cons, List.foldl_append, ih]

/-- Every value stored by the fold is tagged with its own key, when the
stored value's key projection agrees with the insertion key. -/
theorem consistent_foldl {κ ν ρ : Type} [DecidableEq κ] (f : ρ → κ) (g : ρ → ν)
    (ek : ν → κ) (hek : ∀ r, ek (g r) = f r) (rs : List ρ) (m : List (κ × ν))
    (hm : ∀ p ∈ m, ek p.2 = p.1) :
    ∀ p ∈ rs.foldl (fun m r => alInsert m (f r) (g r)) m, ek p.2 = p.1 := by
  induction rs generalizing m with
  | nil => exact hm
  | cons r rs ih =>
    refine ih _ ?_
    intro p hp
    rcases mem_alInsert hp with rfl | hp
    · exact hek r
    · exact hm p hp

theorem countP_eq_ite_of_nodup {κ : Type} [DecidableEq κ] (l : List κ)
    (h : l.Nodup) (k : κ) :
    l.countP (fun a => decide (a = k)) = if k ∈ l then 1 else 0 := by
  induction l with
  | nil => simp
  | cons a l ih =>
    rcases List.nodup_cons.mp h with ⟨ha, hl⟩
    rcases eq_or_ne a k with rfl | hk
    · simp [List.countP_cons, ih hl, ha]
    · simp [List.countP_cons, ih hl, hk, Ne.symm hk]

/-- Under key-consistency, the keys of the stored values are the dict keys. -/
theorem map_ek_alValues {κ ν : Type} (m : List (κ × ν)) (ek : ν → κ)
    (hm : ∀ p ∈ m, ek p.2 = p.1) : (alValues m).map ek = alKeys m := by
  unfold alValues alKeys
  rw [List.map_map]
  exact List.map_congr_left hm

theorem alKeys_alAppend {κ ν : Type} [DecidableEq κ] (m : List (κ × List ν))
    (k : κ) (v : ν) :
    alKeys (alAppend m k v) = if k ∈ alKeys m then alKeys m else alKeys m ++ [k] := by
  induction m with
  | nil => simp [alAppend, alKeys]
  | cons p rest ih =>
    obtain ⟨k', vs⟩ := p
    rcases eq_or_ne k' k with h | h
    · simp [alAppend, alKeys, h]
    · have hk : alKeys ((k', vs) :: alAppend rest k v)
          = k' :: alKeys (alAppend rest k v) := rfl
      have hk2 : alKeys ((k', vs) :: rest) = k' :: alKeys rest := rfl
      simp only [alAppend, if_neg h]
      rw [hk, hk2, ih]
      by_cases hm : k ∈ alKeys rest
      · simp [hm, Ne.symm h]
      · simp [hm, Ne.symm h]

theorem nodup_alKeys_foldl_alAppend {κ ν ρ : Type} [DecidableEq κ] (f : ρ → κ)
    (g : ρ → ν) (rs : List ρ) (m : List (κ × List ν)) (h : (alKeys m).Nodup) :
    (alKeys (rs.foldl (fun m r => alAppend m (f r) (g r)) m)).Nodup := by
  induction rs generalizing m with
  | nil => simpa using h
  | cons r rs ih =>
    refine ih _ ?_
    rw [alKeys_alAppend]
    by_cases hm : f r ∈ alKeys m
    · simpa [hm] using h
    · simp only [hm, if_false]
      exact List.nodup_append.mpr ⟨h, List.nodup_singleton _, by simpa using hm⟩

theorem mem_alKeys_foldl_alAppend {κ ν ρ : Type} [DecidableEq κ] (f : ρ → κ)
    (g : ρ → ν) (rs : List ρ) (m : List (κ × List ν)) (k : κ) :
    k ∈ alKeys (rs.foldl (fun m r => alAppend m (f r) (g r)) m) ↔
      k ∈ alKeys m ∨ k ∈ rs.map f := by
  induction rs generalizing m with
  | nil => simp
  | cons r rs ih =>
    rw [List.foldl_cons, ih, alKeys_alAppend]
    by_cases hm : f r ∈ alKeys m
    · simp only [hm, if_true, List.map_cons, List.mem_cons]
      constructor
      · rintro (h | h)
        · exact Or.inl h
        · exact Or.inr (Or.inr h)
      · rintro (h | rfl | h)
        · exact Or.inl h
        · exact Or.inl hm
        · exact Or.inr h
    · simp only [hm, if_false, List.mem_append, List.mem_singleton, List.map_cons,
        List.mem_cons]
      tauto

/-! ### Injectivity of the sort keys -/

theorem char_toNat_injective : Function.Injective Char.toNat := by
  intro a b h
  unfold Char.toNat at h
  exact Char.eq_of_val_eq (UInt32.ext h)

theorem strKey_injective : Function.Injective strKey := by
  intro a b h
  have hd : a.data = b.data := List.map_injective_iff.mpr char_toNat_injective h
  cases a
  cases b
  exact congrArg String.mk hd

theorem platform_sort_key_injective (a b : String)
    (h : platform_sort_key a = platform_sort_key b) : a = b := by
  unfold platform_sort_key at h
  exact strKey_injective (congrArg Prod.snd (toLex.injective h))

theorem entry_sort_key_injective {V : Type} [LinearOrder V]
    (a b : VersionEntry V) (h : entry_sort_key a = entry_sort_key b) : a = b := by
  unfold entry_sort_key at h
  have h1 := toLex.injective h
  rw [Prod.mk.injEq] at h1
  obtain ⟨hv, h1⟩ := h1
  have h2 := toLex.injective h1
  rw [Prod.mk.injEq] at h2
  obtain ⟨hb, h2⟩ := h2
  have h3 := toLex.injective h2
  rw [Prod.mk.injEq] at h3
  obtain ⟨hs, h3⟩ := h3
  have h4 := toLex.injective h3
  rw [Prod.mk.injEq] at h4
  obtain ⟨hn, hf⟩ := h4
  obtain ⟨av, ab, an, asd, af⟩ := a
  obtain ⟨bv, bb, bn, bsd, bf⟩ := b
  simp only [VersionEntry.mk.injEq]
  exact ⟨hv, strKey_injective hb, hn, strKey_injective hs, strKey_injective hf⟩

/-! ### From non-strict sortedness to strict sortedness -/

theorem pairwise_key_lt {α κ : Type} [LinearOrder κ] (key : α → κ)
    (hinj : ∀ a b : α, key a = key b → a = b) (l : List α)
    (hle : l.Pairwise (fun a b => key a ≤ key b)) (hnd : l.Nodup) :
    l.Pairwise (fun a b => key a < key b) := by
  have hne : l.Pairwise (fun a b : α => a ≠ b) := hnd
  exact (hle.and hne).imp (fun h => lt_of_le_of_ne h.1 (fun he => h.2 (hinj _ _ he)))

theorem pairwise_key_lt_desc {α κ : Type} [LinearOrder κ] (key : α → κ)
    (hinj : ∀ a b : α, key a = key b → a = b) (l : List α)
    (hle : l.Pairwise (fun a b => key b ≤ key a)) (hnd : l.Nodup) :
    l.Pairwise (fun a b => key b < key a) := by
  have hne : l.Pairwise (fun a b : α => a ≠ b) := hnd
  exact (hle.and hne).imp
    (fun h => lt_of_le_of_ne h.1 (fun he => h.2 ((hinj _ _ he).symm)))

/-! ### Distinctness of the built entry list -/

theorem consistent_versionsByKeyDict {V : Type} [LinearOrder V]
    (records : List (RawRecord V)) :
    ∀ p ∈ versionsByKeyDict records, entryKey p.2 = p.1 :=
  consistent_foldl record_identity_key
    (fun r => VersionEntry.mk r.version r.build r.build_number r.subdir r.file_name)
    entryKey (fun _ => rfl) records [] (by simp)

theorem nodup_alKeys_versionsByKeyDict {V : Type} [LinearOrder V]
    (records : List (RawRecord V)) : (alKeys (versionsByKeyDict records)).Nodup :=
  nodup_alKeys_foldl _ _ records [] (by simp [alKeys])

theorem nodup_build_version_entries {V : Type} [LinearOrder V]
    (records : List (RawRecord V)) : (build_version_entries records).Nodup := by
  have hv : ((alValues (versionsByKeyDict records)).map entryKey).Nodup := by
    rw [map_ek_alValues _ entryKey (consistent_versionsByKeyDict records)]
    exact nodup_alKeys_versionsByKeyDict records
  exact ((perm_sortBy _ _).nodup_iff).mpr (List.Nodup.of_map entryKey hv)

/-- Claim C3: the artifact-set builder deduplicates by the key
`(version, build, build number, subdir, file name)`: each key present in
the input survives as exactly one artifact (so records differing only in
the file name both survive, as distinct keys), and in the gateway-side
dedup of `query_package_records` a later record with an equal key
overwrites an earlier one — the surviving record for a key is the last
input record carrying it. -/
theorem artifact_set_dedup {V : Type} [LinearOrder V]
    (records : List (RawRecord V)) (by_source : List (List (RawRecord V)))
    (k : V × String × ℕ × String × String) :
    (build_version_entries records).countP (fun e => decide (entryKey e = k)) =
      (if k ∈ records.map record_identity_key then 1 else 0)
    ∧ alLookup k (uniqueRecordsDict by_source) =
        by_source.flatten.reverse.find? (fun r => decide (record_identity_key r = k)) := by
  constructor
  · have hperm : (build_version_entries records).Perm
        (alValues (versionsByKeyDict records)) := perm_sortBy _ _
    rw [hperm.countP_eq]
    have hmk : (alValues (versionsByKeyDict records)).countP
          (fun e => decide (entryKey e = k)) =
        (alKeys (versionsByKeyDict records)).countP (fun a => decide (a = k)) := by
      rw [← map_ek_alValues _ entryKey (consistent_versionsByKeyDict records),
        List.countP_map]
      rfl
    rw [hmk, countP_eq_ite_of_nodup _ (nodup_alKeys_versionsByKeyDict records) k]
    have hmem : k ∈ alKeys (versionsByKeyDict records) ↔
        k ∈ records.map record_identity_key := by
      unfold versionsByKeyDict
      rw [mem_alKeys_foldl]
      simp [alKeys]
    simp only [hmem]
  · unfold uniqueRecordsDict
    rw [foldl_foldl_flatten]
    have h := alLookup_foldl record_identity_key (fun r : RawRecord V => r)
      by_source.flatten k
    simpa using h

/-- C3 witness: three concrete records — two equal on the identity key
with different payloads collapse to one entry; a record differing only in
file name survives alongside; the gateway dedup keeps the later record. -/
theorem artifact_set_dedup_witness :
    (build_version_entries
        ([⟨1, "b0", 0, "linux-64", "p.tar.bz2", "uA"⟩,
          ⟨1, "b0", 0, "linux-64", "p.tar.bz2", "uB"⟩,
          ⟨1, "b0", 0, "linux-64", "p.conda", "uC"⟩] :
          List (RawRecord ℕ))).countP
      (fun e => decide (entryKey e = (1, "b0", 0, "linux-64", "p.tar.bz2"))) = 1
    ∧ alLookup ((1 : ℕ), "b0", 0, "linux-64", "p.tar.bz2")
        (uniqueRecordsDict
          [[⟨1, "b0", 0, "linux-64", "p.tar.bz2", "uA"⟩,
            ⟨1, "b0", 0, "linux-64", "p.tar.bz2", "uB"⟩]]) =
        some ⟨1, "b0", 0, "linux-64", "p.tar.bz2", "uB"⟩ := by
  constructor
  · rw [(artifact_set_dedup
      ([⟨1, "b0", 0, "linux-64", "p.tar.bz2", "uA"⟩,
        ⟨1, "b0", 0, "linux-64", "p.tar.bz2", "uB"⟩,
        ⟨1, "b0", 0, "linux-64", "p.conda", "uC"⟩] : List (RawRecord ℕ)) []
      (1, "b0", 0, "linux-64", "p.tar.bz2")).1]
    decide
  · rw [(artifact_set_dedup ([] : List (RawRecord ℕ))
      [[⟨1, "b0", 0, "linux-64", "p.tar.bz2", "uA"⟩,
        ⟨1, "b0", 0, "linux-64", "p.tar.bz2", "uB"⟩]]
      (1, "b0", 0, "linux-64", "p.tar.bz2")).2]
    decide

/-- Claim C4: the artifact list built by `_build_version_entries` is
strictly descending by the lexicographic key `(version, build string,
subdir, build number, file name)` — version compared through the `V`
order, the collaborator's semantic-version order, not string order — and
the subdir groups derived from it are strictly ascending by
`(subdir == "noarch", subdir)`, i.e. alphabetical with noarch pinned
last; the group keys are exactly the subdirs occurring in the list. -/
theorem artifact_set_order {V : Type} [LinearOrder V]
    (records : List (RawRecord V)) :
    (build_version_entries records).Pairwise
      (fun a b => entry_sort_key b < entry_sort_key a)
    ∧ (version_subdirs (build_version_entries records)).Pairwise
      (fun a b => platform_sort_key a < platform_sort_key b)
    ∧ (∀ s, s ∈ version_subdirs (build_version_entries records) ↔
        s ∈ (build_version_entries records).map VersionEntry.subdir) := by
  refine ⟨?_, ?_, ?_⟩
  · exact pairwise_key_lt_desc entry_sort_key
      (fun a b => entry_sort_key_injective a b) _
      (pairwise_sortByKeyDesc entry_sort_key _)
      (nodup_build_version_entries records)
  · have hnd : (version_subdirs (build_version_entries records)).Nodup := by
      have hknd : (alKeys (groupBySubdir (build_version_entries records))).Nodup :=
        nodup_alKeys_foldl_alAppend VersionEntry.subdir (fun e => e) _ []
          (by simp [alKeys])
      exact ((perm_sortBy _ _).nodup_iff).mpr hknd
    exact pairwise_key_lt platform_sort_key platform_sort_key_injective _
      (pairwise_sortByKey platform_sort_key _) hnd
  · intro s
    have h : s ∈ alKeys (groupBySubdir (build_version_entries records)) ↔
        s ∈ alKeys ([] : List (String × List (VersionEntry V))) ∨
          s ∈ (build_version_entries records).map VersionEntry.subdir :=
      mem_alKeys_foldl_alAppend VersionEntry.subdir (fun e => e) _ _ s
    have h2 : s ∈ version_subdirs (build_version_entries records) ↔
        s ∈ alKeys (groupBySubdir (build_version_entries records)) := mem_sortBy
    rw [h2, h]
    simp [alKeys]

/-- C4 witness: the order theorem instantiated on concrete records where
the semantic (numeric) version order differs from the lexical order of
the version strings, and with a noarch group to pin last. -/
theorem artifact_set_order_witness :
    ((build_version_entries
        ([⟨9, "b", 0, "linux-64", "f", "u"⟩,
          ⟨10, "b", 0, "noarch", "f", "u"⟩] : List (RawRecord ℕ))).Pairwise
      (fun a b => entry_sort_key b < entry_sort_key a))
    ∧ (build_version_entries
        ([⟨9, "b", 0, "linux-64", "f", "u"⟩,
          ⟨10, "b", 0, "noarch", "f", "u"⟩] : List (RawRecord ℕ))).map
        VersionEntry.version = [10, 9]
    ∧ version_subdirs (build_version_entries
        ([⟨9, "b", 0, "linux-64", "f", "u"⟩,
          ⟨10, "b", 0, "noarch", "f", "u"⟩] : List (RawRecord ℕ))) =
      ["linux-64", "noarch"] :=
  ⟨(artifact_set_order
      ([⟨9, "b", 0, "linux-64", "f", "u"⟩,
        ⟨10, "b", 0, "noarch", "f", "u"⟩] : List (RawRecord ℕ))).1,
    by decide, by decide⟩

/-- Claim C10 (implicit): `fetch_package_names` returns the selected
platforms sorted strictly ascending by `(name == "noarch", name)` and
containing exactly the selected platforms, and a package-name list that
is strictly ascending in code-point order (hence sorted and duplicate
free) and contains exactly the normalized input names. -/
theorem fetch_package_names_spec (selected names : List String) :
    (fetch_package_names selected names).1.Pairwise
      (fun a b => platform_sort_key a < platform_sort_key b)
    ∧ (∀ p, p ∈ (fetch_package_names selected names).1 ↔ p ∈ selected)
    ∧ (fetch_package_names selected names).2.Pairwise
      (fun a b => strKey a < strKey b)
    ∧ (∀ x, x ∈ (fetch_package_names selected names).2 ↔
        ∃ n ∈ names, normalizedName n = x) := by
  refine ⟨?_, ?_, ?_, ?_⟩
  · refine pairwise_key_lt platform_sort_key platform_sort_key_injective _
      (pairwise_sortByKey platform_sort_key _) ?_
    exact ((perm_sortBy _ _).nodup_iff).mpr (List.nodup_dedup selected)
  · intro p
    show p ∈ sortBy _ selected.dedup ↔ _
    rw [mem_sortBy, List.mem_dedup]
  · refine pairwise_key_lt strKey (fun a b h => strKey_injective h) _
      (pairwise_sortByKey strKey _) ?_
    exact ((perm_sortBy _ _).nodup_iff).mpr (List.nodup_dedup _)
  · intro x
    show x ∈ sortBy _ ((names.map normalizedName).dedup) ↔ _
    rw [mem_sortBy, List.mem_dedup, List.mem_map]

/-- C10 witness: on a concrete gateway response, platforms come back
noarch-last and names come back normalized, deduplicated and sorted. -/
theorem fetch_package_names_spec_witness :
    (fetch_package_names ["noarch", "linux-64", "linux-64"]
        ["Numpy", "pandas", "numpy"]).1.Pairwise
      (fun a b => platform_sort_key a < platform_sort_key b)
    ∧ fetch_package_names ["noarch", "linux-64", "linux-64"]
        ["Numpy", "pandas", "numpy"] =
      (["linux-64", "noarch"], ["numpy", "pandas"]) :=
  ⟨(fetch_package_names_spec ["noarch", "linux-64", "linux-64"]
      ["Numpy", "pandas", "numpy"]).1, by decide⟩

/-! ## VersionRow and the flattened, collapsible versions list

`models.VersionRow` is string-tagged in the source (`kind` plus optional
`subdir`/`entry` payloads); per the spec's data model it is a sum type
with payload on the section and entry variants (`section` is a Lean
keyword, so that constructor is named `sect`). -/

inductive VersionRow (V : Type) where
  | back
  | empty
  | sect (subdir : String)
  | entry (subdir : String) (e : VersionEntry V)
deriving DecidableEq

/-- The rows one subdir contributes in `tui._render_version_options`: its
section header, then (unless collapsed) one entry row per entry of
`versions_by_subdir.get(subdir, [])`. -/
def sectionRows {V : Type} (bySubdir : List (String × List (VersionEntry V)))
    (collapsed : Finset String) (subdir : String) : List (VersionRow V) :=
  VersionRow.sect subdir ::
    (if subdir ∈ collapsed then []
     else ((alLookup subdir bySubdir).getD []).map (VersionRow.entry subdir))

/-- The `_version_rows` list built by `tui._render_version_options`: a
back row, then either a single empty row (no versions) or the per-subdir
section blocks in `_version_subdirs` order. -/
def render_version_rows {V : Type} (currentVersions : List (VersionEntry V))
    (subdirs : List String) (bySubdir : List (String × List (VersionEntry V)))
    (collapsed : Finset String) : List (VersionRow V) :=
  match currentVersions with
  | [] => [VersionRow.back, VersionRow.empty]
  | _ :: _ => VersionRow.back :: (subdirs.map (sectionRows bySubdir collapsed)).flatten

/-- The collapsed-set flip of `tui._toggle_version_section`. -/
def toggle_version_section (collapsed : Finset String) (subdir : String) :
    Finset String :=
  if subdir ∈ collapsed then collapsed.erase subdir else insert subdir collapsed

/-- Keep every row that is not an entry row of subdir `s`. -/
def keepRow {V : Type} (s : String) : VersionRow V → Bool
  | VersionRow.entry sd _ => decide (sd ≠ s)
  | _ => true

theorem toggle_toggle (c : Finset String) (s : String) :
    toggle_version_section (toggle_version_section c s) s = c := by
  unfold toggle_version_section
  by_cases h : s ∈ c
  · simp [h, Finset.not_mem_erase, Finset.insert_erase h]
  · simp [h, Finset.mem_insert_self, Finset.erase_insert h]

theorem filter_map_const_true {α β : Type} (f : α → β) (p : β → Bool)
    (l : List α) (h : ∀ a, p (f a) = true) : (l.map f).filter p = l.map f := by
  induction l with
  | nil => rfl
  | cons a l ih => simp [h, ih]

theorem filter_map_const_false {α β : Type} (f : α → β) (p : β → Bool)
    (l : List α) (h : ∀ a, p (f a) = false) : (l.map f).filter p = [] := by
  induction l with
  | nil => rfl
  | cons a l ih => simp [h, ih]

theorem filter_flatten_blocks {α : Type} (p : α → Bool) (L : List (List α)) :
    L.flatten.filter p = (L.map (List.filter p)).flatten := by
  induction L with
  | nil => rfl
  | cons l L ih => simp [List.filter_append, ih]

theorem sectionRows_toggle {V : Type}
    (bySubdir : List (String × List (VersionEntry V))) (c : Finset String)
    (s t : String) (hs : s ∉ c) :
    sectionRows bySubdir (insert s c) t =
      (sectionRows bySubdir c t).filter (keepRow s) := by
  rcases eq_or_ne t s with rfl | ht
  · simp only [sectionRows, Finset.mem_insert_self, if_true, if_neg hs,
      List.filter_cons]
    rw [filter_map_const_false _ _ _ (fun e => by simp [keepRow])]
    rfl
  · have hmem : (t ∈ insert s c) = (t ∈ c) := by
      simp [Finset.mem_insert, ht]
    simp only [sectionRows, hmem, List.filter_cons]
    by_cases htc : t ∈ c
    · simp [htc, keepRow]
    · simp only [htc, if_false]
      rw [filter_map_const_true _ _ _ (fun e => by simp [keepRow, ht])]
      simp [keepRow]

/-- Claim C9: in the rendered versions list, collapsing a section removes
exactly that section's entry rows from the flattened row list (it equals
the previous list filtered to drop that subdir's entry rows), and
toggling the same section again restores the original flattened list. -/
theorem toggle_section_rows {V : Type} (cv : List (VersionEntry V))
    (subdirs : List String) (bySubdir : List (String × List (VersionEntry V)))
    (collapsed : Finset String) (s : String) (hs : s ∉ collapsed) :
    render_version_rows cv subdirs bySubdir (toggle_version_section collapsed s) =
      (render_version_rows cv subdirs bySubdir collapsed).filter (keepRow s)
    ∧ render_version_rows cv subdirs bySubdir
        (toggle_version_section (toggle_version_section collapsed s) s) =
      render_version_rows cv subdirs bySubdir collapsed := by
  refine ⟨?_, by rw [toggle_toggle]⟩
  have htog : toggle_version_section collapsed s = insert s collapsed := by
    simp [toggle_version_section, hs]
  rw [htog]
  cases cv with
  | nil => simp [render_version_rows, keepRow]
  | cons e es =>
    simp only [render_version_rows, List.filter_cons,
      show keepRow (V := V) s VersionRow.back = true from rfl]
    rw [filter_flatten_blocks, List.map_map]
    congr 2
    exact List.map_congr_left (fun t _ => sectionRows_toggle bySubdir collapsed s t hs)

/-- C9 witness: one linux-64 entry; collapsing removes its entry row,
leaving the back row and the section header. -/
theorem toggle_section_rows_witness :
    render_version_rows [VersionEntry.mk (1 : ℕ) "b" 0 "linux-64" "f"]
      ["linux-64"] [("linux-64", [VersionEntry.mk (1 : ℕ) "b" 0 "linux-64" "f"])]
      (toggle_version_section (∅ : Finset String) "linux-64") =
      [VersionRow.back, VersionRow.sect "linux-64"] := by
  rw [(toggle_section_rows [VersionEntry.mk (1 : ℕ) "b" 0 "linux-64" "f"]
    ["linux-64"] [("linux-64", [VersionEntry.mk (1 : ℕ) "b" 0 "linux-64" "f"])]
    ∅ "linux-64" (by decide)).1]
  decide

/-! ## The navigation controller (`tui.CondaMetadataTui`)

The controller state is one record; every method of the source class that
mutates state becomes a function `Ctrl V → Ctrl V` (threading an `Env`
of collaborator oracles).  Asynchronous workers are modelled by in-flight
lists on the state plus completion events: spawning a worker appends to
the list, and a completion event runs the worker body (which re-checks
mode and pending key, the cooperative staleness guard) atomically on the
UI loop, in any order — this over-approximates every completion order of
the real event loop.  Scroll offsets (floats only ever stored and copied,
never computed with) are modelled as integers.  Status/notification
strings are fixed markers without the interpolated Python values that do
not matter to any claim. -/

inductive ViewMode where
  | packages
  | versions
  | platforms
deriving DecidableEq

/-- `models.VersionPreviewKey`: `(package name, str(version), build,
build number, subdir, file name)`; `str` on versions round-trips, so the
version component is the `V` value. -/
def VKey (V : Type) : Type := String × V × String × ℕ × String × String

instance {V : Type} [DecidableEq V] : DecidableEq (VKey V) := by
  unfold VKey
  infer_instance

/-- Collaborator oracles: the metadata gateway, the current machine
platform, and the pure renderers (string formatting is out of scope). -/
structure Env (V : Type) where
  discover : String → List String
  gwNames : String → List String → Option (List String)
  gwQuery : String → List String → String → List (List (RawRecord V))
  curPlatform : String
  vstr : V → String
  renderPkg : String → List (RawRecord V) → String
  renderVer : String → RawRecord V → String

structure Ctrl (V : Type) where
  channelName : String
  mode : ViewMode
  searchQuery : String
  filterMode : Bool
  available : List String
  selected : Finset String
  draft : Option (Finset String)
  platforms : List String
  allNames : List String
  visibleNames : List String
  recordsCache : List (String × List (RawRecord V))
  detailsCache : List (VKey V × String)
  currentVersions : List (VersionEntry V)
  versionSubdirs : List String
  versionsBySubdir : List (String × List (VersionEntry V))
  collapsedSubdirs : Finset String
  versionRows : List (VersionRow V)
  selectedPackage : Option String
  previewedPackage : Option String
  pendingPackage : Option String
  previewedVKey : Option (VKey V)
  pendingVKey : Option (VKey V)
  highlight : Option ℕ
  scrollY : ℤ
  lastHighlight : Option ℕ
  lastScrollY : ℤ
  status : String
  panel : String
  notifications : List String
  downloadInProgress : Bool
  pkgInflight : List String
  verInflight : List (String × VersionEntry V × VKey V)
  dlInflight : List (String × VersionEntry V)
  fsPart : Bool
  fsDest : Bool

/-! ### Status and panel marker strings -/

def noRecordText : String :=
  "No matching repodata record found for selected version."

def loadingPkgText (name : String) : String :=
  "# " ++ name ++ "\n\nLoading repodata..."

def loadingVerText (name ver : String) : String :=
  "# " ++ name ++ " " ++ ver ++ "\n\nLoading repodata for selected version..."

def noPackagesMatchText : String := "No packages match the current selection."

def atLeastOnePlatformText : String :=
  "At least one platform must remain selected."

def selectBeforeApplyText : String :=
  "Select at least one platform before applying."

def failedPlatformsText : String := "Failed to load selected platforms."

def failedLoadRepodataText : String := "Failed to load repodata."

def loadingSelectedText : String := "Loading repodata for selected platforms..."

def packagesSelectionStatusText (n : ℕ) : String :=
  Nat.repr n ++ " packages in selection."

def versionsStatusText (entries subdirs : ℕ) : String :=
  Nat.repr entries ++ " entries across " ++ Nat.repr subdirs ++
    " platform(s). Enter toggles section."

def platformStatusText (n : ℕ) (allSelected : Bool) : String :=
  Nat.repr n ++ " platforms selected. Press Enter to apply." ++
    (if allSelected then " Select default platforms" else " Select all platforms")

def downloadFailedText (fileName : String) : String :=
  "Download failed for " ++ fileName

def downloadedOkText : String := "Downloaded successfully"

def selectEntryText : String := "Select a specific version entry to download."

def failedChannelText (name : String) : String :=
  "Failed to load channel: " ++ name

def switchedChannelText (name : String) : String :=
  "Switched to channel: " ++ name

def loadingChannelPanelText (name : String) : String :=
  "# " ++ name ++ "\n\nLoading repodata..."

/-- Model of Python `str.strip`. -/
def stripString (s : String) : String := ⟨stripChars s.data⟩

/-! ### Clearing helpers (`tui` lines 328-356) -/

def clear_record_caches {V : Type} (s : Ctrl V) : Ctrl V :=
  { s with recordsCache := [], detailsCache := [] }

def reset_preview_state {V : Type} (s : Ctrl V) : Ctrl V :=
  { s with
    previewedPackage := none
    pendingPackage := none
    previewedVKey := none
    pendingVKey := none }

def clear_version_state {V : Type} (s : Ctrl V) : Ctrl V :=
  { s with
    currentVersions := []
    versionSubdirs := []
    versionsBySubdir := []
    collapsedSubdirs := ∅
    versionRows := []
    selectedPackage := none }

def clear_channel_loaded_state {V : Type} (s : Ctrl V) : Ctrl V :=
  clear_record_caches
    { (reset_preview_state (clear_version_state
        { s with mode := ViewMode.packages, draft := none })) with
      platforms := []
      available := []
      selected := ∅
      allNames := []
      visibleNames := [] }

/-! ### Channel-state snapshot and restore (`tui` lines 358-416) -/

structure ChannelSnapshot (V : Type) where
  channelName : String
  mode : ViewMode
  draft : Option (Finset String)
  currentVersions : List (VersionEntry V)
  versionSubdirs : List String
  versionsBySubdir : List (String × List (VersionEntry V))
  collapsedSubdirs : Finset String
  versionRows : List (VersionRow V)
  selectedPackage : Option String
  previewedVKey : Option (VKey V)
  pendingVKey : Option (VKey V)
  previewedPackage : Option String
  pendingPackage : Option String
  platforms : List String
  available : List String
  selected : Finset String
  allNames : List String
  visibleNames : List String
  recordsCache : List (String × List (RawRecord V))
  detailsCache : List (VKey V × String)
  lastHighlight : Option ℕ
  lastScrollY : ℤ

def snapshot_channel_state {V : Type} (s : Ctrl V) : ChannelSnapshot V :=
  { channelName := s.channelName
    mode := s.mode
    draft := s.draft
    currentVersions := s.currentVersions
    versionSubdirs := s.versionSubdirs
    versionsBySubdir := s.versionsBySubdir
    collapsedSubdirs := s.collapsedSubdirs
    versionRows := s.versionRows
    selectedPackage := s.selectedPackage
    previewedVKey := s.previewedVKey
    pendingVKey := s.pendingVKey
    previewedPackage := s.previewedPackage
    pendingPackage := s.pendingPackage
    platforms := s.platforms
    available := s.available
    selected := s.selected
    allNames := s.allNames
    visibleNames := s.visibleNames
    recordsCache := s.recordsCache
    detailsCache := s.detailsCache
    lastHighlight := s.lastHighlight
    lastScrollY := s.lastScrollY }

def restore_channel_state {V : Type} (s : Ctrl V) (snap : ChannelSnapshot V) :
    Ctrl V :=
  { s with
    channelName := snap.channelName
    mode := snap.mode
    draft := snap.draft
    currentVersions := snap.currentVersions
    versionSubdirs := snap.versionSubdirs
    versionsBySubdir := snap.versionsBySubdir
    collapsedSubdirs := snap.collapsedSubdirs
    versionRows := snap.versionRows
    selectedPackage := snap.selectedPackage
    previewedVKey := snap.previewedVKey
    pendingVKey := snap.pendingVKey
    previewedPackage := snap.previewedPackage
    pendingPackage := snap.pendingPackage
    platforms := snap.platforms
    available := snap.available
    selected := snap.selected
    allNames := snap.allNames
    visibleNames := snap.visibleNames
    recordsCache := snap.recordsCache
    detailsCache := snap.detailsCache
    lastHighlight := snap.lastHighlight
    lastScrollY := snap.lastScrollY }

/-! ### Record loading and previews (`tui` lines 534-619, 731-771) -/

/-- `tui._get_package_records`: memoized gateway query. -/
def get_package_records {V : Type} [LinearOrder V] (env : Env V) (s : Ctrl V)
    (name : String) : Ctrl V × List (RawRecord V) :=
  match alLookup name s.recordsCache with
  | some cached => (s, cached)
  | none =>
    ({ s with
        recordsCache := alInsert s.recordsCache name
          (query_package_records (env.gwQuery s.channelName s.platforms name)) },
      query_package_records (env.gwQuery s.channelName s.platforms name))

/-- `tui._get_record_for_version_entry`: first cached record matching the
entry on all five identity fields. -/
def get_record_for_version_entry {V : Type} [LinearOrder V] (env : Env V)
    (s : Ctrl V) (name : String) (e : VersionEntry V) :
    Ctrl V × Option (RawRecord V) :=
  ((get_package_records env s name).1,
    (get_package_records env s name).2.find? (fun r =>
      decide (r.version = e.version) && decide (r.build = e.build) &&
      decide (r.build_number = e.build_number) && decide (r.subdir = e.subdir) &&
      decide (r.file_name = e.file_name)))

/-- `tui._version_preview_key`. -/
def version_preview_key {V : Type} (name : String) (e : VersionEntry V) : VKey V :=
  (name, e.version, e.build, e.build_number, e.subdir, e.file_name)

/-- `tui._update_main_panel_for_package`. -/
def update_main_panel_for_package {V : Type} (env : Env V) (s : Ctrl V)
    (name : String) (records : List (RawRecord V)) : Ctrl V :=
  { s with panel := env.renderPkg name records, previewedPackage := some name }

/-- `tui._request_package_preview` (the synchronous part; a cache miss
spawns a worker). -/
def request_package_preview {V : Type} (env : Env V) (s : Ctrl V)
    (name : String) : Ctrl V :=
  let s1 : Ctrl V := { s with pendingPackage := some name }
  if s1.previewedPackage = some name then s1
  else
    match alLookup name s1.recordsCache with
    | some records => update_main_panel_for_package env s1 name records
    | none =>
      { s1 with
        panel := loadingPkgText name
        pkgInflight := name :: s1.pkgInflight }

/-- `tui._load_and_render_package_preview`: the package-preview worker
body, run at completion time; the staleness guard discards the result
unless the mode is still `packages` and the name is still pending. -/
def complete_package_preview {V : Type} [LinearOrder V] (env : Env V)
    (s : Ctrl V) (name : String) : Ctrl V :=
  let s0 : Ctrl V := { s with pkgInflight := s.pkgInflight.erase name }
  let sr := get_package_records env s0 name
  if sr.1.mode ≠ ViewMode.packages then sr.1
  else if sr.1.pendingPackage ≠ some name then sr.1
  else update_main_panel_for_package env sr.1 name sr.2

/-- `tui._request_selected_version_preview` (synchronous part). -/
def request_selected_version_preview {V : Type} [DecidableEq V] (env : Env V)
    (s : Ctrl V) (name : String) (e : VersionEntry V) : Ctrl V :=
  let key := version_preview_key name e
  let s1 : Ctrl V := { s with pendingVKey := some key }
  if s1.previewedVKey = some key then s1
  else
    match alLookup key s1.detailsCache with
    | some cached => { s1 with panel := cached, previewedVKey := some key }
    | none =>
      { s1 with
        panel := loadingVerText name (env.vstr e.version)
        verInflight := (name, e, key) :: s1.verInflight }

/-- `tui._load_and_render_selected_version_preview`: the version-detail
worker body, run at completion time (it caches fetched records before the
staleness guard, exactly as the source awaits `_get_package_records`
before checking mode and pending key). -/
def complete_version_preview {V : Type} [LinearOrder V] (env : Env V)
    (s : Ctrl V) (name : String) (e : VersionEntry V) (key : VKey V) : Ctrl V :=
  let s0 : Ctrl V := { s with verInflight := s.verInflight.erase (name, e, key) }
  let sr := get_record_for_version_entry env s0 name e
  if sr.1.mode ≠ ViewMode.versions then sr.1
  else if sr.1.pendingVKey ≠ some key then sr.1
  else
    let rendered := match sr.2 with
      | none => noRecordText
      | some r => env.renderVer name r
    { sr.1 with
      detailsCache := alInsert sr.1.detailsCache key rendered
      panel := rendered
      previewedVKey := some key }

/-! ### Package list rendering and filtering (`tui` lines 192-207, 529-532,
773-815) -/

/-- `tui._render_package_options`: reset the widget highlight (and keep
the scroll/highlight position on resize re-renders). -/
def render_package_options {V : Type} (s : Ctrl V) (preservePosition : Bool) :
    Ctrl V :=
  match s.visibleNames with
  | [] => { s with highlight := none }
  | _ :: _ =>
    if preservePosition ∧ s.highlight ≠ none then
      { s with
        highlight := some (min (s.highlight.getD 0) (s.visibleNames.length - 1)) }
    else { s with highlight := some 0 }

def update_package_selection_status {V : Type} (s : Ctrl V) : Ctrl V :=
  { s with status := packagesSelectionStatusText s.visibleNames.length }

/-- The Python sort key `(-score, name)` of `tui._filter_packages`. -/
def filter_sort_key (q n : String) : ℤ ×ₗ List ℕ :=
  toLex (-(fuzzyScore q.data n.data).getD 0, strKey n)

/-- The visible-name computation of `tui._filter_packages`: all names
when no filter is active, else the fuzzy matches ranked by
`(-score, name)`. -/
def computed_visible (filterMode : Bool) (q : String) (allNames : List String) :
    List String :=
  if filterMode = false ∨ q = "" then allNames
  else
    sortBy (fun a b => decide (filter_sort_key q a ≤ filter_sort_key q b))
      (allNames.filter (fun n => (fuzzyScore q.data n.data).isSome))

/-- `tui._filter_packages`: recompute the visible names, re-render the
list, and re-request the preview of the first visible package. -/
def filter_packages {V : Type} (env : Env V) (s : Ctrl V) : Ctrl V :=
  let visible := computed_visible s.filterMode s.searchQuery s.allNames
  let s1 : Ctrl V := { s with visibleNames := visible }
  let s2 := update_package_selection_status (render_package_options s1 false)
  let s3 : Ctrl V := { s2 with previewedPackage := none }
  match visible with
  | n :: _ => request_package_preview env s3 n
  | [] =>
    { s3 with
      pendingPackage := none
      panel := noPackagesMatchText }

/-- `tui._back_to_packages`. -/
def back_to_packages {V : Type} (env : Env V) (s : Ctrl V) : Ctrl V :=
  let s1 := clear_version_state { s with mode := ViewMode.packages, draft := none }
  let s2 : Ctrl V := { s1 with previewedVKey := none, pendingVKey := none }
  let s3 := filter_packages env s2
  if s3.visibleNames ≠ [] ∧ s3.lastHighlight ≠ none then
    let h := min (s3.lastHighlight.getD 0) (s3.visibleNames.length - 1)
    let s4 : Ctrl V := { s3 with highlight := some h, scrollY := s3.lastScrollY }
    match s4.visibleNames.get? h with
    | some n => request_package_preview env s4 n
    | none => s4
  else s3

/-! ### Platform selector (`tui` lines 167-180, 291-327, 418-464, 502-527,
950-970) -/

/-- `tui._default_platform_selection`: the current machine platform plus
noarch, intersected with availability, with fallbacks.  (On an empty
availability list the source would raise an `IndexError`; every call site
has established a non-empty list first.) -/
def default_platform_selection {V : Type} (env : Env V) (s : Ctrl V) :
    Finset String :=
  if env.curPlatform ∈ s.available then
    if "noarch" ∈ s.available then {env.curPlatform, "noarch"}
    else {env.curPlatform}
  else if "noarch" ∈ s.available then ({"noarch"} : Finset String)
  else
    match s.available with
    | [] => ∅
    | a :: _ => {a}

/-- `tui._update_platform_selection_status`. -/
def update_platform_selection_status {V : Type} (s : Ctrl V) : Ctrl V :=
  let sel := s.draft.getD s.selected
  { s with
    status := platformStatusText sel.card (decide (sel = s.available.toFinset)) }

/-- `tui._render_platform_options`: seed the draft from the committed set
if absent and reset the highlight. -/
def render_platform_options {V : Type} (s : Ctrl V) : Ctrl V :=
  let s1 : Ctrl V :=
    match s.draft with
    | some _ => s
    | none => { s with draft := some s.selected }
  { s1 with highlight := some 0 }

/-- `tui._open_platform_selector`. -/
def open_platform_selector {V : Type} (s : Ctrl V) : Ctrl V :=
  if s.mode ≠ ViewMode.packages then s
  else
    let s1 : Ctrl V :=
      { s with
        lastHighlight := s.highlight
        lastScrollY := s.scrollY
        mode := ViewMode.platforms
        draft := some s.selected }
    update_platform_selection_status (render_platform_options s1)

/-- `tui._toggle_platform_at_index`: flip one platform in the draft,
refusing to empty it. -/
def toggle_platform_at_index {V : Type} (s : Ctrl V) (i : ℕ) : Ctrl V :=
  if hi : i < s.available.length then
    let p := s.available.get ⟨i, hi⟩
    let s1 : Ctrl V :=
      match s.draft with
      | some _ => s
      | none => { s with draft := some s.selected }
    let draft := s1.draft.getD s1.selected
    if p ∈ draft ∧ draft.card = 1 then
      { s1 with status := atLeastOnePlatformText }
    else
      let newDraft := if p ∈ draft then draft.erase p else insert p draft
      let s2 : Ctrl V := { s1 with draft := some newDraft }
      let s3 : Ctrl V := { render_platform_options s2 with highlight := some i }
      update_platform_selection_status s3
  else s

/-! ### Gateway loading (`tui` lines 114-190) -/

/-- `tui._ensure_available_platforms`: discover if needed, fail when
nothing is reachable, restrict the committed selection to availability
and fall back to the defaults when that empties it. -/
def ensure_available_platforms {V : Type} (env : Env V) (s : Ctrl V) :
    Except String (Ctrl V) :=
  let s1 : Ctrl V :=
    if s.available = [] then { s with available := env.discover s.channelName }
    else s
  if s1.available = [] then
    Except.error "No reachable platform repodata endpoints found."
  else
    let s2 : Ctrl V :=
      { s1 with selected := s1.selected.filter (fun p => p ∈ s1.available) }
    if s2.selected ≠ ∅ then Except.ok s2
    else Except.ok { s2 with selected := default_platform_selection env s2 }

/-- The sort relation of `platform_sort_key`, for enumerating a platform
set the way `sorted(set, key=platform_sort_key)` does. -/
def platLe (a b : String) : Prop := platform_sort_key a ≤ platform_sort_key b

instance : DecidableRel platLe := fun a b => by
  unfold platLe
  infer_instance

instance : IsTrans String platLe :=
  ⟨fun _ _ _ h1 h2 => le_trans h1 h2⟩

instance : IsAntisymm String platLe :=
  ⟨fun a b h1 h2 => platform_sort_key_injective a b (le_antisymm h1 h2)⟩

instance : IsTotal String platLe :=
  ⟨fun a b => le_total (platform_sort_key a) (platform_sort_key b)⟩

/-- `sorted(selected_platform_set, key=platform_sort_key)`: the unique
enumeration of the set ascending by the key. -/
def sorted_platforms_of (selected : Finset String) : List String :=
  selected.sort platLe

/-- `repodata.fetch_package_names` against the gateway oracle: `none`
from `gateway.names` models a `GatewayError`. -/
def fetch_package_names_gw {V : Type} (env : Env V) (channel : String)
    (selected : Finset String) : Option (List String × List String) :=
  match env.gwNames channel (sorted_platforms_of selected) with
  | none => none
  | some rawNames =>
    some (sorted_platforms_of selected,
      sortBy (fun a b => decide (strKey a ≤ strKey b))
        ((rawNames.map normalizedName).dedup))

/-- `tui._fetch_package_names_with_gateway`: ensure platforms (again, as
the source does), then fetch names.  On error the mutated state at the
point of the exception is returned, since the source's exception leaves
`self` as mutated so far. -/
def fetch_package_names_with_gateway {V : Type} (env : Env V) (s : Ctrl V) :
    Except (Ctrl V) (Ctrl V × List String) :=
  match ensure_available_platforms env s with
  | Except.error _ => Except.error s
  | Except.ok s1 =>
    match fetch_package_names_gw env s1.channelName s1.selected with
    | none => Except.error s1
    | some (platforms, names) =>
      Except.ok ({ s1 with platforms := platforms }, names)

/-- `tui._load_packages`: returns the new state and whether loading
succeeded. -/
def load_packages {V : Type} [LinearOrder V] (env : Env V) (s : Ctrl V) :
    Ctrl V × Bool :=
  match ensure_available_platforms env s with
  | Except.error _ => ({ s with status := failedLoadRepodataText }, false)
  | Except.ok s1 =>
    match fetch_package_names_with_gateway env s1 with
    | Except.error serr => ({ serr with status := failedLoadRepodataText }, false)
    | Except.ok (s2, names) =>
      let s3 : Ctrl V := { s2 with allNames := names, visibleNames := names }
      let s4 := update_package_selection_status (render_package_options s3 false)
      match s4.visibleNames with
      | [] => (s4, true)
      | n :: _ => (request_package_preview env s4 n, true)

/-- `tui._apply_platform_selection`. -/
def apply_platform_selection {V : Type} [LinearOrder V] (env : Env V)
    (s : Ctrl V) : Ctrl V :=
  let sel := (s.draft.getD s.selected).filter (fun p => p ∈ s.available)
  if sel = ∅ then { s with status := selectBeforeApplyText }
  else if sel = s.selected then
    back_to_packages env { s with draft := none }
  else
    let previous := s.selected
    let s1 : Ctrl V :=
      { s with selected := sel, draft := none, status := loadingSelectedText }
    let s2 := reset_preview_state (clear_record_caches s1)
    match fetch_package_names_with_gateway env s2 with
    | Except.error serr =>
      back_to_packages env
        { serr with selected := previous, status := failedPlatformsText }
    | Except.ok (s3, names) =>
      let s4 : Ctrl V := { s3 with allNames := names, mode := ViewMode.packages }
      filter_packages env s4

/-- `tui._apply_channel_selection`. -/
def apply_channel_selection {V : Type} [LinearOrder V] (env : Env V)
    (s : Ctrl V) (channelName : String) : Ctrl V :=
  let name := stripString channelName
  if name = "" then s
  else if name = s.channelName then s
  else
    let snap := snapshot_channel_state s
    let s1 := clear_channel_loaded_state { s with channelName := name }
    let s2 : Ctrl V := { s1 with panel := loadingChannelPanelText name }
    match load_packages env s2 with
    | (s3, true) =>
      { s3 with notifications := switchedChannelText name :: s3.notifications }
    | (s3, false) =>
      let s4 := back_to_packages env (restore_channel_state s3 snap)
      { s4 with notifications := failedChannelText name :: s4.notifications }

/-! ### Versions mode (`tui` lines 221-289, 817-845) -/

/-- `tui._render_version_options` (rows plus highlight effects). -/
def render_version_options {V : Type} (s : Ctrl V) (preservePosition : Bool) :
    Ctrl V :=
  let rows := render_version_rows s.currentVersions s.versionSubdirs
    s.versionsBySubdir s.collapsedSubdirs
  let s1 : Ctrl V := { s with versionRows := rows }
  match s1.currentVersions with
  | [] => { s1 with highlight := some 0 }
  | _ :: _ =>
    if preservePosition ∧ s1.highlight ≠ none then
      { s1 with highlight := some (min (s1.highlight.getD 0) (rows.length - 1)) }
    else { s1 with highlight := some 0 }

def update_versions_status {V : Type} (s : Ctrl V) : Ctrl V :=
  { s with
    status := versionsStatusText s.currentVersions.length s.versionSubdirs.length }

/-- `tui._open_versions`. -/
def open_versions {V : Type} [LinearOrder V] (env : Env V) (s : Ctrl V)
    (name : String) : Ctrl V :=
  let s1 : Ctrl V :=
    { s with
      lastHighlight := s.highlight
      lastScrollY := s.scrollY
      selectedPackage := some name }
  let sr := get_package_records env s1 name
  let cv := build_version_entries sr.2
  let s2 : Ctrl V :=
    { sr.1 with
      currentVersions := cv
      versionSubdirs := version_subdirs cv
      versionsBySubdir := (version_subdirs cv).map
        (fun sd => (sd, (alLookup sd (groupBySubdir cv)).getD []))
      collapsedSubdirs := ∅
      mode := ViewMode.versions }
  let s3 := update_versions_status (render_version_options s2 false)
  { s3 with
    previewedVKey := none
    pendingVKey := none
    pendingPackage := none
    previewedPackage := some name }

/-- `tui._toggle_version_section` (state effects). -/
def toggle_version_section_op {V : Type} (s : Ctrl V) (subdir : String) :
    Ctrl V :=
  let s1 : Ctrl V :=
    { s with collapsedSubdirs := toggle_version_section s.collapsedSubdirs subdir }
  let s2 := render_version_options s1 false
  match s2.versionRows.findIdx? (fun r =>
      match r with
      | VersionRow.sect sd => decide (sd = subdir)
      | _ => false) with
  | some i => { s2 with highlight := some i }
  | none => s2

/-! ### Downloads (`tui` lines 649-729) -/

/-- `tui._highlighted_version_row`. -/
def highlighted_version_row {V : Type} (s : Ctrl V) : Option (VersionRow V) :=
  if s.mode ≠ ViewMode.versions then none
  else
    match s.highlight with
    | none => none
    | some h => s.versionRows.get? h

/-- `tui._request_download_for_highlighted_entry`: the silent single-flight
guard, the entry check, and the worker spawn. -/
def request_download {V : Type} (s : Ctrl V) : Ctrl V :=
  if s.mode ≠ ViewMode.versions then s
  else if s.downloadInProgress then s
  else
    match s.selectedPackage with
    | none => s
    | some name =>
      match highlighted_version_row s with
      | some (VersionRow.entry _ e) =>
        { s with
          downloadInProgress := true
          dlInflight := (name, e) :: s.dlInflight }
      | _ => { s with notifications := selectEntryText :: s.notifications }

/-- The platforms-mode `a` key (`tui.on_key` lines 1138-1161): toggle the
draft between all available platforms and the recommended defaults. -/
def select_all_toggle {V : Type} (env : Env V) (s : Ctrl V) : Ctrl V :=
  if s.mode ≠ ViewMode.platforms then s
  else if s.available = [] then s
  else
    let allP := s.available.toFinset
    let defaults := default_platform_selection env s
    let draft := s.draft.getD s.selected
    let s1 : Ctrl V :=
      { s with draft := some (if draft = allP then defaults else allP) }
    let s2 := render_platform_options s1
    let s3 : Ctrl V :=
      match s.highlight with
      | some h => { s2 with highlight := some (min h (s.available.length - 1)) }
      | none => s2
    update_platform_selection_status s3

/-- `tui._rerender_visible_version_preview` (lines 1254-1271). -/
def rerender_visible_version_preview {V : Type} [LinearOrder V] (env : Env V)
    (s : Ctrl V) : Ctrl V :=
  if s.mode ≠ ViewMode.versions then s
  else
    match s.selectedPackage with
    | none => s
    | some name =>
      match highlighted_version_row s with
      | some (VersionRow.entry _ e) =>
        let s1 : Ctrl V :=
          { s with
            detailsCache := []
            previewedVKey := none
            pendingVKey := none }
        request_selected_version_preview env s1 name e
      | _ => s

/-- `tui._refresh_after_resize`. -/
def refresh_after_resize {V : Type} [LinearOrder V] (env : Env V) (s : Ctrl V) :
    Ctrl V :=
  match s.mode with
  | ViewMode.packages => render_package_options s true
  | ViewMode.versions =>
    rerender_visible_version_preview env
      (update_versions_status (render_version_options s true))
  | ViewMode.platforms =>
    let s2 := render_platform_options s
    let s3 : Ctrl V :=
      match s.highlight with
      | some h =>
        if s.available ≠ [] then
          { s2 with highlight := some (min h (s.available.length - 1)) }
        else s2
      | none => s2
    update_platform_selection_status s3

inductive DlOutcome where
  | success
  | failure (partialWritten : Bool)

/-- `tui._download_selected_version_entry`: the download worker body run
at completion.  On success the `.part` file is written and then atomically
renamed; on failure the partial file (if any) is unlinked and an error is
notified; the in-flight guard is released in the `finally` in all cases. -/
def complete_download {V : Type} [LinearOrder V] (env : Env V) (s : Ctrl V)
    (name : String) (e : VersionEntry V) (outcome : DlOutcome) : Ctrl V :=
  let s0 : Ctrl V :=
    { s with
      dlInflight := s.dlInflight.erase (name, e)
      downloadInProgress := true }
  let sr := get_record_for_version_entry env s0 name e
  match outcome with
  | DlOutcome.success =>
    let s1 : Ctrl V := { sr.1 with fsPart := false, fsDest := true }
    let s2 : Ctrl V := { s1 with downloadInProgress := false }
    let s3 := if s2.mode = ViewMode.versions then update_versions_status s2 else s2
    { s3 with notifications := downloadedOkText :: s3.notifications }
  | DlOutcome.failure partialWritten =>
    let s1 : Ctrl V := { sr.1 with fsPart := partialWritten }
    let s2 : Ctrl V := { s1 with fsPart := false }
    let s3 : Ctrl V := { s2 with downloadInProgress := false }
    { s3 with notifications := downloadFailedText e.file_name :: s3.notifications }

/-! ### Shape lemmas: which fields an operation can touch

Each lemma exhibits an operation's result as a record update of its input
state, so every unlisted field is preserved.  These drive the cache- and
selection-preservation arguments below. -/

theorem request_package_preview_shape {V : Type} (env : Env V) (s : Ctrl V)
    (n : String) :
    ∃ pp pv pa pi, request_package_preview env s n =
      { s with
        pendingPackage := pp
        previewedPackage := pv
        panel := pa
        pkgInflight := pi } := by
  by_cases h : s.previewedPackage = some n
  · exact ⟨some n, s.previewedPackage, s.panel, s.pkgInflight,
      by simp [request_package_preview, h]⟩
  · cases hl : alLookup n s.recordsCache with
    | some records =>
      exact ⟨some n, some n, env.renderPkg n records, s.pkgInflight,
        by simp [request_package_preview, update_main_panel_for_package, h, hl]⟩
    | none =>
      exact ⟨some n, s.previewedPackage, loadingPkgText n, n :: s.pkgInflight,
        by simp [request_package_preview, h, hl]⟩

theorem request_selected_version_preview_shape {V : Type} [DecidableEq V]
    (env : Env V) (s : Ctrl V) (n : String) (e : VersionEntry V) :
    ∃ pk pv pa vi, request_selected_version_preview env s n e =
      { s with
        pendingVKey := pk
        previewedVKey := pv
        panel := pa
        verInflight := vi } := by
  by_cases h : s.previewedVKey = some (version_preview_key n e)
  · exact ⟨some (version_preview_key n e), s.previewedVKey, s.panel, s.verInflight,
      by simp [request_selected_version_preview, h]⟩
  · cases hl : alLookup (version_preview_key n e) s.detailsCache with
    | some cached =>
      exact ⟨some (version_preview_key n e), some (version_preview_key n e),
        cached, s.verInflight,
        by simp [request_selected_version_preview, h, hl]⟩
    | none =>
      exact ⟨some (version_preview_key n e), s.previewedVKey,
        loadingVerText n (env.vstr e.version),
        (n, e, version_preview_key n e) :: s.verInflight,
        by simp [request_selected_version_preview, h, hl]⟩

theorem complete_package_preview_shape {V : Type} [LinearOrder V] (env : Env V)
    (s : Ctrl V) (n : String) :
    ∃ pi rc pv pa, complete_package_preview env s n =
      { s with
        pkgInflight := pi
        recordsCache := rc
        previewedPackage := pv
        panel := pa } := by
  cases hl : alLookup n s.recordsCache with
  | some cached =>
    by_cases hm : s.mode = ViewMode.packages
    · by_cases hp : s.pendingPackage = some n
      · exact ⟨s.pkgInflight.erase n, s.recordsCache, some n,
          env.renderPkg n cached,
          by simp [complete_package_preview, get_package_records,
            update_main_panel_for_package, hl, hm, hp]⟩
      · exact ⟨s.pkgInflight.erase n, s.recordsCache, s.previewedPackage, s.panel,
          by simp [complete_package_preview, get_package_records, hl, hm, hp]⟩
    · exact ⟨s.pkgInflight.erase n, s.recordsCache, s.previewedPackage, s.panel,
        by simp [complete_package_preview, get_package_records, hl, hm]⟩
  | none =>
    by_cases hm : s.mode = ViewMode.packages
    · by_cases hp : s.pendingPackage = some n
      · exact ⟨s.pkgInflight.erase n,
          alInsert s.recordsCache n
            (query_package_records (env.gwQuery s.channelName s.platforms n)),
          some n,
          env.renderPkg n
            (query_package_records (env.gwQuery s.channelName s.platforms n)),
          by simp [complete_package_preview, get_package_records,
            update_main_panel_for_package, hl, hm, hp]⟩
      · exact ⟨s.pkgInflight.erase n,
          alInsert s.recordsCache n
            (query_package_records (env.gwQuery s.channelName s.platforms n)),
          s.previewedPackage, s.panel,
          by simp [complete_package_preview, get_package_records, hl, hm, hp]⟩
    · exact ⟨s.pkgInflight.erase n,
        alInsert s.recordsCache n
          (query_package_records (env.gwQuery s.channelName s.platforms n)),
        s.previewedPackage, s.panel,
        by simp [complete_package_preview, get_package_records, hl, hm]⟩

/-- The detail text a version-preview worker computes from a record list:
the rendering of the first record matching the entry, or the no-record
message. -/
def rendered_detail {V : Type} [LinearOrder V] (env : Env V) (n : String)
    (e : VersionEntry V) (records : List (RawRecord V)) : String :=
  match records.find? (fun r =>
      decide (r.version = e.version) && decide (r.build = e.build) &&
      decide (r.build_number = e.build_number) && decide (r.subdir = e.subdir) &&
      decide (r.file_name = e.file_name)) with
  | none => noRecordText
  | some r => env.renderVer n r

theorem complete_version_preview_shape {V : Type} [LinearOrder V] (env : Env V)
    (s : Ctrl V) (n : String) (e : VersionEntry V) (k : VKey V) :
    ∃ vi rc dc pv pa, complete_version_preview env s n e k =
      { s with
        verInflight := vi
        recordsCache := rc
        detailsCache := dc
        previewedVKey := pv
        panel := pa } := by
  cases hl : alLookup n s.recordsCache with
  | some cached =>
    by_cases hm : s.mode = ViewMode.versions
    · by_cases hp : s.pendingVKey = some k
      · exact ⟨s.verInflight.erase (n, e, k), s.recordsCache,
          alInsert s.detailsCache k (rendered_detail env n e cached),
          some k, rendered_detail env n e cached,
          by simp [complete_version_preview, get_record_for_version_entry,
            get_package_records, rendered_detail, hl, hm, hp]⟩
      · exact ⟨s.verInflight.erase (n, e, k), s.recordsCache, s.detailsCache,
          s.previewedVKey, s.panel,
          by simp [complete_version_preview, get_record_for_version_entry,
            get_package_records, hl, hm, hp]⟩
    · exact ⟨s.verInflight.erase (n, e, k), s.recordsCache, s.detailsCache,
        s.previewedVKey, s.panel,
        by simp [complete_version_preview, get_record_for_version_entry,
          get_package_records, hl, hm]⟩
  | none =>
    by_cases hm : s.mode = ViewMode.versions
    · by_cases hp : s.pendingVKey = some k
      · exact ⟨s.verInflight.erase (n, e, k),
          alInsert s.recordsCache n
            (query_package_records (env.gwQuery s.channelName s.platforms n)),
          alInsert s.detailsCache k (rendered_detail env n e
            (query_package_records (env.gwQuery s.channelName s.platforms n))),
          some k,
          rendered_detail env n e
            (query_package_records (env.gwQuery s.channelName s.platforms n)),
          by simp [complete_version_preview, get_record_for_version_entry,
            get_package_records, rendered_detail, hl, hm, hp]⟩
      · exact ⟨s.verInflight.erase (n, e, k),
          alInsert s.recordsCache n
            (query_package_records (env.gwQuery s.channelName s.platforms n)),
          s.detailsCache, s.previewedVKey, s.panel,
          by simp [complete_version_preview, get_record_for_version_entry,
            get_package_records, hl, hm, hp]⟩
    · exact ⟨s.verInflight.erase (n, e, k),
        alInsert s.recordsCache n
          (query_package_records (env.gwQuery s.channelName s.platforms n)),
        s.detailsCache, s.previewedVKey, s.panel,
        by simp [complete_version_preview, get_record_for_version_entry,
          get_package_records, hl, hm]⟩

theorem render_package_options_shape {V : Type} (s : Ctrl V) (pp : Bool) :
    ∃ h, render_package_options s pp = { s with highlight := h } := by
  cases hv : s.visibleNames with
  | nil => exact ⟨none, by simp [render_package_options, hv]⟩
  | cons n rest =>
    by_cases hc : pp = true ∧ s.highlight ≠ none
    · exact ⟨some (min (s.highlight.getD 0) (s.visibleNames.length - 1)),
        by simp [render_package_options, hv, hc]⟩
    · exact ⟨some 0, by simp [render_package_options, hv, hc]⟩

theorem update_package_selection_status_shape {V : Type} (s : Ctrl V) :
    update_package_selection_status s =
      { s with status := packagesSelectionStatusText s.visibleNames.length } := rfl

theorem filter_packages_shape {V : Type} (env : Env V) (s : Ctrl V) :
    ∃ vn h st pv pp pa pi, filter_packages env s =
      { s with
        visibleNames := vn
        highlight := h
        status := st
        previewedPackage := pv
        pendingPackage := pp
        panel := pa
        pkgInflight := pi } := by
  simp only [filter_packages]
  obtain ⟨h1, e1⟩ := render_package_options_shape (V := V)
    { s with visibleNames := computed_visible s.filterMode s.searchQuery s.allNames }
    false
  rw [e1, update_package_selection_status_shape]
  cases hv : computed_visible s.filterMode s.searchQuery s.allNames with
  | nil => exact ⟨_, _, _, _, _, _, _, rfl⟩
  | cons n rest =>
    show ∃ vn h st pv pp pa pi,
      request_package_preview env
        { s with
          visibleNames := n :: rest
          highlight := h1
          status := packagesSelectionStatusText (n :: rest).length
          previewedPackage := none } n =
      { s with
        visibleNames := vn
        highlight := h
        status := st
        previewedPackage := pv
        pendingPackage := pp
        panel := pa
        pkgInflight := pi }
    obtain ⟨pp2, pv2, pa2, pi2, e2⟩ := request_package_preview_shape (V := V) env
      { s with
        visibleNames := n :: rest
        highlight := h1
        status := packagesSelectionStatusText (n :: rest).length
        previewedPackage := none } n
    rw [e2]
    exact ⟨_, _, _, _, _, _, _, rfl⟩

theorem back_to_packages_shape {V : Type} (env : Env V) (s : Ctrl V) :
    ∃ cv vs vb cs vr sp pvk pdk vn h sy st pv pp pa pi,
      back_to_packages env s =
      { s with
        mode := ViewMode.packages
        draft := none
        currentVersions := cv
        versionSubdirs := vs
        versionsBySubdir := vb
        collapsedSubdirs := cs
        versionRows := vr
        selectedPackage := sp
        previewedVKey := pvk
        pendingVKey := pdk
        visibleNames := vn
        highlight := h
        scrollY := sy
        status := st
        previewedPackage := pv
        pendingPackage := pp
        panel := pa
        pkgInflight := pi } := by
  simp only [back_to_packages, clear_version_state]
  obtain ⟨vn1, h1, st1, pv1, pp1, pa1, pi1, e1⟩ := filter_packages_shape (V := V) env
    { s with
      mode := ViewMode.packages
      draft := none
      currentVersions := []
      versionSubdirs := []
      versionsBySubdir := []
      collapsedSubdirs := ∅
      versionRows := []
      selectedPackage := none
      previewedVKey := none
      pendingVKey := none }
  rw [e1]
  by_cases hc : vn1 ≠ [] ∧ s.lastHighlight ≠ none
  · simp only [hc, and_self, if_true]
    have hc2 : ({ s with
        mode := ViewMode.packages
        draft := none
        currentVersions := []
        versionSubdirs := []
        versionsBySubdir := []
        collapsedSubdirs := (∅ : Finset String)
        versionRows := []
        selectedPackage := none
        previewedVKey := none
        pendingVKey := none
        visibleNames := vn1
        highlight := h1
        status := st1
        previewedPackage := pv1
        pendingPackage := pp1
        panel := pa1
        pkgInflight := pi1 } : Ctrl V).visibleNames ≠ [] ∧
        ({ s with
        mode := ViewMode.packages
        draft := none
        currentVersions := []
        versionSubdirs := []
        versionsBySubdir := []
        collapsedSubdirs := (∅ : Finset String)
        versionRows := []
        selectedPackage := none
        previewedVKey := none
        pendingVKey := none
        visibleNames := vn1
        highlight := h1
        status := st1
        previewedPackage := pv1
        pendingPackage := pp1
        panel := pa1
        pkgInflight := pi1 } : Ctrl V).lastHighlight ≠ none := hc
    rw [if_pos hc2]
    cases hg : vn1.get? (min (s.lastHighlight.getD 0) (vn1.length - 1)) with
    | none => exact ⟨_, _, _, _, _, _, _, _, _, _, _, _, _, _, _, _, rfl⟩
    | some m =>
      show ∃ cv vs vb cs vr sp pvk pdk vn h sy st pv pp pa pi,
        request_package_preview env
          { s with
            mode := ViewMode.packages
            draft := none
            currentVersions := []
            versionSubdirs := []
            versionsBySubdir := []
            collapsedSubdirs := ∅
            versionRows := []
            selectedPackage := none
            previewedVKey := none
            pendingVKey := none
            visibleNames := vn1
            highlight := some (min (s.lastHighlight.getD 0) (vn1.length - 1))
            scrollY := s.lastScrollY
            status := st1
            previewedPackage := pv1
            pendingPackage := pp1
            panel := pa1
            pkgInflight := pi1 } m =
        { s with
          mode := ViewMode.packages
          draft := none
          currentVersions := cv
          versionSubdirs := vs
          versionsBySubdir := vb
          collapsedSubdirs := cs
          versionRows := vr
          selectedPackage := sp
          previewedVKey := pvk
          pendingVKey := pdk
          visibleNames := vn
          highlight := h
          scrollY := sy
          status := st
          previewedPackage := pv
          pendingPackage := pp
          panel := pa
          pkgInflight := pi }
      obtain ⟨pp2, pv2, pa2, pi2, e2⟩ := request_package_preview_shape (V := V) env _ m
      rw [e2]
      exact ⟨_, _, _, _, _, _, _, _, _, _, _, _, _, _, _, _, rfl⟩
  · simp only [hc, if_false]
    exact ⟨_, _, _, _, _, _, _, _, _, _, _, _, _, _, _, _, rfl⟩

/-! ### The committed platform selection is untouched by navigation,
preview, filter, toggle, download and resize operations. -/

theorem selected_get_package_records {V : Type} [LinearOrder V] (env : Env V)
    (s : Ctrl V) (n : String) :
    (get_package_records env s n).1.selected = s.selected := by
  cases hl : alLookup n s.recordsCache <;> simp [get_package_records, hl]

theorem selected_request_package_preview {V : Type} (env : Env V) (s : Ctrl V)
    (n : String) :
    (request_package_preview env s n).selected = s.selected := by
  obtain ⟨a, b, c, d, e⟩ := request_package_preview_shape env s n
  rw [e]

theorem selected_request_version_preview {V : Type} [DecidableEq V] (env : Env V)
    (s : Ctrl V) (n : String) (ent : VersionEntry V) :
    (request_selected_version_preview env s n ent).selected = s.selected := by
  obtain ⟨a, b, c, d, e⟩ := request_selected_version_preview_shape env s n ent
  rw [e]

theorem selected_complete_package_preview {V : Type} [LinearOrder V] (env : Env V)
    (s : Ctrl V) (n : String) :
    (complete_package_preview env s n).selected = s.selected := by
  obtain ⟨a, b, c, d, e⟩ := complete_package_preview_shape env s n
  rw [e]

theorem selected_complete_version_preview {V : Type} [LinearOrder V] (env : Env V)
    (s : Ctrl V) (n : String) (ent : VersionEntry V) (k : VKey V) :
    (complete_version_preview env s n ent k).selected = s.selected := by
  obtain ⟨a, b, c, d, e, f⟩ := complete_version_preview_shape env s n ent k
  rw [f]

theorem selected_filter_packages {V : Type} (env : Env V) (s : Ctrl V) :
    (filter_packages env s).selected = s.selected := by
  obtain ⟨a, b, c, d, e, f, g, h⟩ := filter_packages_shape env s
  rw [h]

theorem selected_back_to_packages {V : Type} (env : Env V) (s : Ctrl V) :
    (back_to_packages env s).selected = s.selected := by
  obtain ⟨a, b, c, d, e, f, g, h, i, j, k, l, m, n, o, p, q⟩ :=
    back_to_packages_shape env s
  rw [q]

theorem selected_render_package_options {V : Type} (s : Ctrl V) (pp : Bool) :
    (render_package_options s pp).selected = s.selected := by
  obtain ⟨a, e⟩ := render_package_options_shape s pp
  rw [e]

theorem selected_update_platform_selection_status {V : Type} (s : Ctrl V) :
    (update_platform_selection_status s).selected = s.selected := rfl

theorem selected_render_platform_options {V : Type} (s : Ctrl V) :
    (render_platform_options s).selected = s.selected := by
  cases hd : s.draft <;> simp [render_platform_options, hd]

theorem selected_open_platform_selector {V : Type} (s : Ctrl V) :
    (open_platform_selector s).selected = s.selected := by
  by_cases hm : s.mode = ViewMode.packages <;>
    simp [open_platform_selector, hm, selected_update_platform_selection_status,
      selected_render_platform_options]

theorem selected_toggle_platform_at_index {V : Type} (s : Ctrl V) (i : ℕ) :
    (toggle_platform_at_index s i).selected = s.selected := by
  by_cases hi : i < s.available.length
  · cases hd : s.draft with
    | none =>
      by_cases hc : s.available[i] ∈ s.selected ∧ s.selected.card = 1 <;>
        simp [toggle_platform_at_index, hi, hd, hc,
          selected_update_platform_selection_status, selected_render_platform_options]
    | some d =>
      by_cases hc : s.available[i] ∈ d ∧ d.card = 1 <;>
        simp [toggle_platform_at_index, hi, hd, hc,
          selected_update_platform_selection_status, selected_render_platform_options]
  · simp [toggle_platform_at_index, hi]

theorem selected_select_all_toggle {V : Type} (env : Env V) (s : Ctrl V) :
    (select_all_toggle env s).selected = s.selected := by
  by_cases hm : s.mode = ViewMode.platforms
  · by_cases ha : s.available = []
    · simp [select_all_toggle, hm, ha]
    · cases hh : s.highlight <;>
        simp [select_all_toggle, hm, ha, hh,
          selected_update_platform_selection_status, selected_render_platform_options]
  · simp [select_all_toggle, hm]

theorem selected_render_version_options {V : Type} (s : Ctrl V) (pp : Bool) :
    (render_version_options s pp).selected = s.selected := by
  cases hv : s.currentVersions with
  | nil => simp [render_version_options, hv]
  | cons e es =>
    by_cases hc : pp = true ∧ s.highlight ≠ none <;>
      simp [render_version_options, hv, hc]

theorem selected_update_versions_status {V : Type} (s : Ctrl V) :
    (update_versions_status s).selected = s.selected := rfl

theorem selected_open_versions {V : Type} [LinearOrder V] (env : Env V)
    (s : Ctrl V) (n : String) :
    (open_versions env s n).selected = s.selected := by
  simp [open_versions, selected_update_versions_status,
    selected_render_version_options, selected_get_package_records]

theorem selected_toggle_version_section_op {V : Type} (s : Ctrl V)
    (subdir : String) :
    (toggle_version_section_op s subdir).selected = s.selected := by
  unfold toggle_version_section_op
  cases hf : ((render_version_options
      { s with collapsedSubdirs := toggle_version_section s.collapsedSubdirs subdir }
      false).versionRows.findIdx? (fun r =>
        match r with
        | VersionRow.sect sd => decide (sd = subdir)
        | _ => false)) with
  | some i => simp [hf, selected_render_version_options]
  | none => simp [hf, selected_render_version_options]

theorem selected_request_download {V : Type} (s : Ctrl V) :
    (request_download s).selected = s.selected := by
  unfold request_download
  by_cases hm : s.mode ≠ ViewMode.versions
  · simp [hm]
  · by_cases hd : s.downloadInProgress = true
    · simp [hm, hd]
    · cases hs : s.selectedPackage with
      | none => simp [hm, hd, hs]
      | some n =>
        cases hr : highlighted_version_row s with
        | none => simp [hm, hd, hs, hr]
        | some row => cases row <;> simp [hm, hd, hs, hr]

theorem selected_complete_download {V : Type} [LinearOrder V] (env : Env V)
    (s : Ctrl V) (n : String) (e : VersionEntry V) (o : DlOutcome) :
    (complete_download env s n e o).selected = s.selected := by
  unfold complete_download get_record_for_version_entry
  cases o with
  | success =>
    by_cases hm : ((get_package_records env
        { s with
          dlInflight := s.dlInflight.erase (n, e)
          downloadInProgress := true } n).1.mode = ViewMode.versions) <;>
      simp [hm, selected_update_versions_status, selected_get_package_records]
  | failure pw => simp [selected_get_package_records]

theorem selected_rerender_visible_version_preview {V : Type} [LinearOrder V]
    (env : Env V) (s : Ctrl V) :
    (rerender_visible_version_preview env s).selected = s.selected := by
  unfold rerender_visible_version_preview
  by_cases hm : s.mode ≠ ViewMode.versions
  · simp [hm]
  · cases hs : s.selectedPackage with
    | none => simp [hm, hs]
    | some n =>
      cases hr : highlighted_version_row s with
      | none => simp [hm, hs, hr]
      | some row =>
        cases row <;> simp [hm, hs, hr, selected_request_version_preview]

theorem selected_refresh_after_resize {V : Type} [LinearOrder V] (env : Env V)
    (s : Ctrl V) :
    (refresh_after_resize env s).selected = s.selected := by
  unfold refresh_after_resize
  cases hm : s.mode with
  | packages => simp [selected_render_package_options]
  | versions =>
    rw [selected_rerender_visible_version_preview,
      selected_update_versions_status, selected_render_version_options]
  | platforms =>
    cases hh : s.highlight with
    | none =>
      simp [hh, selected_update_platform_selection_status,
        selected_render_platform_options]
    | some h =>
      by_cases ha : s.available ≠ [] <;>
        simp [hh, ha, selected_update_platform_selection_status,
          selected_render_platform_options]

/-! ### The download manager (claim C6) -/

theorem complete_download_success_shape {V : Type} [LinearOrder V] (env : Env V)
    (s : Ctrl V) (n : String) (e : VersionEntry V) :
    ∃ rc st, complete_download env s n e DlOutcome.success =
      { s with
        dlInflight := s.dlInflight.erase (n, e)
        downloadInProgress := false
        recordsCache := rc
        fsPart := false
        fsDest := true
        status := st
        notifications := downloadedOkText :: s.notifications } := by
  cases hl : alLookup n s.recordsCache with
  | some cached =>
    by_cases hm : s.mode = ViewMode.versions
    · exact ⟨s.recordsCache,
        versionsStatusText s.currentVersions.length s.versionSubdirs.length,
        by simp [complete_download, get_record_for_version_entry,
          get_package_records, update_versions_status, hl, hm]⟩
    · exact ⟨s.recordsCache, s.status,
        by simp [complete_download, get_record_for_version_entry,
          get_package_records, update_versions_status, hl, hm]⟩
  | none =>
    by_cases hm : s.mode = ViewMode.versions
    · exact ⟨alInsert s.recordsCache n
          (query_package_records (env.gwQuery s.channelName s.platforms n)),
        versionsStatusText s.currentVersions.length s.versionSubdirs.length,
        by simp [complete_download, get_record_for_version_entry,
          get_package_records, update_versions_status, hl, hm]⟩
    · exact ⟨alInsert s.recordsCache n
          (query_package_records (env.gwQuery s.channelName s.platforms n)),
        s.status,
        by simp [complete_download, get_record_for_version_entry,
          get_package_records, update_versions_status, hl, hm]⟩

theorem complete_download_failure_shape {V : Type} [LinearOrder V] (env : Env V)
    (s : Ctrl V) (n : String) (e : VersionEntry V) (pw : Bool) :
    ∃ rc, complete_download env s n e (DlOutcome.failure pw) =
      { s with
        dlInflight := s.dlInflight.erase (n, e)
        downloadInProgress := false
        recordsCache := rc
        fsPart := false
        notifications := downloadFailedText e.file_name :: s.notifications } := by
  cases hl : alLookup n s.recordsCache with
  | some cached =>
    exact ⟨s.recordsCache,
      by simp [complete_download, get_record_for_version_entry,
        get_package_records, hl]⟩
  | none =>
    exact ⟨alInsert s.recordsCache n
        (query_package_records (env.gwQuery s.channelName s.platforms n)),
      by simp [complete_download, get_record_for_version_entry,
        get_package_records, hl]⟩

theorem mem_length_le_one {α : Type} [DecidableEq α] {l : List α} {x : α}
    (hm : x ∈ l) (hl : l.length ≤ 1) : l = [x] := by
  cases l with
  | nil => simp at hm
  | cons a t =>
    cases t with
    | nil =>
      rcases List.mem_singleton.mp hm with rfl
      rfl
    | cons b t2 => simp at hl

/-- Claim C6: a successful download leaves no `.part` file (the part file
is renamed to the destination); a failed transfer leaves no `.part` file
and creates no destination file, and a download error is notified; the
in-flight guard is released in all cases; while a download is in flight a
new request is a silent no-op; and at most one download is ever in
flight. -/
theorem download_manager_spec {V : Type} [LinearOrder V] (env : Env V)
    (s : Ctrl V) (n : String) (e : VersionEntry V) :
    ((complete_download env s n e DlOutcome.success).fsPart = false
      ∧ (complete_download env s n e DlOutcome.success).fsDest = true
      ∧ (complete_download env s n e DlOutcome.success).downloadInProgress = false)
    ∧ (∀ pw, (complete_download env s n e (DlOutcome.failure pw)).fsPart = false
      ∧ (complete_download env s n e (DlOutcome.failure pw)).fsDest = s.fsDest
      ∧ (complete_download env s n e (DlOutcome.failure pw)).downloadInProgress
          = false
      ∧ (complete_download env s n e (DlOutcome.failure pw)).notifications
          = downloadFailedText e.file_name :: s.notifications)
    ∧ (s.downloadInProgress = true → request_download s = s)
    ∧ (s.dlInflight.length ≤ 1 →
        (s.downloadInProgress = false → s.dlInflight = []) →
        (request_download s).dlInflight.length ≤ 1
        ∧ ((request_download s).downloadInProgress = false →
            (request_download s).dlInflight = []))
    ∧ ((n, e) ∈ s.dlInflight → s.dlInflight.length ≤ 1 →
        ∀ o, (complete_download env s n e o).dlInflight = []
          ∧ (complete_download env s n e o).downloadInProgress = false) := by
  refine ⟨?_, ?_, ?_, ?_, ?_⟩
  · obtain ⟨rc, st, hshape⟩ := complete_download_success_shape env s n e
    rw [hshape]
    exact ⟨rfl, rfl, rfl⟩
  · intro pw
    obtain ⟨rc, hshape⟩ := complete_download_failure_shape env s n e pw
    rw [hshape]
    exact ⟨rfl, rfl, rfl, rfl⟩
  · intro hip
    unfold request_download
    by_cases hm : s.mode ≠ ViewMode.versions
    · simp [hm]
    · simp [hm, hip]
  · intro hlen hempty
    by_cases hm : s.mode ≠ ViewMode.versions
    · rw [show request_download s = s from by unfold request_download; simp [hm]]
      exact ⟨hlen, hempty⟩
    · by_cases hip : s.downloadInProgress = true
      · rw [show request_download s = s from by
          unfold request_download; simp [hm, hip]]
        exact ⟨hlen, hempty⟩
      · have hemp : s.dlInflight = [] := hempty (by simpa using hip)
        cases hs : s.selectedPackage with
        | none =>
          rw [show request_download s = s from by
            unfold request_download; simp [hm, hip, hs]]
          exact ⟨hlen, hempty⟩
        | some nm =>
          cases hr : highlighted_version_row s with
          | none =>
            rw [show request_download s =
                { s with notifications := selectEntryText :: s.notifications }
              from by unfold request_download; simp [hm, hip, hs, hr]]
            exact ⟨hlen, hempty⟩
          | some row =>
            cases row with
            | back =>
              rw [show request_download s =
                  { s with notifications := selectEntryText :: s.notifications }
                from by unfold request_download; simp [hm, hip, hs, hr]]
              exact ⟨hlen, hempty⟩
            | empty =>
              rw [show request_download s =
                  { s with notifications := selectEntryText :: s.notifications }
                from by unfold request_download; simp [hm, hip, hs, hr]]
              exact ⟨hlen, hempty⟩
            | sect sd =>
              rw [show request_download s =
                  { s with notifications := selectEntryText :: s.notifications }
                from by unfold request_download; simp [hm, hip, hs, hr]]
              exact ⟨hlen, hempty⟩
            | entry sd ent =>
              rw [show request_download s =
                  { s with
                    downloadInProgress := true
                    dlInflight := (nm, ent) :: s.dlInflight }
                from by unfold request_download; simp [hm, hip, hs, hr]]
              refine ⟨by simp [hemp], ?_⟩
              intro hfalse
              simp at hfalse
  · intro hmem hlen o
    have hone : s.dlInflight = [(n, e)] := mem_length_le_one hmem hlen
    have herase : s.dlInflight.erase (n, e) = [] := by
      rw [hone]
      simp
    cases o with
    | success =>
      obtain ⟨rc, st, hshape⟩ := complete_download_success_shape env s n e
      rw [hshape]
      exact ⟨herase, rfl⟩
    | failure pw =>
      obtain ⟨rc, hshape⟩ := complete_download_failure_shape env s n e pw
      rw [hshape]
      exact ⟨herase, rfl⟩

/-- C6 witness: on a concrete one-worker state, a failed download leaves
no part file, no destination file, the guard released, and the error
notified; a concurrent request while in flight is ignored. -/
theorem download_manager_spec_witness :
    (PixiBrowse.complete_download
        { discover := fun _ => ["linux-64"], gwNames := fun _ _ => some []
          gwQuery := fun _ _ _ => [], curPlatform := "linux-64"
          vstr := fun _ => "v", renderPkg := fun _ _ => "P"
          renderVer := fun _ _ => "D" }
        { channelName := "conda-forge", mode := ViewMode.versions
          searchQuery := "", filterMode := false, available := ["linux-64"]
          selected := {"linux-64"}, draft := none, platforms := ["linux-64"]
          allNames := [], visibleNames := [], recordsCache := []
          detailsCache := [], currentVersions := [], versionSubdirs := []
          versionsBySubdir := [], collapsedSubdirs := ∅, versionRows := []
          selectedPackage := some "pkga", previewedPackage := none
          pendingPackage := none, previewedVKey := none, pendingVKey := none
          highlight := none, scrollY := 0, lastHighlight := none
          lastScrollY := 0, status := "", panel := "", notifications := []
          downloadInProgress := true
          pkgInflight := []
          verInflight := []
          dlInflight := [("pkga", VersionEntry.mk (1 : ℕ) "b" 0 "linux-64" "f")]
          fsPart := true, fsDest := false }
        "pkga" (VersionEntry.mk (1 : ℕ) "b" 0 "linux-64" "f")
        (DlOutcome.failure true)).fsPart = false := by
  have h := (download_manager_spec
    { discover := fun _ => ["linux-64"], gwNames := fun _ _ => some []
      gwQuery := fun _ _ _ => [], curPlatform := "linux-64"
      vstr := fun _ => "v", renderPkg := fun _ _ => "P"
      renderVer := fun _ _ => "D" }
    { channelName := "conda-forge", mode := ViewMode.versions
      searchQuery := "", filterMode := false, available := ["linux-64"]
      selected := {"linux-64"}, draft := none, platforms := ["linux-64"]
      allNames := [], visibleNames := [], recordsCache := []
      detailsCache := [], currentVersions := [], versionSubdirs := []
      versionsBySubdir := [], collapsedSubdirs := ∅, versionRows := []
      selectedPackage := some "pkga", previewedPackage := none
      pendingPackage := none, previewedVKey := none, pendingVKey := none
      highlight := none, scrollY := 0, lastHighlight := none
      lastScrollY := 0, status := "", panel := "", notifications := []
      downloadInProgress := true
      pkgInflight := []
      verInflight := []
      dlInflight := [("pkga", VersionEntry.mk (1 : ℕ) "b" 0 "linux-64" "f")]
      fsPart := true, fsDest := false }
    "pkga" (VersionEntry.mk (1 : ℕ) "b" 0 "linux-64" "f")).2.1 true
  exact h.1

/-! ### The committed selection stays non-empty (claim C8) -/

theorem default_platform_selection_nonempty {V : Type} (env : Env V) (s : Ctrl V)
    (h : s.available ≠ []) : (default_platform_selection env s).Nonempty := by
  unfold default_platform_selection
  by_cases h1 : env.curPlatform ∈ s.available
  · by_cases h2 : "noarch" ∈ s.available
    · simp [h1, h2]
    · simp [h1, h2]
  · by_cases h2 : "noarch" ∈ s.available
    · simp [h1, h2]
    · cases ha : s.available with
      | nil => exact absurd ha h
      | cons a t =>
        have h1a : ¬(env.curPlatform = a ∨ env.curPlatform ∈ t) := by
          rw [ha] at h1; simpa using h1
        have h2a : ¬("noarch" = a ∨ "noarch" ∈ t) := by
          rw [ha] at h2; simpa using h2
        simp [ha, h1a, h2a]

theorem ensure_ok_selected_nonempty {V : Type} (env : Env V) (s s' : Ctrl V)
    (h : ensure_available_platforms env s = Except.ok s') :
    s'.selected.Nonempty ∧ s'.available ≠ [] := by
  unfold ensure_available_platforms at h
  by_cases h0 : s.available = []
  · by_cases h1 : env.discover s.channelName = []
    · simp [h0, h1] at h
    · by_cases h2 : s.selected.filter
          (fun p => p ∈ env.discover s.channelName) = ∅
      · simp only [h0, if_true, h1, if_false, h2, ne_eq, not_true_eq_false,
          Except.ok.injEq, if_false] at h
        subst h
        refine ⟨default_platform_selection_nonempty env _ (by simpa using h1), ?_⟩
        simpa using h1
      · simp only [h0, if_true, h1, if_false, h2, ne_eq, not_false_eq_true,
          Except.ok.injEq, if_true] at h
        subst h
        exact ⟨Finset.nonempty_iff_ne_empty.mpr (by simpa using h2),
          by simpa using h1⟩
  · by_cases h2 : s.selected.filter (fun p => p ∈ s.available) = ∅
    · simp only [h0, if_false, ne_eq, not_false_eq_true, h2, not_true_eq_false,
        Except.ok.injEq, if_true, if_false] at h
      subst h
      exact ⟨default_platform_selection_nonempty env _ (by simpa using h0),
        by simpa using h0⟩
    · simp only [h0, if_false, ne_eq, not_false_eq_true, h2,
        Except.ok.injEq, if_true] at h
      subst h
      exact ⟨Finset.nonempty_iff_ne_empty.mpr (by simpa using h2),
        by simpa using h0⟩

theorem fetch_ok_selected_nonempty {V : Type} (env : Env V) (s s' : Ctrl V)
    (names : List String)
    (h : fetch_package_names_with_gateway env s = Except.ok (s', names)) :
    s'.selected.Nonempty := by
  unfold fetch_package_names_with_gateway at h
  cases he : ensure_available_platforms env s with
  | error err => simp [he] at h
  | ok s1 =>
    cases hn : fetch_package_names_gw env s1.channelName s1.selected with
    | none => simp [he, hn] at h
    | some pr =>
      obtain ⟨plats, nms⟩ := pr
      simp only [he, hn, Except.ok.injEq, Prod.mk.injEq] at h
      obtain ⟨h1, _⟩ := h
      rw [← h1]
      exact (ensure_ok_selected_nonempty env s s1 he).1

theorem load_ok_selected_nonempty {V : Type} [LinearOrder V] (env : Env V)
    (s s' : Ctrl V) (h : load_packages env s = (s', true)) :
    s'.selected.Nonempty := by
  unfold load_packages at h
  cases he : ensure_available_platforms env s with
  | error err => simp [he] at h
  | ok s1 =>
    cases hf : fetch_package_names_with_gateway env s1 with
    | error serr => simp [he, hf] at h
    | ok pr =>
      obtain ⟨s2, names⟩ := pr
      have h2 : s2.selected.Nonempty := fetch_ok_selected_nonempty env s1 s2 names hf
      simp only [he, hf] at h
      split at h
      · injection h with hA hB
        rw [← hA, update_package_selection_status_shape,
          selected_render_package_options]
        exact h2
      · injection h with hA hB
        rw [← hA, selected_request_package_preview,
          update_package_selection_status_shape, selected_render_package_options]
        exact h2

/-- All modelled user-visible operations and worker completions, one step
each, with collaborator responses quantified inside the constructors. -/
inductive Step {V : Type} [LinearOrder V] (env : Env V) : Ctrl V → Ctrl V → Prop where
  | togglePlatform (s : Ctrl V) (i : ℕ) : Step env s (toggle_platform_at_index s i)
  | selectAll (s : Ctrl V) : Step env s (select_all_toggle env s)
  | applyPlatform (s : Ctrl V) : Step env s (apply_platform_selection env s)
  | applyChannel (s : Ctrl V) (name : String) :
      Step env s (apply_channel_selection env s name)
  | openPlatforms (s : Ctrl V) : Step env s (open_platform_selector s)
  | openVers (s : Ctrl V) (name : String) : Step env s (open_versions env s name)
  | backToPkgs (s : Ctrl V) : Step env s (back_to_packages env s)
  | toggleSection (s : Ctrl V) (subdir : String) :
      Step env s (toggle_version_section_op s subdir)
  | reqPkgPreview (s : Ctrl V) (name : String) :
      Step env s (request_package_preview env s name)
  | reqVerPreview (s : Ctrl V) (name : String) (e : VersionEntry V) :
      Step env s (request_selected_version_preview env s name e)
  | donePkgPreview (s : Ctrl V) (name : String) :
      Step env s (complete_package_preview env s name)
  | doneVerPreview (s : Ctrl V) (name : String) (e : VersionEntry V) (k : VKey V) :
      Step env s (complete_version_preview env s name e k)
  | reqDownload (s : Ctrl V) : Step env s (request_download s)
  | doneDownload (s : Ctrl V) (name : String) (e : VersionEntry V) (o : DlOutcome) :
      Step env s (complete_download env s name e o)
  | filterEdit (s : Ctrl V) (q : String) (fm : Bool) :
      Step env s (filter_packages env { s with searchQuery := q, filterMode := fm })
  | resize (s : Ctrl V) : Step env s (refresh_after_resize env s)

theorem selected_nonempty_apply_platform {V : Type} [LinearOrder V] (env : Env V)
    (s : Ctrl V) (h : s.selected.Nonempty) :
    (apply_platform_selection env s).selected.Nonempty := by
  unfold apply_platform_selection
  by_cases h0 : (s.draft.getD s.selected).filter (fun p => p ∈ s.available) = ∅
  · simpa [h0] using h
  · by_cases h1 : (s.draft.getD s.selected).filter (fun p => p ∈ s.available)
        = s.selected
    · have hne : ¬(s.selected = ∅) := Finset.nonempty_iff_ne_empty.mp h
      simp only [h0, if_false, h1, if_true, hne]
      rw [selected_back_to_packages]
      simpa using h
    · simp only [h0, if_false, h1, if_true, ite_false]
      split
      · rename_i serr heq
        rw [selected_back_to_packages]
        exact h
      · rename_i s3 names heq
        rw [selected_filter_packages]
        exact fetch_ok_selected_nonempty env _ s3 names heq

theorem selected_nonempty_apply_channel {V : Type} [LinearOrder V] (env : Env V)
    (s : Ctrl V) (cn : String) (h : s.selected.Nonempty) :
    (apply_channel_selection env s cn).selected.Nonempty := by
  unfold apply_channel_selection
  by_cases h0 : stripString cn = ""
  · simpa [h0] using h
  · by_cases h1 : stripString cn = s.channelName
    · simpa [h0, h1] using h
    · simp only [h0, if_false, h1, if_true, ite_false]
      split
      · rename_i s3 heq
        exact load_ok_selected_nonempty env _ s3 heq
      · rename_i s3 heq
        show (back_to_packages env (restore_channel_state s3
          (snapshot_channel_state s))).selected.Nonempty
        rw [selected_back_to_packages]
        simpa [restore_channel_state, snapshot_channel_state] using h

theorem step_preserves_selected_nonempty {V : Type} [LinearOrder V] (env : Env V)
    (s s' : Ctrl V) (h : s.selected.Nonempty) (hs : Step env s s') :
    s'.selected.Nonempty := by
  cases hs with
  | togglePlatform i => rw [selected_toggle_platform_at_index]; exact h
  | selectAll => rw [selected_select_all_toggle]; exact h
  | applyPlatform => exact selected_nonempty_apply_platform env s h
  | applyChannel name => exact selected_nonempty_apply_channel env s name h
  | openPlatforms => rw [selected_open_platform_selector]; exact h
  | openVers name => rw [selected_open_versions]; exact h
  | backToPkgs => rw [selected_back_to_packages]; exact h
  | toggleSection subdir => rw [selected_toggle_version_section_op]; exact h
  | reqPkgPreview name => rw [selected_request_package_preview]; exact h
  | reqVerPreview name e => rw [selected_request_version_preview]; exact h
  | donePkgPreview name => rw [selected_complete_package_preview]; exact h
  | doneVerPreview name e k => rw [selected_complete_version_preview]; exact h
  | reqDownload => rw [selected_request_download]; exact h
  | doneDownload name e o => rw [selected_complete_download]; exact h
  | filterEdit q fm => rw [selected_filter_packages]; exact h
  | resize => rw [selected_refresh_after_resize]; exact h

/-! ### Applying the platform draft (claim C5) -/

theorem request_package_preview_env {V : Type} (env env' : Env V) (s : Ctrl V)
    (n : String) (h : env'.renderPkg = env.renderPkg) :
    request_package_preview env' s n = request_package_preview env s n := by
  unfold request_package_preview update_main_panel_for_package
  simp only [h]

theorem filter_packages_env {V : Type} (env env' : Env V) (s : Ctrl V)
    (h : env'.renderPkg = env.renderPkg) :
    filter_packages env' s = filter_packages env s := by
  simp only [filter_packages]
  cases hv : computed_visible s.filterMode s.searchQuery s.allNames with
  | nil => rfl
  | cons n rest => exact request_package_preview_env env env' _ n h

theorem back_to_packages_env {V : Type} (env env' : Env V) (s : Ctrl V)
    (h : env'.renderPkg = env.renderPkg) :
    back_to_packages env' s = back_to_packages env s := by
  simp only [back_to_packages]
  rw [filter_packages_env env env' _ h]
  generalize filter_packages env
    { (clear_version_state
        { s with mode := ViewMode.packages, draft := none } : Ctrl V) with
      previewedVKey := none
      pendingVKey := none } = s3
  by_cases hc : s3.visibleNames ≠ [] ∧ s3.lastHighlight ≠ none
  · rw [if_pos hc, if_pos hc]
    cases hg : s3.visibleNames.get?
        (min (s3.lastHighlight.getD 0) (s3.visibleNames.length - 1)) with
    | none => rfl
    | some n => exact request_package_preview_env env env' _ n h
  · rw [if_neg hc, if_neg hc]

set_option maxHeartbeats 1000000 in
theorem filter_packages_fields {V : Type} (env : Env V) (s : Ctrl V) :
    (filter_packages env s).visibleNames
        = computed_visible s.filterMode s.searchQuery s.allNames
    ∧ (filter_packages env s).status
        = packagesSelectionStatusText
            (computed_visible s.filterMode s.searchQuery s.allNames).length := by
  simp only [filter_packages]
  obtain ⟨h1, e1⟩ := render_package_options_shape (V := V)
    { s with visibleNames := computed_visible s.filterMode s.searchQuery s.allNames }
    false
  rw [e1, update_package_selection_status_shape]
  cases hv : computed_visible s.filterMode s.searchQuery s.allNames with
  | nil => exact ⟨rfl, rfl⟩
  | cons n rest =>
    show (request_package_preview env
        { s with
          visibleNames := n :: rest
          highlight := h1
          status := packagesSelectionStatusText (n :: rest).length
          previewedPackage := none } n).visibleNames = n :: rest
      ∧ (request_package_preview env
        { s with
          visibleNames := n :: rest
          highlight := h1
          status := packagesSelectionStatusText (n :: rest).length
          previewedPackage := none } n).status
          = packagesSelectionStatusText (n :: rest).length
    obtain ⟨pp2, pv2, pa2, pi2, e2⟩ := request_package_preview_shape (V := V) env
      { s with
        visibleNames := n :: rest
        highlight := h1
        status := packagesSelectionStatusText (n :: rest).length
        previewedPackage := none } n
    rw [e2]
    exact ⟨rfl, rfl⟩

theorem back_to_packages_fields {V : Type} (env : Env V) (s : Ctrl V) :
    (back_to_packages env s).mode = ViewMode.packages
    ∧ (back_to_packages env s).draft = none
    ∧ (back_to_packages env s).channelName = s.channelName
    ∧ (back_to_packages env s).available = s.available
    ∧ (back_to_packages env s).selected = s.selected
    ∧ (back_to_packages env s).platforms = s.platforms
    ∧ (back_to_packages env s).allNames = s.allNames
    ∧ (back_to_packages env s).recordsCache = s.recordsCache
    ∧ (back_to_packages env s).detailsCache = s.detailsCache
    ∧ (back_to_packages env s).searchQuery = s.searchQuery
    ∧ (back_to_packages env s).filterMode = s.filterMode
    ∧ (back_to_packages env s).notifications = s.notifications
    ∧ (back_to_packages env s).visibleNames
        = computed_visible s.filterMode s.searchQuery s.allNames
    ∧ (back_to_packages env s).status
        = packagesSelectionStatusText
            (computed_visible s.filterMode s.searchQuery s.allNames).length := by
  have hvs : (back_to_packages env s).visibleNames
        = computed_visible s.filterMode s.searchQuery s.allNames
      ∧ (back_to_packages env s).status
        = packagesSelectionStatusText
            (computed_visible s.filterMode s.searchQuery s.allNames).length := by
    simp only [back_to_packages, clear_version_state]
    obtain ⟨vn1, h1, st1, pv1, pp1, pa1, pi1, e1⟩ := filter_packages_shape (V := V) env
      { s with
        mode := ViewMode.packages
        draft := none
        currentVersions := []
        versionSubdirs := []
        versionsBySubdir := []
        collapsedSubdirs := ∅
        versionRows := []
        selectedPackage := none
        previewedVKey := none
        pendingVKey := none }
    have hff := filter_packages_fields (V := V) env
      { s with
        mode := ViewMode.packages
        draft := none
        currentVersions := []
        versionSubdirs := []
        versionsBySubdir := []
        collapsedSubdirs := ∅
        versionRows := []
        selectedPackage := none
        previewedVKey := none
        pendingVKey := none }
    rw [e1] at hff
    have hvn : vn1 = computed_visible s.filterMode s.searchQuery s.allNames := hff.1
    have hst : st1 = packagesSelectionStatusText
        (computed_visible s.filterMode s.searchQuery s.allNames).length := hff.2
    rw [e1]
    by_cases hc : vn1 ≠ [] ∧ s.lastHighlight ≠ none
    · have hc2 : ({ s with
          mode := ViewMode.packages
          draft := none
          currentVersions := []
          versionSubdirs := []
          versionsBySubdir := []
          collapsedSubdirs := (∅ : Finset String)
          versionRows := []
          selectedPackage := none
          previewedVKey := none
          pendingVKey := none
          visibleNames := vn1
          highlight := h1
          status := st1
          previewedPackage := pv1
          pendingPackage := pp1
          panel := pa1
          pkgInflight := pi1 } : Ctrl V).visibleNames ≠ [] ∧
          ({ s with
          mode := ViewMode.packages
          draft := none
          currentVersions := []
          versionSubdirs := []
          versionsBySubdir := []
          collapsedSubdirs := (∅ : Finset String)
          versionRows := []
          selectedPackage := none
          previewedVKey := none
          pendingVKey := none
          visibleNames := vn1
          highlight := h1
          status := st1
          previewedPackage := pv1
          pendingPackage := pp1
          panel := pa1
          pkgInflight := pi1 } : Ctrl V).lastHighlight ≠ none := hc
      rw [if_pos hc2]
      cases hg : vn1.get? (min (s.lastHighlight.getD 0) (vn1.length - 1)) with
      | none => exact ⟨hvn, hst⟩
      | some m =>
        show (request_package_preview env
            { s with
              mode := ViewMode.packages
              draft := none
              currentVersions := []
              versionSubdirs := []
              versionsBySubdir := []
              collapsedSubdirs := ∅
              versionRows := []
              selectedPackage := none
              previewedVKey := none
              pendingVKey := none
              visibleNames := vn1
              highlight := some (min (s.lastHighlight.getD 0) (vn1.length - 1))
              scrollY := s.lastScrollY
              status := st1
              previewedPackage := pv1
              pendingPackage := pp1
              panel := pa1
              pkgInflight := pi1 } m).visibleNames
            = computed_visible s.filterMode s.searchQuery s.allNames
          ∧ (request_package_preview env
            { s with
              mode := ViewMode.packages
              draft := none
              currentVersions := []
              versionSubdirs := []
              versionsBySubdir := []
              collapsedSubdirs := ∅
              versionRows := []
              selectedPackage := none
              previewedVKey := none
              pendingVKey := none
              visibleNames := vn1
              highlight := some (min (s.lastHighlight.getD 0) (vn1.length - 1))
              scrollY := s.lastScrollY
              status := st1
              previewedPackage := pv1
              pendingPackage := pp1
              panel := pa1
              pkgInflight := pi1 } m).status
            = packagesSelectionStatusText
                (computed_visible s.filterMode s.searchQuery s.allNames).length
        obtain ⟨pp2, pv2, pa2, pi2, e2⟩ :=
          request_package_preview_shape (V := V) env _ m
        rw [e2]
        exact ⟨hvn, hst⟩
    · simp only [hc, if_false]
      exact ⟨hvn, hst⟩
  obtain ⟨cv, vs2, vb, cs2, vr, sp, pvk, pdk, vn, hh, sy, st2, pv, pp2, pa2, pi2, e⟩ :=
    back_to_packages_shape env s
  exact ⟨by rw [e], by rw [e], by rw [e], by rw [e], by rw [e], by rw [e],
    by rw [e], by rw [e], by rw [e], by rw [e], by rw [e], by rw [e],
    hvs.1, hvs.2⟩

/-- `_ensure_available_platforms` is the identity on a state whose
availability is non-empty and whose selection is already a non-empty
subset of it. -/
theorem ensure_fix {V : Type} (env : Env V) (s : Ctrl V)
    (h0 : s.available ≠ [])
    (hsub : s.selected.filter (fun p => p ∈ s.available) = s.selected)
    (hne : s.selected ≠ ∅) :
    ensure_available_platforms env s = Except.ok s := by
  unfold ensure_available_platforms
  simp [h0, hsub, hne]

/-! ### Preview staleness (claim C1) -/

theorem request_version_preview_effect {V : Type} [DecidableEq V] (env : Env V)
    (s : Ctrl V) (n : String) (e : VersionEntry V) :
    ∃ pv pa vi, request_selected_version_preview env s n e =
      { s with
        pendingVKey := some (version_preview_key n e)
        previewedVKey := pv
        panel := pa
        verInflight := vi }
      ∧ (pv = s.previewedVKey ∨ pv = some (version_preview_key n e)) := by
  by_cases h : s.previewedVKey = some (version_preview_key n e)
  · exact ⟨s.previewedVKey, s.panel, s.verInflight,
      by simp [request_selected_version_preview, h], Or.inl rfl⟩
  · cases hl : alLookup (version_preview_key n e) s.detailsCache with
    | some cached =>
      exact ⟨some (version_preview_key n e), cached, s.verInflight,
        by simp [request_selected_version_preview, h, hl], Or.inr rfl⟩
    | none =>
      exact ⟨s.previewedVKey, loadingVerText n (env.vstr e.version),
        (n, e, version_preview_key n e) :: s.verInflight,
        by simp [request_selected_version_preview, h, hl], Or.inl rfl⟩

theorem request_version_preview_miss {V : Type} [DecidableEq V] (env : Env V)
    (s : Ctrl V) (n : String) (e : VersionEntry V)
    (h : s.previewedVKey ≠ some (version_preview_key n e))
    (hl : alLookup (version_preview_key n e) s.detailsCache = none) :
    request_selected_version_preview env s n e =
      { s with
        pendingVKey := some (version_preview_key n e)
        panel := loadingVerText n (env.vstr e.version)
        verInflight := (n, e, version_preview_key n e) :: s.verInflight } := by
  simp [request_selected_version_preview, h, hl]

theorem mode_request_version_preview {V : Type} [DecidableEq V] (env : Env V)
    (s : Ctrl V) (n : String) (e : VersionEntry V) :
    (request_selected_version_preview env s n e).mode = s.mode := by
  obtain ⟨a, b, c, d, e'⟩ := request_selected_version_preview_shape env s n e
  rw [e']

theorem detailsCache_request_version_preview {V : Type} [DecidableEq V]
    (env : Env V) (s : Ctrl V) (n : String) (e : VersionEntry V) :
    (request_selected_version_preview env s n e).detailsCache = s.detailsCache := by
  obtain ⟨a, b, c, d, e'⟩ := request_selected_version_preview_shape env s n e
  rw [e']

theorem recordsCache_request_version_preview {V : Type} [DecidableEq V]
    (env : Env V) (s : Ctrl V) (n : String) (e : VersionEntry V) :
    (request_selected_version_preview env s n e).recordsCache = s.recordsCache := by
  obtain ⟨a, b, c, d, e'⟩ := request_selected_version_preview_shape env s n e
  rw [e']

theorem channelName_request_version_preview {V : Type} [DecidableEq V]
    (env : Env V) (s : Ctrl V) (n : String) (e : VersionEntry V) :
    (request_selected_version_preview env s n e).channelName = s.channelName := by
  obtain ⟨a, b, c, d, e'⟩ := request_selected_version_preview_shape env s n e
  rw [e']

theorem platforms_request_version_preview {V : Type} [DecidableEq V]
    (env : Env V) (s : Ctrl V) (n : String) (e : VersionEntry V) :
    (request_selected_version_preview env s n e).platforms = s.platforms := by
  obtain ⟨a, b, c, d, e'⟩ := request_selected_version_preview_shape env s n e
  rw [e']

theorem pendingVKey_request_version_preview {V : Type} [DecidableEq V]
    (env : Env V) (s : Ctrl V) (n : String) (e : VersionEntry V) :
    (request_selected_version_preview env s n e).pendingVKey
      = some (version_preview_key n e) := by
  obtain ⟨pv, pa, vi, e', h'⟩ := request_version_preview_effect env s n e
  rw [e']

theorem previewedVKey_request_version_preview {V : Type} [DecidableEq V]
    (env : Env V) (s : Ctrl V) (n : String) (e : VersionEntry V) (k : VKey V)
    (h1 : s.previewedVKey ≠ some k) (h2 : version_preview_key n e ≠ k) :
    (request_selected_version_preview env s n e).previewedVKey ≠ some k := by
  obtain ⟨pv, pa, vi, e', h'⟩ := request_version_preview_effect env s n e
  rw [e']
  show pv ≠ some k
  rcases h' with h' | h'
  · rw [h']; exact h1
  · rw [h']; simpa using h2

theorem complete_version_preview_stale {V : Type} [LinearOrder V] (env : Env V)
    (s : Ctrl V) (n : String) (e : VersionEntry V) (k : VKey V)
    (h : s.mode ≠ ViewMode.versions ∨ s.pendingVKey ≠ some k) :
    ∃ rc, complete_version_preview env s n e k =
      { s with
        verInflight := s.verInflight.erase (n, e, k)
        recordsCache := rc } := by
  unfold complete_version_preview get_record_for_version_entry get_package_records
  cases hl : alLookup n s.recordsCache with
  | some cached =>
    by_cases hm : s.mode ≠ ViewMode.versions
    · exact ⟨s.recordsCache, by simp [hl, hm]⟩
    · rcases h with h | h
      · exact absurd h hm
      · exact ⟨s.recordsCache, by simp [hl, hm, h]⟩
  | none =>
    by_cases hm : s.mode ≠ ViewMode.versions
    · exact ⟨alInsert s.recordsCache n
          (query_package_records (env.gwQuery s.channelName s.platforms n)),
        by simp [hl, hm]⟩
    · rcases h with h | h
      · exact absurd h hm
      · exact ⟨alInsert s.recordsCache n
            (query_package_records (env.gwQuery s.channelName s.platforms n)),
          by simp [hl, hm, h]⟩

theorem complete_version_preview_fresh {V : Type} [LinearOrder V] (env : Env V)
    (s : Ctrl V) (n : String) (e : VersionEntry V) (k : VKey V)
    (hm : s.mode = ViewMode.versions) (hp : s.pendingVKey = some k) :
    ∃ rc, complete_version_preview env s n e k =
      { s with
        verInflight := s.verInflight.erase (n, e, k)
        recordsCache := rc
        detailsCache := alInsert s.detailsCache k
          (rendered_detail env n e
            ((alLookup n s.recordsCache).getD
              (query_package_records (env.gwQuery s.channelName s.platforms n))))
        panel := rendered_detail env n e
          ((alLookup n s.recordsCache).getD
            (query_package_records (env.gwQuery s.channelName s.platforms n)))
        previewedVKey := some k } := by
  unfold complete_version_preview get_record_for_version_entry get_package_records
  cases hl : alLookup n s.recordsCache with
  | some cached =>
    exact ⟨s.recordsCache, by simp [hl, hm, hp, rendered_detail]⟩
  | none =>
    exact ⟨alInsert s.recordsCache n
        (query_package_records (env.gwQuery s.channelName s.platforms n)),
      by simp [hl, hm, hp, rendered_detail]⟩

theorem request_package_preview_effect {V : Type} (env : Env V) (s : Ctrl V)
    (n : String) :
    ∃ pv pa pi, request_package_preview env s n =
      { s with
        pendingPackage := some n
        previewedPackage := pv
        panel := pa
        pkgInflight := pi }
      ∧ (pv = s.previewedPackage ∨ pv = some n) := by
  by_cases h : s.previewedPackage = some n
  · exact ⟨s.previewedPackage, s.panel, s.pkgInflight,
      by simp [request_package_preview, h], Or.inl rfl⟩
  · cases hl : alLookup n s.recordsCache with
    | some records =>
      exact ⟨some n, env.renderPkg n records, s.pkgInflight,
        by simp [request_package_preview, update_main_panel_for_package, h, hl],
        Or.inr rfl⟩
    | none =>
      exact ⟨s.previewedPackage, loadingPkgText n, n :: s.pkgInflight,
        by simp [request_package_preview, h, hl], Or.inl rfl⟩

theorem request_package_preview_miss {V : Type} (env : Env V) (s : Ctrl V)
    (n : String) (h : s.previewedPackage ≠ some n)
    (hl : alLookup n s.recordsCache = none) :
    request_package_preview env s n =
      { s with
        pendingPackage := some n
        panel := loadingPkgText n
        pkgInflight := n :: s.pkgInflight } := by
  simp [request_package_preview, h, hl]

theorem mode_request_package_preview {V : Type} (env : Env V) (s : Ctrl V)
    (n : String) : (request_package_preview env s n).mode = s.mode := by
  obtain ⟨a, b, c, d, e'⟩ := request_package_preview_shape env s n
  rw [e']

theorem recordsCache_request_package_preview {V : Type} (env : Env V) (s : Ctrl V)
    (n : String) :
    (request_package_preview env s n).recordsCache = s.recordsCache := by
  obtain ⟨a, b, c, d, e'⟩ := request_package_preview_shape env s n
  rw [e']

theorem channelName_request_package_preview {V : Type} (env : Env V) (s : Ctrl V)
    (n : String) :
    (request_package_preview env s n).channelName = s.channelName := by
  obtain ⟨a, b, c, d, e'⟩ := request_package_preview_shape env s n
  rw [e']

theorem platforms_request_package_preview {V : Type} (env : Env V) (s : Ctrl V)
    (n : String) :
    (request_package_preview env s n).platforms = s.platforms := by
  obtain ⟨a, b, c, d, e'⟩ := request_package_preview_shape env s n
  rw [e']

theorem pendingPackage_request_package_preview {V : Type} (env : Env V)
    (s : Ctrl V) (n : String) :
    (request_package_preview env s n).pendingPackage = some n := by
  obtain ⟨pv, pa, pi, e', h'⟩ := request_package_preview_effect env s n
  rw [e']

theorem previewedPackage_request_package_preview {V : Type} (env : Env V)
    (s : Ctrl V) (n m : String) (h1 : s.previewedPackage ≠ some m)
    (h2 : n ≠ m) :
    (request_package_preview env s n).previewedPackage ≠ some m := by
  obtain ⟨pv, pa, pi, e', h'⟩ := request_package_preview_effect env s n
  rw [e']
  show pv ≠ some m
  rcases h' with h' | h'
  · rw [h']; exact h1
  · rw [h']; simpa using h2

theorem complete_package_preview_stale {V : Type} [LinearOrder V] (env : Env V)
    (s : Ctrl V) (n : String)
    (h : s.mode ≠ ViewMode.packages ∨ s.pendingPackage ≠ some n) :
    ∃ rc, complete_package_preview env s n =
      { s with
        pkgInflight := s.pkgInflight.erase n
        recordsCache := rc } := by
  unfold complete_package_preview get_package_records
  cases hl : alLookup n s.recordsCache with
  | some cached =>
    by_cases hm : s.mode ≠ ViewMode.packages
    · exact ⟨s.recordsCache, by simp [hl, hm]⟩
    · rcases h with h | h
      · exact absurd h hm
      · exact ⟨s.recordsCache, by simp [hl, hm, h]⟩
  | none =>
    by_cases hm : s.mode ≠ ViewMode.packages
    · exact ⟨alInsert s.recordsCache n
          (query_package_records (env.gwQuery s.channelName s.platforms n)),
        by simp [hl, hm]⟩
    · rcases h with h | h
      · exact absurd h hm
      · exact ⟨alInsert s.recordsCache n
            (query_package_records (env.gwQuery s.channelName s.platforms n)),
          by simp [hl, hm, h]⟩

theorem complete_package_preview_fresh {V : Type} [LinearOrder V] (env : Env V)
    (s : Ctrl V) (n : String)
    (hm : s.mode = ViewMode.packages) (hp : s.pendingPackage = some n) :
    ∃ rc, complete_package_preview env s n =
      { s with
        pkgInflight := s.pkgInflight.erase n
        recordsCache := rc
        panel := env.renderPkg n
          ((alLookup n s.recordsCache).getD
            (query_package_records (env.gwQuery s.channelName s.platforms n)))
        previewedPackage := some n } := by
  unfold complete_package_preview get_package_records
    update_main_panel_for_package
  cases hl : alLookup n s.recordsCache with
  | some cached =>
    exact ⟨s.recordsCache, by simp [hl, hm, hp]⟩
  | none =>
    exact ⟨alInsert s.recordsCache n
        (query_package_records (env.gwQuery s.channelName s.platforms n)),
      by simp [hl, hm, hp]⟩

/-- Claim C1: preview staleness.  A completed fetch is applied to the
detail pane only when its stream's mode is still active and its key still
equals the currently pending key (conjuncts 1 and 2: a stale completion
leaves the pane, the previewed marker and the details cache untouched in
either stream); and in each stream, after issuing requests for A, B, C in
that order from a state where C misses caches, the pane shows C's loading
text, then C's rendered content once C's fetch completes, and the late
completions of A and B — in either order — leave C's content on the pane,
never showing A's or B's. -/
theorem preview_staleness {V : Type} [LinearOrder V] (env : Env V) :
    (∀ (s : Ctrl V) (n : String) (e : VersionEntry V) (k : VKey V),
      s.mode ≠ ViewMode.versions ∨ s.pendingVKey ≠ some k →
      (complete_version_preview env s n e k).panel = s.panel
      ∧ (complete_version_preview env s n e k).previewedVKey = s.previewedVKey
      ∧ (complete_version_preview env s n e k).detailsCache = s.detailsCache)
    ∧ (∀ (s : Ctrl V) (n : String),
      s.mode ≠ ViewMode.packages ∨ s.pendingPackage ≠ some n →
      (complete_package_preview env s n).panel = s.panel
      ∧ (complete_package_preview env s n).previewedPackage
          = s.previewedPackage)
    ∧ (∀ (s₀ : Ctrl V) (nA nB nC : String) (eA eB eC : VersionEntry V),
      s₀.mode = ViewMode.versions →
      version_preview_key nA eA ≠ version_preview_key nC eC →
      version_preview_key nB eB ≠ version_preview_key nC eC →
      s₀.previewedVKey ≠ some (version_preview_key nC eC) →
      alLookup (version_preview_key nC eC) s₀.detailsCache = none →
      ∀ s₃, s₃ = request_selected_version_preview env
          (request_selected_version_preview env
            (request_selected_version_preview env s₀ nA eA) nB eB) nC eC →
      s₃.pendingVKey = some (version_preview_key nC eC)
      ∧ s₃.panel = loadingVerText nC (env.vstr eC.version)
      ∧ ∀ t₀, t₀ = complete_version_preview env s₃ nC eC
            (version_preview_key nC eC) →
        t₀.panel = rendered_detail env nC eC
            ((alLookup nC s₀.recordsCache).getD
              (query_package_records
                (env.gwQuery s₀.channelName s₀.platforms nC)))
        ∧ (complete_version_preview env
            (complete_version_preview env t₀ nA eA (version_preview_key nA eA))
            nB eB (version_preview_key nB eB)).panel = t₀.panel
        ∧ (complete_version_preview env
            (complete_version_preview env t₀ nB eB (version_preview_key nB eB))
            nA eA (version_preview_key nA eA)).panel = t₀.panel)
    ∧ (∀ (s₀ : Ctrl V) (nA nB nC : String),
      s₀.mode = ViewMode.packages →
      nA ≠ nC → nB ≠ nC →
      s₀.previewedPackage ≠ some nC →
      alLookup nC s₀.recordsCache = none →
      ∀ s₃, s₃ = request_package_preview env
          (request_package_preview env
            (request_package_preview env s₀ nA) nB) nC →
      s₃.pendingPackage = some nC
      ∧ s₃.panel = loadingPkgText nC
      ∧ ∀ t₀, t₀ = complete_package_preview env s₃ nC →
        t₀.panel = env.renderPkg nC
            (query_package_records
              (env.gwQuery s₀.channelName s₀.platforms nC))
        ∧ (complete_package_preview env
            (complete_package_preview env t₀ nA) nB).panel = t₀.panel
        ∧ (complete_package_preview env
            (complete_package_preview env t₀ nB) nA).panel = t₀.panel) := by
  refine ⟨?_, ?_, ?_, ?_⟩
  · intro s n e k h
    obtain ⟨rc, e'⟩ := complete_version_preview_stale env s n e k h
    rw [e']
    exact ⟨rfl, rfl, rfl⟩
  · intro s n h
    obtain ⟨rc, e'⟩ := complete_package_preview_stale env s n h
    rw [e']
    exact ⟨rfl, rfl⟩
  · intro s₀ nA nB nC eA eB eC hm hkA hkB hprev hmiss s₃ hs₃
    have hprev2 : (request_selected_version_preview env
        (request_selected_version_preview env s₀ nA eA) nB eB).previewedVKey
        ≠ some (version_preview_key nC eC) :=
      previewedVKey_request_version_preview env _ nB eB _
        (previewedVKey_request_version_preview env s₀ nA eA _ hprev hkA) hkB
    have hd2 : (request_selected_version_preview env
        (request_selected_version_preview env s₀ nA eA) nB eB).detailsCache
        = s₀.detailsCache :=
      (detailsCache_request_version_preview env _ nB eB).trans
        (detailsCache_request_version_preview env s₀ nA eA)
    have e3 := request_version_preview_miss env
      (request_selected_version_preview env
        (request_selected_version_preview env s₀ nA eA) nB eB) nC eC hprev2
      (by rw [hd2]; exact hmiss)
    have hm3 : s₃.mode = ViewMode.versions := by
      rw [hs₃, mode_request_version_preview, mode_request_version_preview,
        mode_request_version_preview]
      exact hm
    have hp3 : s₃.pendingVKey = some (version_preview_key nC eC) := by
      rw [hs₃]
      exact pendingVKey_request_version_preview env _ nC eC
    have hrc3 : s₃.recordsCache = s₀.recordsCache := by
      rw [hs₃, recordsCache_request_version_preview,
        recordsCache_request_version_preview,
        recordsCache_request_version_preview]
    have hch3 : s₃.channelName = s₀.channelName := by
      rw [hs₃, channelName_request_version_preview,
        channelName_request_version_preview,
        channelName_request_version_preview]
    have hpl3 : s₃.platforms = s₀.platforms := by
      rw [hs₃, platforms_request_version_preview,
        platforms_request_version_preview, platforms_request_version_preview]
    refine ⟨hp3, ?_, ?_⟩
    · rw [hs₃, e3]
    · intro t₀ ht₀
      obtain ⟨rc4, e4⟩ := complete_version_preview_fresh env s₃ nC eC
        (version_preview_key nC eC) hm3 hp3
      have hpanel0 : t₀.panel = rendered_detail env nC eC
          ((alLookup nC s₀.recordsCache).getD
            (query_package_records
              (env.gwQuery s₀.channelName s₀.platforms nC))) := by
        rw [ht₀, e4]
        rw [hrc3, hch3, hpl3]
      have hp0 : t₀.pendingVKey = some (version_preview_key nC eC) := by
        rw [ht₀, e4]
        exact hp3
      have hm0 : t₀.mode = ViewMode.versions := by
        rw [ht₀, e4]
        exact hm3
      have hstA : t₀.pendingVKey ≠ some (version_preview_key nA eA) := by
        rw [hp0]
        simpa using Ne.symm hkA
      have hstB : t₀.pendingVKey ≠ some (version_preview_key nB eB) := by
        rw [hp0]
        simpa using Ne.symm hkB
      obtain ⟨rc5, e5⟩ := complete_version_preview_stale env t₀ nA eA
        (version_preview_key nA eA) (Or.inr hstA)
      obtain ⟨rc6, e6⟩ := complete_version_preview_stale env t₀ nB eB
        (version_preview_key nB eB) (Or.inr hstB)
      have hpA : (complete_version_preview env t₀ nA eA
          (version_preview_key nA eA)).pendingVKey ≠
          some (version_preview_key nB eB) := by
        rw [e5]
        exact hstB
      have hpB : (complete_version_preview env t₀ nB eB
          (version_preview_key nB eB)).pendingVKey ≠
          some (version_preview_key nA eA) := by
        rw [e6]
        exact hstA
      obtain ⟨rc7, e7⟩ := complete_version_preview_stale env
        (complete_version_preview env t₀ nA eA (version_preview_key nA eA))
        nB eB (version_preview_key nB eB) (Or.inr hpA)
      obtain ⟨rc8, e8⟩ := complete_version_preview_stale env
        (complete_version_preview env t₀ nB eB (version_preview_key nB eB))
        nA eA (version_preview_key nA eA) (Or.inr hpB)
      refine ⟨hpanel0, ?_, ?_⟩
      · rw [e7, e5]
      · rw [e8, e6]
  · intro s₀ nA nB nC hm hkA hkB hprev hmiss s₃ hs₃
    have hprev2 : (request_package_preview env
        (request_package_preview env s₀ nA) nB).previewedPackage
        ≠ some nC :=
      previewedPackage_request_package_preview env _ nB nC
        (previewedPackage_request_package_preview env s₀ nA nC hprev hkA) hkB
    have hd2 : (request_package_preview env
        (request_package_preview env s₀ nA) nB).recordsCache
        = s₀.recordsCache :=
      (recordsCache_request_package_preview env _ nB).trans
        (recordsCache_request_package_preview env s₀ nA)
    have e3 := request_package_preview_miss env
      (request_package_preview env (request_package_preview env s₀ nA) nB) nC
      hprev2 (by rw [hd2]; exact hmiss)
    have hm3 : s₃.mode = ViewMode.packages := by
      rw [hs₃, mode_request_package_preview, mode_request_package_preview,
        mode_request_package_preview]
      exact hm
    have hp3 : s₃.pendingPackage = some nC := by
      rw [hs₃]
      exact pendingPackage_request_package_preview env _ nC
    have hrc3 : s₃.recordsCache = s₀.recordsCache := by
      rw [hs₃, recordsCache_request_package_preview,
        recordsCache_request_package_preview,
        recordsCache_request_package_preview]
    have hch3 : s₃.channelName = s₀.channelName := by
      rw [hs₃, channelName_request_package_preview,
        channelName_request_package_preview,
        channelName_request_package_preview]
    have hpl3 : s₃.platforms = s₀.platforms := by
      rw [hs₃, platforms_request_package_preview,
        platforms_request_package_preview, platforms_request_package_preview]
    refine ⟨hp3, ?_, ?_⟩
    · rw [hs₃, e3]
    · intro t₀ ht₀
      obtain ⟨rc4, e4⟩ := complete_package_preview_fresh env s₃ nC hm3 hp3
      have hpanel0 : t₀.panel = env.renderPkg nC
          (query_package_records
            (env.gwQuery s₀.channelName s₀.platforms nC)) := by
        rw [ht₀, e4]
        rw [hrc3, hch3, hpl3, hmiss]
        rfl
      have hp0 : t₀.pendingPackage = some nC := by
        rw [ht₀, e4]
        exact hp3
      have hstA : t₀.pendingPackage ≠ some nA := by
        rw [hp0]
        simpa using Ne.symm hkA
      have hstB : t₀.pendingPackage ≠ some nB := by
        rw [hp0]
        simpa using Ne.symm hkB
      obtain ⟨rc5, e5⟩ := complete_package_preview_stale env t₀ nA (Or.inr hstA)
      obtain ⟨rc6, e6⟩ := complete_package_preview_stale env t₀ nB (Or.inr hstB)
      have hpA : (complete_package_preview env t₀ nA).pendingPackage
          ≠ some nB := by
        rw [e5]
        exact hstB
      have hpB : (complete_package_preview env t₀ nB).pendingPackage
          ≠ some nA := by
        rw [e6]
        exact hstA
      obtain ⟨rc7, e7⟩ := complete_package_preview_stale env
        (complete_package_preview env t₀ nA) nB (Or.inr hpA)
      obtain ⟨rc8, e8⟩ := complete_package_preview_stale env
        (complete_package_preview env t₀ nB) nA (Or.inr hpB)
      refine ⟨hpanel0, ?_, ?_⟩
      · rw [e7, e5]
      · rw [e8, e6]

/-- C1 witness: on a concrete state, three rapid version-detail requests
A, B, C for the same package followed by completions in the order C, A, B
leave C's rendered content (here the no-record text of an empty channel)
on the pane. -/
theorem preview_staleness_witness :
    (PixiBrowse.complete_version_preview
      ({ discover := fun _ => ["linux-64"], gwNames := fun _ _ => some []
         gwQuery := fun _ _ _ => [], curPlatform := "linux-64"
         vstr := fun _ => "v", renderPkg := fun _ _ => "P"
         renderVer := fun _ _ => "D" } : Env ℕ)
      (PixiBrowse.complete_version_preview
        ({ discover := fun _ => ["linux-64"], gwNames := fun _ _ => some []
           gwQuery := fun _ _ _ => [], curPlatform := "linux-64"
           vstr := fun _ => "v", renderPkg := fun _ _ => "P"
           renderVer := fun _ _ => "D" } : Env ℕ)
        (PixiBrowse.complete_version_preview
          ({ discover := fun _ => ["linux-64"], gwNames := fun _ _ => some []
             gwQuery := fun _ _ _ => [], curPlatform := "linux-64"
             vstr := fun _ => "v", renderPkg := fun _ _ => "P"
             renderVer := fun _ _ => "D" } : Env ℕ)
          (PixiBrowse.request_selected_version_preview
            ({ discover := fun _ => ["linux-64"], gwNames := fun _ _ => some []
               gwQuery := fun _ _ _ => [], curPlatform := "linux-64"
               vstr := fun _ => "v", renderPkg := fun _ _ => "P"
               renderVer := fun _ _ => "D" } : Env ℕ)
            (PixiBrowse.request_selected_version_preview
              ({ discover := fun _ => ["linux-64"], gwNames := fun _ _ => some []
                 gwQuery := fun _ _ _ => [], curPlatform := "linux-64"
                 vstr := fun _ => "v", renderPkg := fun _ _ => "P"
                 renderVer := fun _ _ => "D" } : Env ℕ)
              (PixiBrowse.request_selected_version_preview
                ({ discover := fun _ => ["linux-64"]
                   gwNames := fun _ _ => some []
                   gwQuery := fun _ _ _ => [], curPlatform := "linux-64"
                   vstr := fun _ => "v", renderPkg := fun _ _ => "P"
                   renderVer := fun _ _ => "D" } : Env ℕ)
                { channelName := "conda-forge", mode := ViewMode.versions
                  searchQuery := "", filterMode := false
                  available := ["linux-64"]
                  selected := {"linux-64"}, draft := none
                  platforms := ["linux-64"]
                  allNames := ["pkg"], visibleNames := ["pkg"]
                  recordsCache := []
                  detailsCache := []
                  currentVersions := ([] : List (VersionEntry ℕ))
                  versionSubdirs := []
                  versionsBySubdir := [], collapsedSubdirs := ∅
                  versionRows := []
                  selectedPackage := some "pkg", previewedPackage := none
                  pendingPackage := none, previewedVKey := none
                  pendingVKey := none
                  highlight := none, scrollY := 0, lastHighlight := none
                  lastScrollY := 0, status := "", panel := ""
                  notifications := []
                  downloadInProgress := false
                  pkgInflight := []
                  verInflight := []
                  dlInflight := []
                  fsPart := false, fsDest := false }
                "pkg" (VersionEntry.mk (1 : ℕ) "b" 0 "linux-64" "fa"))
              "pkg" (VersionEntry.mk (2 : ℕ) "b" 0 "linux-64" "fb"))
            "pkg" (VersionEntry.mk (3 : ℕ) "b" 0 "linux-64" "fc"))
          "pkg" (VersionEntry.mk (3 : ℕ) "b" 0 "linux-64" "fc")
          (PixiBrowse.version_preview_key "pkg"
            (VersionEntry.mk (3 : ℕ) "b" 0 "linux-64" "fc")))
        "pkg" (VersionEntry.mk (1 : ℕ) "b" 0 "linux-64" "fa")
        (PixiBrowse.version_preview_key "pkg"
          (VersionEntry.mk (1 : ℕ) "b" 0 "linux-64" "fa")))
      "pkg" (VersionEntry.mk (2 : ℕ) "b" 0 "linux-64" "fb")
      (PixiBrowse.version_preview_key "pkg"
        (VersionEntry.mk (2 : ℕ) "b" 0 "linux-64" "fb"))).panel
    = PixiBrowse.noRecordText := by
  have h := (preview_staleness
    ({ discover := fun _ => ["linux-64"], gwNames := fun _ _ => some []
       gwQuery := fun _ _ _ => [], curPlatform := "linux-64"
       vstr := fun _ => "v", renderPkg := fun _ _ => "P"
       renderVer := fun _ _ => "D" } : Env ℕ)).2.2.1
    { channelName := "conda-forge", mode := ViewMode.versions
      searchQuery := "", filterMode := false
      available := ["linux-64"]
      selected := {"linux-64"}, draft := none
      platforms := ["linux-64"]
      allNames := ["pkg"], visibleNames := ["pkg"]
      recordsCache := []
      detailsCache := []
      currentVersions := ([] : List (VersionEntry ℕ))
      versionSubdirs := []
      versionsBySubdir := [], collapsedSubdirs := ∅
      versionRows := []
      selectedPackage := some "pkg", previewedPackage := none
      pendingPackage := none, previewedVKey := none
      pendingVKey := none
      highlight := none, scrollY := 0, lastHighlight := none
      lastScrollY := 0, status := "", panel := ""
      notifications := []
      downloadInProgress := false
      pkgInflight := []
      verInflight := []
      dlInflight := []
      fsPart := false, fsDest := false }
    "pkg" "pkg" "pkg"
    (VersionEntry.mk (1 : ℕ) "b" 0 "linux-64" "fa")
    (VersionEntry.mk (2 : ℕ) "b" 0 "linux-64" "fb")
    (VersionEntry.mk (3 : ℕ) "b" 0 "linux-64" "fc")
    rfl (by decide) (by decide) (by decide) rfl _ rfl
  have h2 := h.2.2 _ rfl
  exact h2.2.1.trans h2.1

/-! ### Channel switching (claim C7) -/

theorem notifications_render_package_options {V : Type} (s : Ctrl V) (pp : Bool) :
    (render_package_options s pp).notifications = s.notifications := by
  obtain ⟨a, e⟩ := render_package_options_shape s pp
  rw [e]

theorem searchQuery_render_package_options {V : Type} (s : Ctrl V) (pp : Bool) :
    (render_package_options s pp).searchQuery = s.searchQuery := by
  obtain ⟨a, e⟩ := render_package_options_shape s pp
  rw [e]

theorem filterMode_render_package_options {V : Type} (s : Ctrl V) (pp : Bool) :
    (render_package_options s pp).filterMode = s.filterMode := by
  obtain ⟨a, e⟩ := render_package_options_shape s pp
  rw [e]

theorem notifications_request_package_preview {V : Type} (env : Env V)
    (s : Ctrl V) (n : String) :
    (request_package_preview env s n).notifications = s.notifications := by
  obtain ⟨a, b, c, d, e⟩ := request_package_preview_shape env s n
  rw [e]

theorem searchQuery_request_package_preview {V : Type} (env : Env V)
    (s : Ctrl V) (n : String) :
    (request_package_preview env s n).searchQuery = s.searchQuery := by
  obtain ⟨a, b, c, d, e⟩ := request_package_preview_shape env s n
  rw [e]

theorem filterMode_request_package_preview {V : Type} (env : Env V)
    (s : Ctrl V) (n : String) :
    (request_package_preview env s n).filterMode = s.filterMode := by
  obtain ⟨a, b, c, d, e⟩ := request_package_preview_shape env s n
  rw [e]

theorem ensure_ok_preserves {V : Type} (env : Env V) (s s' : Ctrl V)
    (h : ensure_available_platforms env s = Except.ok s') :
    s'.notifications = s.notifications ∧ s'.searchQuery = s.searchQuery
      ∧ s'.filterMode = s.filterMode := by
  unfold ensure_available_platforms at h
  by_cases h0 : s.available = []
  · by_cases h1 : env.discover s.channelName = []
    · simp [h0, h1] at h
    · by_cases h2 : s.selected.filter
          (fun p => p ∈ env.discover s.channelName) = ∅
      · simp only [h0, if_true, h1, if_false, h2, ne_eq, not_true_eq_false,
          Except.ok.injEq, if_false] at h
        subst h
        exact ⟨rfl, rfl, rfl⟩
      · simp only [h0, if_true, h1, if_false, h2, ne_eq, not_false_eq_true,
          Except.ok.injEq, if_true] at h
        subst h
        exact ⟨rfl, rfl, rfl⟩
  · by_cases h2 : s.selected.filter (fun p => p ∈ s.available) = ∅
    · simp only [h0, if_false, ne_eq, not_false_eq_true, h2, not_true_eq_false,
        Except.ok.injEq, if_true, if_false] at h
      subst h
      exact ⟨rfl, rfl, rfl⟩
    · simp only [h0, if_false, ne_eq, not_false_eq_true, h2,
        Except.ok.injEq, if_true] at h
      subst h
      exact ⟨rfl, rfl, rfl⟩

theorem fetch_preserves {V : Type} (env : Env V) (s : Ctrl V) :
    (∀ s' names,
      fetch_package_names_with_gateway env s = Except.ok (s', names) →
      s'.notifications = s.notifications ∧ s'.searchQuery = s.searchQuery
        ∧ s'.filterMode = s.filterMode)
    ∧ (∀ serr,
      fetch_package_names_with_gateway env s = Except.error serr →
      serr.notifications = s.notifications ∧ serr.searchQuery = s.searchQuery
        ∧ serr.filterMode = s.filterMode) := by
  constructor
  · intro s' names h
    unfold fetch_package_names_with_gateway at h
    cases he : ensure_available_platforms env s with
    | error err => simp [he] at h
    | ok s1 =>
      cases hn : fetch_package_names_gw env s1.channelName s1.selected with
      | none => simp [he, hn] at h
      | some pr =>
        obtain ⟨plats, nms⟩ := pr
        simp only [he, hn, Except.ok.injEq, Prod.mk.injEq] at h
        rw [← h.1]
        exact ensure_ok_preserves env s s1 he
  · intro serr h
    unfold fetch_package_names_with_gateway at h
    cases he : ensure_available_platforms env s with
    | error err =>
      simp only [he, Except.error.injEq] at h
      rw [← h]
      exact ⟨rfl, rfl, rfl⟩
    | ok s1 =>
      cases hn : fetch_package_names_gw env s1.channelName s1.selected with
      | none =>
        simp only [he, hn, Except.error.injEq] at h
        rw [← h]
        exact ensure_ok_preserves env s s1 he
      | some pr =>
        obtain ⟨plats, nms⟩ := pr
        simp [he, hn] at h

theorem load_preserves {V : Type} [LinearOrder V] (env : Env V)
    (s s' : Ctrl V) (b : Bool) (h : load_packages env s = (s', b)) :
    s'.notifications = s.notifications ∧ s'.searchQuery = s.searchQuery
      ∧ s'.filterMode = s.filterMode := by
  unfold load_packages at h
  cases he : ensure_available_platforms env s with
  | error err =>
    simp only [he, Prod.mk.injEq] at h
    rw [← h.1]
    exact ⟨rfl, rfl, rfl⟩
  | ok s1 =>
    have h1 := ensure_ok_preserves env s s1 he
    cases hf : fetch_package_names_with_gateway env s1 with
    | error serr =>
      simp only [he, hf, Prod.mk.injEq] at h
      have h2 := (fetch_preserves env s1).2 serr hf
      rw [← h.1]
      exact ⟨h2.1.trans h1.1, h2.2.1.trans h1.2.1, h2.2.2.trans h1.2.2⟩
    | ok pr =>
      obtain ⟨s2, names⟩ := pr
      have h2f := (fetch_preserves env s1).1 s2 names hf
      have h2 : s2.notifications = s.notifications ∧ s2.searchQuery = s.searchQuery
          ∧ s2.filterMode = s.filterMode :=
        ⟨h2f.1.trans h1.1, h2f.2.1.trans h1.2.1, h2f.2.2.trans h1.2.2⟩
      simp only [he, hf] at h
      split at h
      · injection h with hA hB
        refine ⟨?_, ?_, ?_⟩
        · rw [← hA, update_package_selection_status_shape,
            notifications_render_package_options]
          exact h2.1
        · rw [← hA, update_package_selection_status_shape,
            searchQuery_render_package_options]
          exact h2.2.1
        · rw [← hA, update_package_selection_status_shape,
            filterMode_render_package_options]
          exact h2.2.2
      · injection h with hA hB
        refine ⟨?_, ?_, ?_⟩
        · rw [← hA, notifications_request_package_preview,
            update_package_selection_status_shape,
            notifications_render_package_options]
          exact h2.1
        · rw [← hA, searchQuery_request_package_preview,
            update_package_selection_status_shape,
            searchQuery_render_package_options]
          exact h2.2.1
        · rw [← hA, filterMode_request_package_preview,
            update_package_selection_status_shape,
            filterMode_render_package_options]
          exact h2.2.2

/-- Claim C7: switching to a differently named channel whose load fails
restores every snapshotted component of the previous channel state —
channel name, package list, both caches, the committed platform
selection, availability, platforms and the remembered list
selection/scroll position — re-renders the previous package list, and
pushes a channel-failure notification. -/
theorem channel_switch_failure_restore {V : Type} [LinearOrder V] (env : Env V)
    (s : Ctrl V) (c : String) (s3 : Ctrl V)
    (hname : stripString c ≠ "")
    (hdiff : stripString c ≠ s.channelName)
    (hload : load_packages env
      { (clear_channel_loaded_state { s with channelName := stripString c }) with
        panel := loadingChannelPanelText (stripString c) } = (s3, false)) :
    (apply_channel_selection env s c).channelName = s.channelName
    ∧ (apply_channel_selection env s c).allNames = s.allNames
    ∧ (apply_channel_selection env s c).recordsCache = s.recordsCache
    ∧ (apply_channel_selection env s c).detailsCache = s.detailsCache
    ∧ (apply_channel_selection env s c).selected = s.selected
    ∧ (apply_channel_selection env s c).available = s.available
    ∧ (apply_channel_selection env s c).platforms = s.platforms
    ∧ (apply_channel_selection env s c).mode = ViewMode.packages
    ∧ (apply_channel_selection env s c).visibleNames
        = computed_visible s.filterMode s.searchQuery s.allNames
    ∧ (apply_channel_selection env s c).lastHighlight = s.lastHighlight
    ∧ (apply_channel_selection env s c).lastScrollY = s.lastScrollY
    ∧ (apply_channel_selection env s c).notifications
        = failedChannelText (stripString c) :: s.notifications := by
  have happ : apply_channel_selection env s c
      = { (back_to_packages env (restore_channel_state s3
            (snapshot_channel_state s))) with
          notifications := failedChannelText (stripString c) ::
            (back_to_packages env (restore_channel_state s3
              (snapshot_channel_state s))).notifications } := by
    unfold apply_channel_selection
    simp only [hname, hdiff, hload, ne_eq, if_false, ite_false]
  have hp := load_preserves env _ s3 false hload
  have hfm : (restore_channel_state s3 (snapshot_channel_state s)).filterMode
      = s.filterMode := hp.2.2
  have hsq : (restore_channel_state s3 (snapshot_channel_state s)).searchQuery
      = s.searchQuery := hp.2.1
  have hnot : (restore_channel_state s3 (snapshot_channel_state s)).notifications
      = s.notifications := hp.1
  have hcv : computed_visible
      (restore_channel_state s3 (snapshot_channel_state s)).filterMode
      (restore_channel_state s3 (snapshot_channel_state s)).searchQuery
      (restore_channel_state s3 (snapshot_channel_state s)).allNames
      = computed_visible s.filterMode s.searchQuery s.allNames := by
    rw [hfm, hsq]
    rfl
  obtain ⟨f1, f2, f3, f4, f5, f6, f7, f8, f9, f10, f11, f12, f13, f14⟩ :=
    back_to_packages_fields env (restore_channel_state s3
      (snapshot_channel_state s))
  obtain ⟨cv, vs2, vb, cs2, vr, sp, pvk, pdk, vn, hh, sy, st2, pv, pp2, pa2, pi2, e⟩ :=
    back_to_packages_shape env (restore_channel_state s3
      (snapshot_channel_state s))
  rw [happ]
  refine ⟨f3, f7, f8, f9, f5, f4, f6, f1, f13.trans hcv, ?_, ?_, ?_⟩
  · rw [e]
    rfl
  · rw [e]
    rfl
  · show failedChannelText (stripString c) ::
        (back_to_packages env (restore_channel_state s3
          (snapshot_channel_state s))).notifications
      = failedChannelText (stripString c) :: s.notifications
    rw [f12, hnot]

/-- C7 witness: switching a concrete state to an unreachable channel
keeps the old channel name, package list and selection, and notifies. -/
theorem channel_switch_failure_restore_witness :
    (PixiBrowse.apply_channel_selection
        ({ discover := fun _ => [], gwNames := fun _ _ => some []
           gwQuery := fun _ _ _ => [], curPlatform := "linux-64"
           vstr := fun _ => "v", renderPkg := fun _ _ => "P"
           renderVer := fun _ _ => "D" } : Env ℕ)
        { channelName := "conda-forge", mode := ViewMode.packages
          searchQuery := "", filterMode := false
          available := ["linux-64"]
          selected := {"linux-64"}, draft := none
          platforms := ["linux-64"]
          allNames := ["pkga"], visibleNames := ["pkga"], recordsCache := []
          detailsCache := [], currentVersions := ([] : List (VersionEntry ℕ))
          versionSubdirs := []
          versionsBySubdir := [], collapsedSubdirs := ∅, versionRows := []
          selectedPackage := none, previewedPackage := none
          pendingPackage := none, previewedVKey := none, pendingVKey := none
          highlight := none, scrollY := 0, lastHighlight := none
          lastScrollY := 0, status := "", panel := "", notifications := []
          downloadInProgress := false
          pkgInflight := []
          verInflight := []
          dlInflight := []
          fsPart := false, fsDest := false } "bioconda").channelName
      = "conda-forge"
    ∧ (PixiBrowse.apply_channel_selection
        ({ discover := fun _ => [], gwNames := fun _ _ => some []
           gwQuery := fun _ _ _ => [], curPlatform := "linux-64"
           vstr := fun _ => "v", renderPkg := fun _ _ => "P"
           renderVer := fun _ _ => "D" } : Env ℕ)
        { channelName := "conda-forge", mode := ViewMode.packages
          searchQuery := "", filterMode := false
          available := ["linux-64"]
          selected := {"linux-64"}, draft := none
          platforms := ["linux-64"]
          allNames := ["pkga"], visibleNames := ["pkga"], recordsCache := []
          detailsCache := [], currentVersions := ([] : List (VersionEntry ℕ))
          versionSubdirs := []
          versionsBySubdir := [], collapsedSubdirs := ∅, versionRows := []
          selectedPackage := none, previewedPackage := none
          pendingPackage := none, previewedVKey := none, pendingVKey := none
          highlight := none, scrollY := 0, lastHighlight := none
          lastScrollY := 0, status := "", panel := "", notifications := []
          downloadInProgress := false
          pkgInflight := []
          verInflight := []
          dlInflight := []
          fsPart := false, fsDest := false } "bioconda").allNames = ["pkga"]
    ∧ (PixiBrowse.apply_channel_selection
        ({ discover := fun _ => [], gwNames := fun _ _ => some []
           gwQuery := fun _ _ _ => [], curPlatform := "linux-64"
           vstr := fun _ => "v", renderPkg := fun _ _ => "P"
           renderVer := fun _ _ => "D" } : Env ℕ)
        { channelName := "conda-forge", mode := ViewMode.packages
          searchQuery := "", filterMode := false
          available := ["linux-64"]
          selected := {"linux-64"}, draft := none
          platforms := ["linux-64"]
          allNames := ["pkga"], visibleNames := ["pkga"], recordsCache := []
          detailsCache := [], currentVersions := ([] : List (VersionEntry ℕ))
          versionSubdirs := []
          versionsBySubdir := [], collapsedSubdirs := ∅, versionRows := []
          selectedPackage := none, previewedPackage := none
          pendingPackage := none, previewedVKey := none, pendingVKey := none
          highlight := none, scrollY := 0, lastHighlight := none
          lastScrollY := 0, status := "", panel := "", notifications := []
          downloadInProgress := false
          pkgInflight := []
          verInflight := []
          dlInflight := []
          fsPart := false, fsDest := false } "bioconda").selected = {"linux-64"}
    ∧ (PixiBrowse.apply_channel_selection
        ({ discover := fun _ => [], gwNames := fun _ _ => some []
           gwQuery := fun _ _ _ => [], curPlatform := "linux-64"
           vstr := fun _ => "v", renderPkg := fun _ _ => "P"
           renderVer := fun _ _ => "D" } : Env ℕ)
        { channelName := "conda-forge", mode := ViewMode.packages
          searchQuery := "", filterMode := false
          available := ["linux-64"]
          selected := {"linux-64"}, draft := none
          platforms := ["linux-64"]
          allNames := ["pkga"], visibleNames := ["pkga"], recordsCache := []
          detailsCache := [], currentVersions := ([] : List (VersionEntry ℕ))
          versionSubdirs := []
          versionsBySubdir := [], collapsedSubdirs := ∅, versionRows := []
          selectedPackage := none, previewedPackage := none
          pendingPackage := none, previewedVKey := none, pendingVKey := none
          highlight := none, scrollY := 0, lastHighlight := none
          lastScrollY := 0, status := "", panel := "", notifications := []
          downloadInProgress := false
          pkgInflight := []
          verInflight := []
          dlInflight := []
          fsPart := false, fsDest := false } "bioconda").notifications
      = [PixiBrowse.failedChannelText "bioconda"] := by
  have h := channel_switch_failure_restore
    ({ discover := fun _ => [], gwNames := fun _ _ => some []
       gwQuery := fun _ _ _ => [], curPlatform := "linux-64"
       vstr := fun _ => "v", renderPkg := fun _ _ => "P"
       renderVer := fun _ _ => "D" } : Env ℕ)
    { channelName := "conda-forge", mode := ViewMode.packages
      searchQuery := "", filterMode := false
      available := ["linux-64"]
      selected := {"linux-64"}, draft := none
      platforms := ["linux-64"]
      allNames := ["pkga"], visibleNames := ["pkga"], recordsCache := []
      detailsCache := [], currentVersions := ([] : List (VersionEntry ℕ))
      versionSubdirs := []
      versionsBySubdir := [], collapsedSubdirs := ∅, versionRows := []
      selectedPackage := none, previewedPackage := none
      pendingPackage := none, previewedVKey := none, pendingVKey := none
      highlight := none, scrollY := 0, lastHighlight := none
      lastScrollY := 0, status := "", panel := "", notifications := []
      downloadInProgress := false
      pkgInflight := []
      verInflight := []
      dlInflight := []
      fsPart := false, fsDest := false } "bioconda"
    ({ (clear_channel_loaded_state
        { ({ channelName := "conda-forge", mode := ViewMode.packages
             searchQuery := "", filterMode := false
             available := ["linux-64"]
             selected := {"linux-64"}, draft := none
             platforms := ["linux-64"]
             allNames := ["pkga"], visibleNames := ["pkga"], recordsCache := []
             detailsCache := [], currentVersions := ([] : List (VersionEntry ℕ))
             versionSubdirs := []
             versionsBySubdir := [], collapsedSubdirs := ∅, versionRows := []
             selectedPackage := none, previewedPackage := none
             pendingPackage := none, previewedVKey := none, pendingVKey := none
             highlight := none, scrollY := 0, lastHighlight := none
             lastScrollY := 0, status := "", panel := "", notifications := []
             downloadInProgress := false
             pkgInflight := []
             verInflight := []
             dlInflight := []
             fsPart := false, fsDest := false } : Ctrl ℕ) with
          channelName := stripString "bioconda" }) with
      panel := loadingChannelPanelText (stripString "bioconda")
      status := failedLoadRepodataText } : Ctrl ℕ)
    (by decide) (by decide) rfl
  exact ⟨h.1, h.2.1, h.2.2.2.2.1, h.2.2.2.2.2.2.2.2.2.2.2⟩

/-- Claim C5: applying the platform draft.  (1) When the availability-
restricted draft equals the committed selection the controller just
returns to packages mode: both caches are untouched, the package list is
kept, and the result does not depend on the gateway functions of the
environment.  (2) When the draft differs, is non-empty and the gateway
answers, the committed selection is replaced by the restricted draft,
both caches are cleared, and the package list is re-fetched from the
gateway answer.  (3) When the gateway fails, the committed selection is
rolled back and the package list survives, but the final status is the
unconditional "N packages in selection." text written by
`_back_to_packages` — the "Failed to load selected platforms" error it
was supposed to surface is overwritten within the same handler. -/
theorem platform_apply_spec {V : Type} [LinearOrder V] (env : Env V) (s : Ctrl V) :
    ((s.draft.getD s.selected).filter (fun p => p ∈ s.available) = s.selected →
      s.selected ≠ ∅ →
      apply_platform_selection env s = back_to_packages env { s with draft := none }
      ∧ (apply_platform_selection env s).mode = ViewMode.packages
      ∧ (apply_platform_selection env s).recordsCache = s.recordsCache
      ∧ (apply_platform_selection env s).detailsCache = s.detailsCache
      ∧ (apply_platform_selection env s).allNames = s.allNames
      ∧ ∀ env' : Env V, env'.renderPkg = env.renderPkg →
          apply_platform_selection env' s = apply_platform_selection env s)
    ∧ (∀ raw : List String,
        (s.draft.getD s.selected).filter (fun p => p ∈ s.available) ≠ ∅ →
        (s.draft.getD s.selected).filter (fun p => p ∈ s.available) ≠ s.selected →
        s.available ≠ [] →
        env.gwNames s.channelName (sorted_platforms_of
          ((s.draft.getD s.selected).filter (fun p => p ∈ s.available)))
          = some raw →
        (apply_platform_selection env s).selected
            = (s.draft.getD s.selected).filter (fun p => p ∈ s.available)
        ∧ (apply_platform_selection env s).draft = none
        ∧ (apply_platform_selection env s).mode = ViewMode.packages
        ∧ (apply_platform_selection env s).recordsCache = []
        ∧ (apply_platform_selection env s).detailsCache = []
        ∧ (apply_platform_selection env s).allNames
            = sortBy (fun a b => decide (strKey a ≤ strKey b))
                ((raw.map normalizedName).dedup))
    ∧ ((s.draft.getD s.selected).filter (fun p => p ∈ s.available) ≠ ∅ →
        (s.draft.getD s.selected).filter (fun p => p ∈ s.available) ≠ s.selected →
        s.available ≠ [] →
        env.gwNames s.channelName (sorted_platforms_of
          ((s.draft.getD s.selected).filter (fun p => p ∈ s.available))) = none →
        (apply_platform_selection env s).selected = s.selected
        ∧ (apply_platform_selection env s).allNames = s.allNames
        ∧ (apply_platform_selection env s).mode = ViewMode.packages
        ∧ (apply_platform_selection env s).status
            = packagesSelectionStatusText
                (computed_visible s.filterMode s.searchQuery s.allNames).length) := by
  refine ⟨?_, ?_, ?_⟩
  · intro hsel hne
    have he : ∀ e : Env V,
        apply_platform_selection e s
          = back_to_packages e { s with draft := none } := by
      intro e
      unfold apply_platform_selection
      simp [hsel, hne]
    obtain ⟨f1, f2, f3, f4, f5, f6, f7, f8, f9, f10, f11, f12, f13, f14⟩ :=
      back_to_packages_fields env { s with draft := none }
    refine ⟨he env, ?_, ?_, ?_, ?_, ?_⟩
    · rw [he env]; exact f1
    · rw [he env]; exact f8
    · rw [he env]; exact f9
    · rw [he env]; exact f7
    · intro env' h
      rw [he env', he env]
      exact back_to_packages_env env env' _ h
  · intro raw hne2 hdiff hA hgw
    have hsub2 : ((s.draft.getD s.selected).filter
          (fun p => p ∈ s.available)).filter (fun p => p ∈ s.available)
        = (s.draft.getD s.selected).filter (fun p => p ∈ s.available) := by
      rw [Finset.filter_filter]
      simp
    have hens : ensure_available_platforms env
        { s with
          selected := (s.draft.getD s.selected).filter (fun p => p ∈ s.available)
          draft := none
          status := loadingSelectedText
          recordsCache := []
          detailsCache := []
          previewedPackage := none
          pendingPackage := none
          previewedVKey := none
          pendingVKey := none }
        = Except.ok
          { s with
            selected := (s.draft.getD s.selected).filter (fun p => p ∈ s.available)
            draft := none
            status := loadingSelectedText
            recordsCache := []
            detailsCache := []
            previewedPackage := none
            pendingPackage := none
            previewedVKey := none
            pendingVKey := none } :=
      ensure_fix env _ hA hsub2 hne2
    have hfetch : fetch_package_names_with_gateway env
        { s with
          selected := (s.draft.getD s.selected).filter (fun p => p ∈ s.available)
          draft := none
          status := loadingSelectedText
          recordsCache := []
          detailsCache := []
          previewedPackage := none
          pendingPackage := none
          previewedVKey := none
          pendingVKey := none }
        = Except.ok
          ({ s with
              selected := (s.draft.getD s.selected).filter
                (fun p => p ∈ s.available)
              draft := none
              status := loadingSelectedText
              recordsCache := []
              detailsCache := []
              previewedPackage := none
              pendingPackage := none
              previewedVKey := none
              pendingVKey := none
              platforms := sorted_platforms_of
                ((s.draft.getD s.selected).filter (fun p => p ∈ s.available)) },
            sortBy (fun a b => decide (strKey a ≤ strKey b))
              ((raw.map normalizedName).dedup)) := by
      simp only [fetch_package_names_with_gateway, fetch_package_names_gw,
        hens, hgw]
    have happ : apply_platform_selection env s
        = filter_packages env
          { s with
            selected := (s.draft.getD s.selected).filter (fun p => p ∈ s.available)
            draft := none
            status := loadingSelectedText
            recordsCache := []
            detailsCache := []
            previewedPackage := none
            pendingPackage := none
            previewedVKey := none
            pendingVKey := none
            platforms := sorted_platforms_of
              ((s.draft.getD s.selected).filter (fun p => p ∈ s.available))
            allNames := sortBy (fun a b => decide (strKey a ≤ strKey b))
              ((raw.map normalizedName).dedup)
            mode := ViewMode.packages } := by
      unfold apply_platform_selection
      simp [reset_preview_state, clear_record_caches, hne2, hdiff, hfetch]
    obtain ⟨vn3, h3, st3, pv3, pp3, pa3, pi3, e3⟩ := filter_packages_shape (V := V)
      env
      { s with
        selected := (s.draft.getD s.selected).filter (fun p => p ∈ s.available)
        draft := none
        status := loadingSelectedText
        recordsCache := []
        detailsCache := []
        previewedPackage := none
        pendingPackage := none
        previewedVKey := none
        pendingVKey := none
        platforms := sorted_platforms_of
          ((s.draft.getD s.selected).filter (fun p => p ∈ s.available))
        allNames := sortBy (fun a b => decide (strKey a ≤ strKey b))
          ((raw.map normalizedName).dedup)
        mode := ViewMode.packages }
    rw [happ, e3]
    exact ⟨rfl, rfl, rfl, rfl, rfl, rfl⟩
  · intro hne2 hdiff hA hgw
    have hsub2 : ((s.draft.getD s.selected).filter
          (fun p => p ∈ s.available)).filter (fun p => p ∈ s.available)
        = (s.draft.getD s.selected).filter (fun p => p ∈ s.available) := by
      rw [Finset.filter_filter]
      simp
    have hens : ensure_available_platforms env
        { s with
          selected := (s.draft.getD s.selected).filter (fun p => p ∈ s.available)
          draft := none
          status := loadingSelectedText
          recordsCache := []
          detailsCache := []
          previewedPackage := none
          pendingPackage := none
          previewedVKey := none
          pendingVKey := none }
        = Except.ok
          { s with
            selected := (s.draft.getD s.selected).filter (fun p => p ∈ s.available)
            draft := none
            status := loadingSelectedText
            recordsCache := []
            detailsCache := []
            previewedPackage := none
            pendingPackage := none
            previewedVKey := none
            pendingVKey := none } :=
      ensure_fix env _ hA hsub2 hne2
    have hfetch3 : fetch_package_names_with_gateway env
        { s with
          selected := (s.draft.getD s.selected).filter (fun p => p ∈ s.available)
          draft := none
          status := loadingSelectedText
          recordsCache := []
          detailsCache := []
          previewedPackage := none
          pendingPackage := none
          previewedVKey := none
          pendingVKey := none }
        = Except.error
          { s with
            selected := (s.draft.getD s.selected).filter (fun p => p ∈ s.available)
            draft := none
            status := loadingSelectedText
            recordsCache := []
            detailsCache := []
            previewedPackage := none
            pendingPackage := none
            previewedVKey := none
            pendingVKey := none } := by
      simp only [fetch_package_names_with_gateway, fetch_package_names_gw,
        hens, hgw]
    have happ3 : apply_platform_selection env s
        = back_to_packages env
          { s with
            selected := s.selected
            draft := none
            status := failedPlatformsText
            recordsCache := []
            detailsCache := []
            previewedPackage := none
            pendingPackage := none
            previewedVKey := none
            pendingVKey := none } := by
      unfold apply_platform_selection
      simp [reset_preview_state, clear_record_caches, hne2, hdiff, hfetch3]
    obtain ⟨f1, f2, f3, f4, f5, f6, f7, f8, f9, f10, f11, f12, f13, f14⟩ :=
      back_to_packages_fields env
      { s with
        selected := s.selected
        draft := none
        status := failedPlatformsText
        recordsCache := []
        detailsCache := []
        previewedPackage := none
        pendingPackage := none
        previewedVKey := none
        pendingVKey := none }
    rw [happ3]
    exact ⟨f5, f7, f1, f14⟩

/-- C5 witness (gateway-failure path on a concrete state): the committed
selection is rolled back, the package list survives, and the final status
is the package-count text, not the failure text. -/
theorem platform_apply_spec_witness :
    (PixiBrowse.apply_platform_selection
        ({ discover := fun _ => [], gwNames := fun _ _ => none
           gwQuery := fun _ _ _ => [], curPlatform := "linux-64"
           vstr := fun _ => "v", renderPkg := fun _ _ => "P"
           renderVer := fun _ _ => "D" } : Env ℕ)
        { channelName := "conda-forge", mode := ViewMode.platforms
          searchQuery := "", filterMode := false
          available := ["linux-64", "osx-64"]
          selected := {"linux-64"}, draft := some {"osx-64"}
          platforms := ["linux-64"]
          allNames := ["pkga"], visibleNames := ["pkga"], recordsCache := []
          detailsCache := [], currentVersions := ([] : List (VersionEntry ℕ))
          versionSubdirs := []
          versionsBySubdir := [], collapsedSubdirs := ∅, versionRows := []
          selectedPackage := none, previewedPackage := none
          pendingPackage := none, previewedVKey := none, pendingVKey := none
          highlight := none, scrollY := 0, lastHighlight := none
          lastScrollY := 0, status := "", panel := "", notifications := []
          downloadInProgress := false
          pkgInflight := []
          verInflight := []
          dlInflight := []
          fsPart := false, fsDest := false }).selected = {"linux-64"}
    ∧ (PixiBrowse.apply_platform_selection
        ({ discover := fun _ => [], gwNames := fun _ _ => none
           gwQuery := fun _ _ _ => [], curPlatform := "linux-64"
           vstr := fun _ => "v", renderPkg := fun _ _ => "P"
           renderVer := fun _ _ => "D" } : Env ℕ)
        { channelName := "conda-forge", mode := ViewMode.platforms
          searchQuery := "", filterMode := false
          available := ["linux-64", "osx-64"]
          selected := {"linux-64"}, draft := some {"osx-64"}
          platforms := ["linux-64"]
          allNames := ["pkga"], visibleNames := ["pkga"], recordsCache := []
          detailsCache := [], currentVersions := ([] : List (VersionEntry ℕ))
          versionSubdirs := []
          versionsBySubdir := [], collapsedSubdirs := ∅, versionRows := []
          selectedPackage := none, previewedPackage := none
          pendingPackage := none, previewedVKey := none, pendingVKey := none
          highlight := none, scrollY := 0, lastHighlight := none
          lastScrollY := 0, status := "", panel := "", notifications := []
          downloadInProgress := false
          pkgInflight := []
          verInflight := []
          dlInflight := []
          fsPart := false, fsDest := false }).allNames = ["pkga"]
    ∧ (PixiBrowse.apply_platform_selection
        ({ discover := fun _ => [], gwNames := fun _ _ => none
           gwQuery := fun _ _ _ => [], curPlatform := "linux-64"
           vstr := fun _ => "v", renderPkg := fun _ _ => "P"
           renderVer := fun _ _ => "D" } : Env ℕ)
        { channelName := "conda-forge", mode := ViewMode.platforms
          searchQuery := "", filterMode := false
          available := ["linux-64", "osx-64"]
          selected := {"linux-64"}, draft := some {"osx-64"}
          platforms := ["linux-64"]
          allNames := ["pkga"], visibleNames := ["pkga"], recordsCache := []
          detailsCache := [], currentVersions := ([] : List (VersionEntry ℕ))
          versionSubdirs := []
          versionsBySubdir := [], collapsedSubdirs := ∅, versionRows := []
          selectedPackage := none, previewedPackage := none
          pendingPackage := none, previewedVKey := none, pendingVKey := none
          highlight := none, scrollY := 0, lastHighlight := none
          lastScrollY := 0, status := "", panel := "", notifications := []
          downloadInProgress := false
          pkgInflight := []
          verInflight := []
          dlInflight := []
          fsPart := false, fsDest := false }).status
        = packagesSelectionStatusText 1 := by
  have h := (platform_apply_spec
    ({ discover := fun _ => [], gwNames := fun _ _ => none
       gwQuery := fun _ _ _ => [], curPlatform := "linux-64"
       vstr := fun _ => "v", renderPkg := fun _ _ => "P"
       renderVer := fun _ _ => "D" } : Env ℕ)
    { channelName := "conda-forge", mode := ViewMode.platforms
      searchQuery := "", filterMode := false
      available := ["linux-64", "osx-64"]
      selected := {"linux-64"}, draft := some {"osx-64"}
      platforms := ["linux-64"]
      allNames := ["pkga"], visibleNames := ["pkga"], recordsCache := []
      detailsCache := [], currentVersions := ([] : List (VersionEntry ℕ))
      versionSubdirs := []
      versionsBySubdir := [], collapsedSubdirs := ∅, versionRows := []
      selectedPackage := none, previewedPackage := none
      pendingPackage := none, previewedVKey := none, pendingVKey := none
      highlight := none, scrollY := 0, lastHighlight := none
      lastScrollY := 0, status := "", panel := "", notifications := []
      downloadInProgress := false
      pkgInflight := []
      verInflight := []
      dlInflight := []
      fsPart := false, fsDest := false }).2.2
    (by decide) (by decide) (by decide) rfl
  exact ⟨h.1, h.2.1, h.2.2.2⟩

/-- Claim C8: toggling the platform that is the last remaining member of
the draft leaves the draft unchanged, keeps the committed selection, and
surfaces the "at least one platform must remain selected" warning; every
modelled event step preserves non-emptiness of the committed selection;
hence in every state reachable by event steps after a successful channel
load the committed selection is non-empty. -/
theorem platform_invariant {V : Type} [LinearOrder V] (env : Env V) :
    (∀ (s : Ctrl V) (i : ℕ) (d : Finset String) (hi : i < s.available.length),
      s.draft = some d → s.available.get ⟨i, hi⟩ ∈ d → d.card = 1 →
      (toggle_platform_at_index s i).draft = some d
        ∧ (toggle_platform_at_index s i).selected = s.selected
        ∧ (toggle_platform_at_index s i).status = atLeastOnePlatformText)
    ∧ (∀ s t : Ctrl V, s.selected.Nonempty → Step env s t →
        t.selected.Nonempty)
    ∧ (∀ s₀ s₁ s : Ctrl V, load_packages env s₀ = (s₁, true) →
        Relation.ReflTransGen (Step env) s₁ s → s.selected.Nonempty) := by
  refine ⟨?_, ?_, ?_⟩
  · intro s i d hi hd hm hc
    unfold toggle_platform_at_index
    rw [dif_pos hi]
    have hm2 : s.available[i] ∈ d := hm
    simp [hd, hm2, hc]
  · exact fun s t h hs => step_preserves_selected_nonempty env s t h hs
  · intro s₀ s₁ s hload hreach
    induction hreach with
    | refl => exact load_ok_selected_nonempty env s₀ s₁ hload
    | tail hab hbc ih => exact step_preserves_selected_nonempty env _ _ ih hbc

/-- C8 witness: toggling the single platform of a concrete one-element
draft at index 0 leaves the draft unchanged and shows the warning. -/
theorem platform_invariant_witness :
    (PixiBrowse.toggle_platform_at_index
        { channelName := "conda-forge", mode := ViewMode.platforms
          searchQuery := "", filterMode := false, available := ["linux-64"]
          selected := {"linux-64"}, draft := some {"linux-64"}
          platforms := ["linux-64"]
          allNames := [], visibleNames := [], recordsCache := []
          detailsCache := [], currentVersions := ([] : List (VersionEntry ℕ))
          versionSubdirs := []
          versionsBySubdir := [], collapsedSubdirs := ∅, versionRows := []
          selectedPackage := none, previewedPackage := none
          pendingPackage := none, previewedVKey := none, pendingVKey := none
          highlight := none, scrollY := 0, lastHighlight := none
          lastScrollY := 0, status := "", panel := "", notifications := []
          downloadInProgress := false
          pkgInflight := []
          verInflight := []
          dlInflight := []
          fsPart := false, fsDest := false } 0).draft = some {"linux-64"}
    ∧ (PixiBrowse.toggle_platform_at_index
        { channelName := "conda-forge", mode := ViewMode.platforms
          searchQuery := "", filterMode := false, available := ["linux-64"]
          selected := {"linux-64"}, draft := some {"linux-64"}
          platforms := ["linux-64"]
          allNames := [], visibleNames := [], recordsCache := []
          detailsCache := [], currentVersions := ([] : List (VersionEntry ℕ))
          versionSubdirs := []
          versionsBySubdir := [], collapsedSubdirs := ∅, versionRows := []
          selectedPackage := none, previewedPackage := none
          pendingPackage := none, previewedVKey := none, pendingVKey := none
          highlight := none, scrollY := 0, lastHighlight := none
          lastScrollY := 0, status := "", panel := "", notifications := []
          downloadInProgress := false
          pkgInflight := []
          verInflight := []
          dlInflight := []
          fsPart := false, fsDest := false } 0).selected = {"linux-64"}
    ∧ (PixiBrowse.toggle_platform_at_index
        { channelName := "conda-forge", mode := ViewMode.platforms
          searchQuery := "", filterMode := false, available := ["linux-64"]
          selected := {"linux-64"}, draft := some {"linux-64"}
          platforms := ["linux-64"]
          allNames := [], visibleNames := [], recordsCache := []
          detailsCache := [], currentVersions := ([] : List (VersionEntry ℕ))
          versionSubdirs := []
          versionsBySubdir := [], collapsedSubdirs := ∅, versionRows := []
          selectedPackage := none, previewedPackage := none
          pendingPackage := none, previewedVKey := none, pendingVKey := none
          highlight := none, scrollY := 0, lastHighlight := none
          lastScrollY := 0, status := "", panel := "", notifications := []
          downloadInProgress := false
          pkgInflight := []
          verInflight := []
          dlInflight := []
          fsPart := false, fsDest := false } 0).status
        = atLeastOnePlatformText := by
  exact (platform_invariant
    ({ discover := fun _ => ["linux-64"], gwNames := fun _ _ => some []
       gwQuery := fun _ _ _ => [], curPlatform := "linux-64"
       vstr := fun _ => "v", renderPkg := fun _ _ => "P"
       renderVer := fun _ _ => "D" } : Env ℕ)).1
    { channelName := "conda-forge", mode := ViewMode.platforms
      searchQuery := "", filterMode := false, available := ["linux-64"]
      selected := {"linux-64"}, draft := some {"linux-64"}
      platforms := ["linux-64"]
      allNames := [], visibleNames := [], recordsCache := []
      detailsCache := [], currentVersions := ([] : List (VersionEntry ℕ))
      versionSubdirs := []
      versionsBySubdir := [], collapsedSubdirs := ∅, versionRows := []
      selectedPackage := none, previewedPackage := none
      pendingPackage := none, previewedVKey := none, pendingVKey := none
      highlight := none, scrollY := 0, lastHighlight := none
      lastScrollY := 0, status := "", panel := "", notifications := []
      downloadInProgress := false
      pkgInflight := []
      verInflight := []
      dlInflight := []
      fsPart := false, fsDest := false } 0 {"linux-64"}
    (by simp) rfl (by simp) (by simp)

end PixiBrowse
